import Mathlib

/-!
The netcode core of toy-webrtc-mmo.

A shallow embedding of the netcode packages of the repository
(`internal/netcode/rtt`, `packbuf`, `packs`, `client`, `server`) together with
theorems about them.

Conventions of the embedding:

* Go's fixed-width unsigned integers are natural numbers; every place where the
  Go code can wrap carries an explicit `% 2^w`.  Signed integers are `Int`.
* A byte stream is a `List Nat` of bytes; a reader is the list of bytes that are
  still unread.
* A Go slice is the sequence of its elements (a `nil` slice and an empty slice
  are both the empty sequence, as they are for `len`, `range` and `append`).
* A `float32` is its 32-bit IEEE 754 bit pattern.
* Clock readings (`time.Now()`) are inputs of the functions that read the clock.
-/

/-! ## Definitions -/

/-- Subtraction of two `uint16` values, wrapping modulo `2^16` as in Go. -/
def uint16Sub (a b : Nat) : Nat := (a + 65536 - b) % 65536

namespace rtt

/-- `rtt.IsWrappedUInt16GreaterThan` (rtt.go): is `s1` greater than `s2`, accounting
for overflowing `uint16` counters. -/
def IsWrappedUInt16GreaterThan (s1 s2 : Nat) : Bool :=
  (decide (s1 > s2) && decide (uint16Sub s1 s2 ≤ 32768)) ||
    (decide (s1 < s2) && decide (uint16Sub s2 s1 > 32768))

/-- The constant `maximumRoundTripTimeLimit`, in milliseconds. -/
def maximumRoundTripTimeLimit : Int := 1000

/-- The constant `maxFramerate`. -/
def maxFramerate : Nat := 60

/-- The constant `roundTripTimeLimitInFrames`, the size of the ring of sent packets. -/
def roundTripTimeLimitInFrames : Nat := (1000 / 1000) * maxFramerate

/-- `time.Time.Sub`: the difference of two instants as a `time.Duration` (an `int64` of
nanoseconds), saturating at the largest and smallest duration. An instant is its number of
nanoseconds since the zero `time.Time`. -/
def timeSub (t u : Int) : Int :=
  if t - u > 9223372036854775807 then 9223372036854775807
  else if t - u < -9223372036854775808 then -9223372036854775808
  else t - u

/-- `time.Duration.Milliseconds`: whole milliseconds, truncated toward zero. -/
def Milliseconds (d : Int) : Int := d.tdiv 1000000

/-- The struct `packetSequence`: a sent sequence number and when it was sent. -/
structure packetSequence where
  SequenceID : Nat
  Time : Int
  deriving DecidableEq, Repr

/-- The struct `RoundTripTracking`. -/
structure RoundTripTracking where
  packetSequenceID : Nat
  packetSequenceList : List packetSequence
  latency : Int
  deriving DecidableEq, Repr

/-- The zero value `RoundTripTracking{}`: counter 0, a ring of 60 zero entries, latency 0. -/
def RoundTripTracking.fresh : RoundTripTracking :=
  ⟨0, List.replicate roundTripTimeLimitInFrames ⟨0, 0⟩, 0⟩

/-- The loop of `Next` over the ring: the first slot whose time is more than 1000 ms before
`now` takes `{seqID, now}`, and the loop stops there. -/
def storeInFreeSlot (seqID : Nat) (now : Int) : List packetSequence → List packetSequence
  | [] => []
  | sequence :: rest =>
    if Milliseconds (timeSub now sequence.Time) > maximumRoundTripTimeLimit then
      ⟨seqID, now⟩ :: rest
    else sequence :: storeInFreeSlot seqID now rest

/-- `RoundTripTracking.Next`, with the clock reading `now`: the sequence number returned and
the tracker afterwards. -/
def RoundTripTracking.Next (rtt : RoundTripTracking) (now : Int) : Nat × RoundTripTracking :=
  (rtt.packetSequenceID,
    { rtt with
      packetSequenceID := (rtt.packetSequenceID + 1) % 65536
      packetSequenceList := storeInFreeSlot rtt.packetSequenceID now rtt.packetSequenceList })

/-- `RoundTripTracking.Ack`, with the clock reading `now`. The `float64` expression
`float64(latency) + 0.10 * float64(timePacketSent - latency)`, converted back to a
`time.Duration`, is the argument `ewma latency (timePacketSent - latency)`. -/
def RoundTripTracking.Ack (ewma : Int → Int → Int) (rtt : RoundTripTracking) (now : Int)
    (seqID : Nat) : RoundTripTracking :=
  match rtt.packetSequenceList.find? (fun sequence => sequence.SequenceID == seqID) with
  | none => rtt
  | some foundSequence =>
    let timePacketSent := timeSub now foundSequence.Time
    if rtt.latency = 0 then { rtt with latency := timePacketSent }
    else { rtt with latency := ewma rtt.latency (timePacketSent - rtt.latency) }

end rtt

/-! ### Go errors, byte order, readers and writers -/

/-- Error values the netcode returns. `New` is `errors.New` with its message, `Errorf` is
`fmt.Errorf` with its format string (the `%T` arguments are not rendered). -/
inductive GoError
  | EOF
  | ErrUnexpectedEOF
  | InvalidPacketID (id : Nat)
  | New (msg : String)
  | Errorf (format : String)
  deriving DecidableEq, Repr

/-- The `Error()` string of an error value. -/
def GoError.Error : GoError → String
  | .EOF => "EOF"
  | .ErrUnexpectedEOF => "unexpected EOF"
  | .InvalidPacketID id => "invalid packet id: " ++ toString id
  | .New msg => msg
  | .Errorf format => format

/-- How a call ends when it does not return normally: with a returned error, or with a
run-time panic. -/
inductive Fault
  | err (e : GoError)
  | panic (msg : String)
  deriving DecidableEq, Repr

/-- Little-endian bytes of `n`, `width` of them (`binary.LittleEndian.PutUintNN`): the value is
truncated to `8 * width` bits. -/
def leBytes : Nat → Nat → List Nat
  | 0, _ => []
  | width + 1, n => n % 256 :: leBytes width (n / 256)

/-- The number held by little-endian bytes (`binary.LittleEndian.UintNN`). -/
def leNat : List Nat → Nat
  | [] => 0
  | b :: bs => b % 256 + 256 * leNat bs

/-- Conversion of a signed integer to the unsigned integer of `bits` bits with the same
two's-complement representation (`uint64(i)`, `uint16(i)`, ...). -/
def toUnsigned (bits : Nat) (i : Int) : Nat := (i % (2 ^ bits : Nat)).toNat

/-- Conversion of an unsigned integer of `bits` bits to the signed integer with the same
two's-complement representation (`int32(u)`, `int64(u)`). -/
def toSigned (bits : Nat) (u : Nat) : Int :=
  if u % 2 ^ bits < 2 ^ (bits - 1) then (u % 2 ^ bits : Nat) else (u % 2 ^ bits : Nat) - (2 ^ bits : Nat)

/-- Result of reading from a byte reader: the value and the unread bytes, or the fault and
the bytes still unread when it happened. -/
inductive ReadResult (α : Type)
  | ok (value : α) (rest : List Nat)
  | fail (fault : Fault) (rest : List Nat)
  deriving DecidableEq, Repr

/-- Bytes appended to a writer by a call, with the error or panic that ended the call, if
any. The writers of the repository are `bytes.Buffer`s, whose `Write` never fails. -/
structure WriteResult where
  bytes : List Nat
  fault : Option Fault
  deriving DecidableEq, Repr

/-- The bytes still unread after a read, whether it succeeded or failed. -/
def ReadResult.rest {α : Type} : ReadResult α → List Nat
  | .ok _ rest => rest
  | .fail _ rest => rest

/-- A write of `bytes` that succeeds. -/
def WriteResult.wrote (bytes : List Nat) : WriteResult := ⟨bytes, none⟩

/-- A call that fails without writing. -/
def WriteResult.failed (f : Fault) : WriteResult := ⟨[], some f⟩

/-- Sequencing of two writes: the second happens only when the first returned no error. -/
def WriteResult.andThen (a b : WriteResult) : WriteResult :=
  match a.fault with
  | some f => ⟨a.bytes, some f⟩
  | none => ⟨a.bytes ++ b.bytes, b.fault⟩

/-- Sequencing of reads: `f` continues on the unread bytes when the first read succeeded. -/
def ReadResult.bind {α β : Type} (a : ReadResult α) (f : α → List Nat → ReadResult β) :
    ReadResult β :=
  match a with
  | .ok v rest => f v rest
  | .fail e rest => .fail e rest

/-- The value read, transformed. -/
def ReadResult.map {α β : Type} (a : ReadResult α) (f : α → β) : ReadResult β :=
  match a with
  | .ok v rest => .ok (f v) rest
  | .fail e rest => .fail e rest

/-- `binary.Read(r, binary.LittleEndian, &v)` for a value of `size > 0` bytes, which is
`io.ReadFull`: `io.EOF` when no byte is left, `io.ErrUnexpectedEOF` (all bytes consumed)
when fewer than `size` are left. -/
def binaryRead (size : Nat) (r : List Nat) : ReadResult (List Nat) :=
  if r.length = 0 then .fail (.err .EOF) r
  else if r.length < size then .fail (.err .ErrUnexpectedEOF) []
  else .ok (r.take size) (r.drop size)

/-- `(*bytes.Reader).Read(b)` with `len(b) = size` on a zero-filled `b`: `io.EOF` when no
byte is left, otherwise as many bytes as are left are copied and no error is returned. -/
def readerRead (size : Nat) (r : List Nat) : ReadResult (List Nat) :=
  if r.length = 0 then .fail (.err .EOF) r
  else .ok (r.take size ++ List.replicate (size - r.length) 0) (r.drop size)

/-- The value `float32(float64(v))` of a `float32` with bit pattern `bits`. Every `float32`
is exactly representable as a `float64`, so every number and infinity comes back unchanged;
the conversion is an IEEE 754 operation, so a signalling NaN (exponent all ones, mantissa
non-zero with its top bit clear) comes back as the quiet NaN with the same payload. -/
def float32ViaFloat64 (bits : Nat) : Nat :=
  if 0x7F800000 < bits % 0x80000000 ∧ bits % 0x80000000 < 0x7FC00000 then bits + 0x400000
  else bits

/-- The bit pattern of a `float32` is a signalling NaN: exponent all ones, mantissa non-zero
with its top bit clear (the sign bit is free). -/
def isSignallingNaN32 (bits : Nat) : Prop :=
  0x7F800000 < bits % 0x80000000 ∧ bits % 0x80000000 < 0x7FC00000

instance (bits : Nat) : Decidable (isSignallingNaN32 bits) :=
  inferInstanceAs (Decidable (_ ∧ _))

/-! ### `packbuf`: the reflection-driven codec -/

namespace packbuf

/-- The constant `maxStringSize`. -/
def maxStringSize : Nat := 65535

mutual
/-- Go types as `reflect` shows them to the codec; `other` is any kind the codec has no
case for (`uint32`, `int8`, maps, ...), with its kind name. -/
inductive Ty
  | bool | uint8 | uint16 | uint64 | int | int16 | int32 | int64 | float32 | float64 | string
  | other (kind : String)
  | slice (elem : Ty)
  | ptr (elem : Ty)
  | struct (fields : Fields)
/-- The fields of a struct type in declaration order, each with whether it is exported
(`CanSet`). -/
inductive Fields
  | nil
  | cons (exported : Bool) (type : Ty) (rest : Fields)
end

/-- Go values as `reflect` shows them to the codec. -/
inductive Value
  | bool (b : Bool)
  | uint (n : Nat)
  | int (i : Int)
  | float32 (bits : Nat)
  | float64 (bits : Nat)
  | string (s : List Nat)
  | other
  | slice (items : List Value)
  | nilptr
  | ptr (target : Value)
  | struct (fields : List Value)

/-- Name of the kind of a type (`Kind().String()`). -/
def Ty.kindString : Ty → String
  | .bool => "bool" | .uint8 => "uint8" | .uint16 => "uint16" | .uint64 => "uint64"
  | .int => "int" | .int16 => "int16" | .int32 => "int32" | .int64 => "int64"
  | .float32 => "float32" | .float64 => "float64" | .string => "string"
  | .other kind => kind
  | .slice _ => "slice" | .ptr _ => "ptr" | .struct _ => "struct"

mutual
/-- The zero value of a type (what `reflect.New` and `reflect.MakeSlice` create). -/
def zero : Ty → Value
  | .bool => .bool false
  | .uint8 => .uint 0 | .uint16 => .uint 0 | .uint64 => .uint 0
  | .int => .int 0 | .int16 => .int 0 | .int32 => .int 0 | .int64 => .int 0
  | .float32 => .float32 0 | .float64 => .float64 0
  | .string => .string []
  | .other _ => .other
  | .slice _ => .slice []
  | .ptr _ => .nilptr
  | .struct fs => .struct (zeroFields fs)
/-- The zero values of the fields of a struct type. -/
def zeroFields : Fields → List Value
  | .nil => []
  | .cons _ t rest => zero t :: zeroFields rest
end

/-- A value that does not have the shape of its type; not reachable from Go. -/
def illTyped : Fault := .panic "value does not match its type"

/-- A loop `for i := 0; i < sliceLen; i++` writing each element with `f`, stopping at the
first error. -/
def writeItems (f : Value → WriteResult) : List Value → WriteResult
  | [] => .wrote []
  | v :: vs => (f v).andThen (writeItems f vs)

/-- A loop `for i := 0; i < sliceLen; i++` reading each element with `f`, stopping at the
first error. -/
def readItems (f : List Nat → ReadResult Value) : Nat → List Nat → ReadResult (List Value)
  | 0, r => .ok [] r
  | n + 1, r => (f r).bind fun v rest => (readItems f n rest).map fun vs => v :: vs

/-- The byte held by an element of a `[]uint8`. -/
def Value.toByte : Value → Nat
  | .uint n => n % 256
  | _ => 0

mutual
/-- The body of the loop over the fields in `writeStruct` (packbufwrite.go), for an exported
field of type `t` holding `v`. -/
def writeField : Ty → Value → WriteResult
  | .slice elem, .slice items =>
    -- sliceLenCompact := int32(field.Len()), written as four little-endian bytes
    (WriteResult.wrote (leBytes 4 (items.length % 2 ^ 32))).andThen
      (match elem with
        | .struct fs =>
          writeItems (fun v => match v with
            | .struct vs => writeStruct fs vs
            | _ => .failed illTyped) items
        | .ptr (.struct fs) =>
          writeItems (fun v => match v with
            | .ptr (.struct vs) => writeStruct fs vs
            | .nilptr => .failed (.panic "reflect: call of reflect.Value.NumField on zero Value")
            | _ => .failed illTyped) items
        | .ptr _ => .failed (.err (.New "unable to handle []*Type where Type is not a struct"))
        | .uint8 => .wrote (items.map Value.toByte)
        | .uint16 =>
          writeItems (fun v => match v with
            | .uint n => .wrote (leBytes 2 n)
            | _ => .failed illTyped) items
        | t => .failed (.err (.New ("TODO: writeStruct for type: " ++ t.kindString))))
  | .struct fs, .struct vs => writeStruct fs vs
  | .bool, .bool b => .wrote [if b then 1 else 0]
  -- bs has length 1 and binary.LittleEndian.PutUint64(bs, ...) indexes bs[7]
  | .uint8, .uint _ => .failed (.panic "runtime error: index out of range [7] with length 1")
  | .int, .int i => .wrote (leBytes 8 (toUnsigned 64 i))
  | .int16, .int i => .wrote (leBytes 2 (toUnsigned 16 i))
  | .float32, .float32 bits => .wrote (leBytes 4 bits)
  | .int32, .int i => .wrote (leBytes 4 (toUnsigned 32 i))
  | .int64, .int i => .wrote (leBytes 8 (toUnsigned 64 i))
  | .uint16, .uint n => .wrote (leBytes 2 n)
  | .uint64, .uint n => .wrote (leBytes 8 n)
  | .float64, .float64 bits => .wrote (leBytes 8 bits)
  | .string, .string s =>
    if s.length > maxStringSize then
      .failed (.err (.New ("cannot write string larger than " ++ toString maxStringSize)))
    else
      (WriteResult.wrote (leBytes 2 s.length)).andThen (.wrote s)
  | .other _, _ =>
    .failed (.err (.Errorf "Cannot write unsupported data type: %T in packet type %T"))
  | .ptr _, _ =>
    .failed (.err (.Errorf "Cannot write unsupported data type: %T in packet type %T"))
  | _, _ => .failed illTyped
/-- `writeStruct` (packbufwrite.go): the fields of a struct, written in declaration order.
The message of the error for an unexported field ends, in Go, with the rendering of the
field, which is left out. -/
def writeStruct : Fields → List Value → WriteResult
  | .nil, _ => .wrote []
  | .cons exported t rest, v :: vs =>
    if !exported then .failed (.err (.New "cannot serialize unexported field: "))
    else (writeField t v).andThen (writeStruct rest vs)
  | .cons _ _ _, [] => .failed illTyped
end

mutual
/-- The body of the loop over the fields in `readStruct` (packbufread.go), for an exported
field of type `t` that holds `v` before the read; the result is what the field holds
afterwards. `reflect.MakeSlice` is taken to succeed for every non-negative length. -/
def readField : Ty → Value → List Nat → ReadResult Value
  | .slice elem, v, r =>
    (binaryRead 4 r).bind fun bs rest =>
      let sliceLen : Int := toSigned 32 (leNat bs)
      if sliceLen = 0 then .ok v rest
      else if sliceLen < 0 then .fail (.panic "reflect.MakeSlice: negative len") rest
      else
        match elem with
        | .uint8 =>
          (readerRead sliceLen.toNat rest).map fun value => .slice (value.map .uint)
        | .uint16 =>
          (readItems (fun r => (binaryRead 2 r).map fun bs => .uint (leNat bs))
            sliceLen.toNat rest).map .slice
        | .struct fs =>
          (readItems (fun r => (readStruct fs (zeroFields fs) r).map .struct)
            sliceLen.toNat rest).map .slice
        | .ptr (.struct fs) =>
          (readItems (fun r => (readStruct fs (zeroFields fs) r).map fun vs => .ptr (.struct vs))
            sliceLen.toNat rest).map .slice
        | .ptr _ =>
          .fail (.err (.New "unable to handle []*Type where Type is not a struct")) rest
        | t => .fail (.err (.New ("TODO: Read: " ++ t.kindString))) rest
  | .struct fs, .struct vs, r => (readStruct fs vs r).map .struct
  | .struct _, _, r => .fail illTyped r
  | .bool, _, r => (binaryRead 1 r).map fun bs => .bool (decide (leNat bs ≠ 0))
  | .uint8, _, r => (binaryRead 1 r).map fun bs => .uint (leNat bs)
  | .uint16, _, r => (binaryRead 2 r).map fun bs => .uint (leNat bs)
  | .uint64, _, r => (binaryRead 8 r).map fun bs => .uint (leNat bs)
  | .int, _, r => (binaryRead 8 r).map fun bs => .int (toSigned 64 (leNat bs))
  | .int64, _, r => (binaryRead 8 r).map fun bs => .int (toSigned 64 (leNat bs))
  | .int32, _, r => (binaryRead 4 r).map fun bs => .int (toSigned 32 (leNat bs))
  | .float32, _, r => (binaryRead 4 r).map fun bs => .float32 (float32ViaFloat64 (leNat bs))
  | .float64, _, r => (binaryRead 8 r).map fun bs => .float64 (leNat bs)
  | .string, v, r =>
    (binaryRead 2 r).bind fun bs rest =>
      let stringSize := leNat bs
      if stringSize > maxStringSize then
        .fail (.err (.New ("cannot write string larger than " ++ toString maxStringSize))) rest
      else if stringSize = 0 then .ok v rest
      else (readerRead stringSize rest).map .string
  | .int16, _, r =>
    .fail (.err (.Errorf "cannot read unsupported data type: %T in struct %T")) r
  | .other _, _, r =>
    .fail (.err (.Errorf "cannot read unsupported data type: %T in struct %T")) r
  | .ptr _, _, r =>
    .fail (.err (.Errorf "cannot read unsupported data type: %T in struct %T")) r
/-- `readStruct` (packbufread.go): the fields of a struct, read in declaration order into
the struct holding `vs`; a field that is not exported is skipped. -/
def readStruct : Fields → List Value → List Nat → ReadResult (List Value)
  | .nil, _, r => .ok [] r
  | .cons exported t rest, v :: vs, r =>
    if !exported then (readStruct rest vs r).map fun vs1 => v :: vs1
    else (readField t v r).bind fun v1 r1 => (readStruct rest vs r1).map fun vs1 => v1 :: vs1
  | .cons _ _ _, [], r => .fail illTyped r
end

/-- `packbuf.Write` on a pointer to a struct of type `t` holding `v`. -/
def Write (t : Ty) (v : Value) : WriteResult :=
  match t, v with
  | .struct fs, .struct vs => writeStruct fs vs
  | _, _ => .failed illTyped

/-- `packbuf.Read` into a pointer to a struct of type `t` holding `v`. -/
def Read (r : List Nat) (t : Ty) (v : Value) : ReadResult Value :=
  match t, v with
  | .struct fs, .struct vs => (readStruct fs vs r).map .struct
  | _, _ => .fail illTyped r

end packbuf

/-! ### `ent` and `packs`: the packets and their envelope -/

namespace ent

/-- The struct `ent.PlayerInput`. -/
structure PlayerInput where
  IsHoldingLeft : Bool
  IsHoldingRight : Bool
  IsHoldingJump : Bool
  deriving DecidableEq, Repr

/-- The struct `ent.Player`; its `float32` fields are bit patterns. -/
structure Player where
  NetID : Nat
  Inputs : PlayerInput
  X : Nat
  Y : Nat
  Width : Nat
  Height : Nat
  Hspeed : Nat
  Vspeed : Nat
  DirLeft : Bool
  deriving DecidableEq, Repr

end ent

namespace packs

open packbuf

/-- The struct `packs.ClientFrameInput` (the `ent.PlayerInput` is embedded). -/
structure ClientFrameInput where
  Frame : Nat
  PlayerInput : ent.PlayerInput
  deriving DecidableEq, Repr

/-- The struct `packs.PlayerState`; its `float32` fields are bit patterns. -/
structure PlayerState where
  NetID : Nat
  X : Nat
  Y : Nat
  Hspeed : Nat
  Vspeed : Nat
  DirLeft : Bool
  deriving DecidableEq, Repr

/-- The struct `packs.AckPacket`. -/
structure AckPacket where
  SequenceIDList : List Nat
  deriving DecidableEq, Repr

/-- The struct `packs.ClientPlayerPacket`. -/
structure ClientPlayerPacket where
  InputBuffer : List ClientFrameInput
  deriving DecidableEq, Repr

/-- The struct `packs.ServerWorldStatePacket`. -/
structure ServerWorldStatePacket where
  MyNetID : Nat
  LastSimulatedInputFrame : Nat
  Players : List PlayerState
  deriving DecidableEq, Repr

/-- A value of the interface `packs.Packet`: one of the three packet structs. -/
inductive Packet
  | Ack (packet : AckPacket)
  | ClientPlayer (packet : ClientPlayerPacket)
  | ServerWorldState (packet : ServerWorldStatePacket)
  deriving DecidableEq, Repr

/-- The constant `packetAck`. -/
def packetAck : Nat := 1

/-- The constant `packetClientPlayerUpdate`. -/
def packetClientPlayerUpdate : Nat := 2

/-- The constant `packetWorldStateUpdate`. -/
def packetWorldStateUpdate : Nat := 3

/-- The method `ID()` of the three packet structs. -/
def Packet.ID : Packet → Nat
  | .Ack _ => packetAck
  | .ClientPlayer _ => packetClientPlayerUpdate
  | .ServerWorldState _ => packetWorldStateUpdate

/-- The type of `ent.PlayerInput` as reflection shows it. -/
def PlayerInputType : Ty :=
  .struct (.cons true .bool (.cons true .bool (.cons true .bool .nil)))

/-- The type of `ClientFrameInput` as reflection shows it. -/
def ClientFrameInputFields : Fields :=
  .cons true .uint16 (.cons true PlayerInputType .nil)

/-- The type of `PlayerState` as reflection shows it. -/
def PlayerStateFields : Fields :=
  .cons true .uint16 (.cons true .float32 (.cons true .float32 (.cons true .float32
    (.cons true .float32 (.cons true .bool .nil)))))

/-- The type of `AckPacket` as reflection shows it. -/
def AckPacketType : Ty := .struct (.cons true (.slice .uint16) .nil)

/-- The type of `ClientPlayerPacket` as reflection shows it. -/
def ClientPlayerPacketType : Ty :=
  .struct (.cons true (.slice (.struct ClientFrameInputFields)) .nil)

/-- The type of `ServerWorldStatePacket` as reflection shows it. -/
def ServerWorldStatePacketType : Ty :=
  .struct (.cons true .uint16 (.cons true .uint16
    (.cons true (.slice (.struct PlayerStateFields)) .nil)))

/-- The map `packetIDToType` after the three `init` functions have registered their packet:
the type registered under an id, if any. -/
def packetIDToType (id : Nat) : Option Ty :=
  if id = packetAck then some AckPacketType
  else if id = packetClientPlayerUpdate then some ClientPlayerPacketType
  else if id = packetWorldStateUpdate then some ServerWorldStatePacketType
  else none

/-- An `ent.PlayerInput` as a reflected value. -/
def PlayerInputValue (i : ent.PlayerInput) : Value :=
  .struct [.bool i.IsHoldingLeft, .bool i.IsHoldingRight, .bool i.IsHoldingJump]

/-- A `ClientFrameInput` as a reflected value. -/
def ClientFrameInput.toValue (f : ClientFrameInput) : Value :=
  .struct [.uint f.Frame, PlayerInputValue f.PlayerInput]

/-- A `PlayerState` as a reflected value. -/
def PlayerState.toValue (p : PlayerState) : Value :=
  .struct [.uint p.NetID, .float32 p.X, .float32 p.Y, .float32 p.Hspeed, .float32 p.Vspeed,
    .bool p.DirLeft]

/-- The struct a packet points to, as a reflected value. -/
def Packet.toValue : Packet → Value
  | .Ack p => .struct [.slice (p.SequenceIDList.map .uint)]
  | .ClientPlayer p => .struct [.slice (p.InputBuffer.map ClientFrameInput.toValue)]
  | .ServerWorldState p =>
    .struct [.uint p.MyNetID, .uint p.LastSimulatedInputFrame,
      .slice (p.Players.map PlayerState.toValue)]

/-- The reflected type of the struct a packet points to. -/
def Packet.type : Packet → Ty
  | .Ack _ => AckPacketType
  | .ClientPlayer _ => ClientPlayerPacketType
  | .ServerWorldState _ => ServerWorldStatePacketType

/-- The elements of a reflected slice as typed values, when each has the expected shape. -/
def ofValues {α : Type} (f : Value → Option α) : List Value → Option (List α)
  | [] => some []
  | v :: vs =>
    match f v, ofValues f vs with
    | some a, some as => some (a :: as)
    | _, _ => none

/-- A reflected `uint16` as a number. -/
def uintOfValue : Value → Option Nat
  | .uint n => some n
  | _ => none

/-- A reflected `ClientFrameInput` as a struct. -/
def ClientFrameInput.ofValue : Value → Option ClientFrameInput
  | .struct [.uint frame, .struct [.bool l, .bool r, .bool j]] => some ⟨frame, ⟨l, r, j⟩⟩
  | _ => none

/-- A reflected `PlayerState` as a struct. -/
def PlayerState.ofValue : Value → Option PlayerState
  | .struct [.uint id, .float32 x, .float32 y, .float32 h, .float32 v, .bool d] =>
    some ⟨id, x, y, h, v, d⟩
  | _ => none

/-- The packet struct registered under `id`, from its reflected value
(`reflect.New(packetType).Interface().(Packet)` once `packbuf.Read` has filled it). -/
def Packet.ofValue (id : Nat) (v : Value) : Option Packet :=
  if id = packetAck then
    match v with
    | .struct [.slice items] => (ofValues uintOfValue items).map fun l => .Ack ⟨l⟩
    | _ => none
  else if id = packetClientPlayerUpdate then
    match v with
    | .struct [.slice items] =>
      (ofValues ClientFrameInput.ofValue items).map fun l => .ClientPlayer ⟨l⟩
    | _ => none
  else if id = packetWorldStateUpdate then
    match v with
    | .struct [.uint netID, .uint frame, .slice items] =>
      (ofValues PlayerState.ofValue items).map fun l => .ServerWorldState ⟨netID, frame, l⟩
    | _ => none
  else none

/-- `packs.Read` on a reader holding `r`: the sequence number and the packet. -/
def Read (r : List Nat) : ReadResult (Nat × Packet) :=
  (binaryRead 1 r).bind fun bs r1 =>
    let packetID := leNat bs
    match packetIDToType packetID with
    | none => .fail (.err (.InvalidPacketID packetID)) r1
    | some packetType =>
      (binaryRead 2 r1).bind fun bs r2 =>
        let seqID := leNat bs
        (packbuf.Read r2 packetType (zero packetType)).bind fun v r3 =>
          match Packet.ofValue packetID v with
          | some packet => .ok (seqID, packet) r3
          | none => .fail illTyped r3

/-- `packs.Write`, with the clock reading `now` that `rtt.Next` takes: the bytes appended to
the writer (with the error, if any) and the tracker afterwards. -/
def Write (tracker : rtt.RoundTripTracking) (now : Int) (packet : Packet) :
    WriteResult × rtt.RoundTripTracking :=
  ((WriteResult.wrote [packet.ID]).andThen
      ((WriteResult.wrote (leBytes 2 (tracker.Next now).1)).andThen
        (packbuf.Write packet.type packet.toValue)),
    (tracker.Next now).2)

/-- The byte of a `bool` on the wire. -/
def wireBool (b : Bool) : List Nat := [if b then 1 else 0]

/-- Wire layout of a `ClientFrameInput`: the frame as two little-endian bytes, then one byte
for each of the three inputs, in declaration order. -/
def wireClientFrameInput (f : ClientFrameInput) : List Nat :=
  leBytes 2 f.Frame ++ (wireBool f.PlayerInput.IsHoldingLeft ++
    (wireBool f.PlayerInput.IsHoldingRight ++ wireBool f.PlayerInput.IsHoldingJump))

/-- Wire layout of a `PlayerState`: the fields in declaration order, the `uint16` as two and
each `float32` as four little-endian bytes, the `bool` as one byte. -/
def wirePlayerState (p : PlayerState) : List Nat :=
  leBytes 2 p.NetID ++ (leBytes 4 p.X ++ (leBytes 4 p.Y ++ (leBytes 4 p.Hspeed ++
    (leBytes 4 p.Vspeed ++ wireBool p.DirLeft))))

/-- Wire layout of the body of a packet: the fields in declaration order, each sequence as
the four little-endian bytes of its count followed by its elements. -/
def wireBody : Packet → List Nat
  | .Ack p =>
    leBytes 4 (p.SequenceIDList.length % 2 ^ 32) ++ p.SequenceIDList.flatMap (leBytes 2)
  | .ClientPlayer p =>
    leBytes 4 (p.InputBuffer.length % 2 ^ 32) ++ p.InputBuffer.flatMap wireClientFrameInput
  | .ServerWorldState p =>
    leBytes 2 p.MyNetID ++ (leBytes 2 p.LastSimulatedInputFrame ++
      (leBytes 4 (p.Players.length % 2 ^ 32) ++ p.Players.flatMap wirePlayerState))

/-- Wire layout of an envelope: the tag byte, the sequence number as two little-endian
bytes, the body. -/
def wireEnvelope (seqID : Nat) (packet : Packet) : List Nat :=
  packet.ID :: (leBytes 2 seqID ++ wireBody packet)

/-- A `PlayerState` whose `float32` fields have each gone through `float64` and back. -/
def PlayerState.viaFloat64 (q : PlayerState) : PlayerState :=
  { q with
    X := float32ViaFloat64 q.X
    Y := float32ViaFloat64 q.Y
    Hspeed := float32ViaFloat64 q.Hspeed
    Vspeed := float32ViaFloat64 q.Vspeed }

/-- A packet whose `float32` fields have each gone through `float64` and back. -/
def Packet.viaFloat64 : Packet → Packet
  | .Ack p => .Ack p
  | .ClientPlayer p => .ClientPlayer p
  | .ServerWorldState p => .ServerWorldState { p with Players := p.Players.map PlayerState.viaFloat64 }

/-- Every field of a `PlayerState` holds a value of its Go type. -/
def PlayerState.Valid (p : PlayerState) : Prop :=
  p.NetID < 65536 ∧ p.X < 2 ^ 32 ∧ p.Y < 2 ^ 32 ∧ p.Hspeed < 2 ^ 32 ∧ p.Vspeed < 2 ^ 32

instance (p : PlayerState) : Decidable p.Valid :=
  inferInstanceAs (Decidable (_ ∧ _))

/-- No `float32` field of a `PlayerState` holds a signalling NaN. -/
def PlayerState.NoSignallingNaN (p : PlayerState) : Prop :=
  ¬ isSignallingNaN32 p.X ∧ ¬ isSignallingNaN32 p.Y ∧ ¬ isSignallingNaN32 p.Hspeed ∧
    ¬ isSignallingNaN32 p.Vspeed

instance (p : PlayerState) : Decidable p.NoSignallingNaN :=
  inferInstanceAs (Decidable (_ ∧ _))

/-- Every field of a packet holds a value of its Go type (a `uint16` is below `2^16`, the
bits of a `float32` below `2^32`). -/
def Packet.Valid : Packet → Prop
  | .Ack p => ∀ s ∈ p.SequenceIDList, s < 65536
  | .ClientPlayer p => ∀ f ∈ p.InputBuffer, f.Frame < 65536
  | .ServerWorldState p =>
    p.MyNetID < 65536 ∧ p.LastSimulatedInputFrame < 65536 ∧ ∀ q ∈ p.Players, q.Valid

instance (packet : Packet) : Decidable packet.Valid :=
  match packet with
  | .Ack p => inferInstanceAs (Decidable (∀ s ∈ p.SequenceIDList, s < 65536))
  | .ClientPlayer p => inferInstanceAs (Decidable (∀ f ∈ p.InputBuffer, f.Frame < 65536))
  | .ServerWorldState p =>
    inferInstanceAs (Decidable (p.MyNetID < 65536 ∧ p.LastSimulatedInputFrame < 65536 ∧
      ∀ q ∈ p.Players, q.Valid))

/-- The number of elements of the sequence field of a packet. -/
def Packet.sequenceLength : Packet → Nat
  | .Ack p => p.SequenceIDList.length
  | .ClientPlayer p => p.InputBuffer.length
  | .ServerWorldState p => p.Players.length

/-- No `float32` field of a packet holds a signalling NaN. -/
def Packet.NoSignallingNaN : Packet → Prop
  | .Ack _ => True
  | .ClientPlayer _ => True
  | .ServerWorldState p => ∀ q ∈ p.Players, q.NoSignallingNaN

instance (packet : Packet) : Decidable packet.NoSignallingNaN :=
  match packet with
  | .Ack _ => inferInstanceAs (Decidable True)
  | .ClientPlayer _ => inferInstanceAs (Decidable True)
  | .ServerWorldState p => inferInstanceAs (Decidable (∀ q ∈ p.Players, q.NoSignallingNaN))

end packs

/-! ### `world`, `netconst`, `webrtcserver`: what the controllers act on -/

/-- The element at `i` replaced by its image under `f` (an assignment through a pointer);
nothing changes when `i` is out of range. -/
def updateAt {α : Type} (l : List α) (i : Nat) (f : α → α) : List α :=
  match l, i with
  | [], _ => []
  | x :: xs, 0 => f x :: xs
  | x :: xs, i + 1 => x :: updateAt xs i f

namespace netconst

/-- The constant `MaxClientInputBuffer`. -/
def MaxClientInputBuffer : Nat := 30

/-- The constant `MaxServerInputBuffer`. -/
def MaxServerInputBuffer : Nat := 10

end netconst

namespace world

/-- The struct `world.World`. A `*ent.Player` is the index of its player in `heap`, the
players allocated so far; `Players` is the slice of pointers of the embedded
`worldSnapshot`. -/
structure World where
  heap : List ent.Player
  Players : List Nat
  PlayerInput : ent.PlayerInput
  MyPlayer : Option Nat
  deriving DecidableEq, Repr

/-- `World.CreatePlayer`: a new player at `(180, 180)` of size `96 x 96` (after `Init`),
appended to `Players`; the result is the pointer to it. -/
def World.CreatePlayer (w : World) : Nat × World :=
  (w.heap.length,
    { w with
      heap := w.heap ++ [⟨0, ⟨false, false, false⟩, 0x43340000, 0x43340000, 0x42C00000,
        0x42C00000, 0, 0, false⟩]
      Players := w.Players ++ [w.heap.length] })

end world

namespace webrtcserver

/-- The struct `webrtcserver.Connection`: whether the peer connection and the data channel
are set, the received frames waiting in the channel `packets`, and the two flags. -/
structure Connection where
  hasPeerConnection : Bool
  hasDataChannel : Bool
  packets : List (List Nat)
  isConnected : Bool
  isUsed : Bool
  deriving DecidableEq, Repr

/-- `Connection.IsConnected`. -/
def Connection.IsConnected (conn : Connection) : Bool := conn.isConnected

/-- `Connection.CloseButDontFree`: the transport objects and the channel are dropped and the
slot is no longer connected; `isUsed` stays as it is. -/
def Connection.CloseButDontFree (conn : Connection) : Connection :=
  { conn with hasPeerConnection := false, hasDataChannel := false, packets := [],
              isConnected := false }

end webrtcserver

/-! ### `client`: the client controller -/

namespace client

open packs

/-- The fields of `client.Controller` that the tick reads and writes. -/
structure Controller where
  rtt : rtt.RoundTripTracking
  ackPacket : AckPacket
  frameCounter : Nat
  frameInputBuffer : List ClientFrameInput
  hasStarted : Bool
  hasConnected : Bool
  deriving DecidableEq, Repr

/-- The loop `for _, seqID := range packet.SequenceIDList { rtt.Ack(seqID) }`. -/
def ackAll (ewma : Int → Int → Int) (now : Int) (tracker : rtt.RoundTripTracking)
    (seqIDs : List Nat) : rtt.RoundTripTracking :=
  seqIDs.foldl (fun t seqID => t.Ack ewma now seqID) tracker

/-- The body of the inner loop of the drain in `Controller.BeforeUpdate`, once `packs.Read`
has returned `sequenceID` and `packet`: the controller and `lastWorldStatePacket`
afterwards, or the panic for a packet type the client does not handle. -/
def handlePacket (ewma : Int → Int → Int) (now : Int)
    (state : Controller × Option ServerWorldStatePacket) (sequenceID : Nat) (packet : Packet) :
    Except Fault (Controller × Option ServerWorldStatePacket) :=
  let net := state.1
  let lastWorldStatePacket := state.2
  match packet with
  | .Ack packet =>
    .ok ({ net with rtt := ackAll ewma now net.rtt packet.SequenceIDList },
      lastWorldStatePacket)
  | .ServerWorldState packet =>
    let net := { net with ackPacket := ⟨net.ackPacket.SequenceIDList ++ [sequenceID]⟩ }
    if packet.MyNetID = 0 then .ok (net, lastWorldStatePacket)
    else
      match lastWorldStatePacket with
      | some last =>
        if rtt.IsWrappedUInt16GreaterThan packet.LastSimulatedInputFrame
            last.LastSimulatedInputFrame then .ok (net, some packet)
        else .ok (net, some last)
      | none => .ok (net, some packet)
  | .ClientPlayer _ => .error (.panic "unhandled packet type: *packs.ClientPlayerPacket")

/-- The drain of one tick over the packets decoded, in the order decoded. -/
def handlePackets (ewma : Int → Int → Int) (now : Int) :
    Controller × Option ServerWorldStatePacket → List (Nat × Packet) →
      Except Fault (Controller × Option ServerWorldStatePacket)
  | state, [] => .ok state
  | state, (sequenceID, packet) :: rest =>
    match handlePacket ewma now state sequenceID packet with
    | .ok state1 => handlePackets ewma now state1 rest
    | .error e => .error e

/-- The assignments `entity.X = state.X` ... `entity.DirLeft = state.DirLeft`. -/
def setState (state : PlayerState) (entity : ent.Player) : ent.Player :=
  { entity with X := state.X, Y := state.Y, Hspeed := state.Hspeed, Vspeed := state.Vspeed,
                DirLeft := state.DirLeft }

/-- The loop over `world.Players` for one `state` of the packet: every entity with the
`NetID` of the state takes its fields; the result says whether one was found. -/
def syncFound (state : PlayerState) : List Nat → List ent.Player × Bool → List ent.Player × Bool
  | [], acc => acc
  | entity :: rest, (heap, hasFound) =>
    match heap[entity]? with
    | some player =>
      if player.NetID ≠ state.NetID then syncFound state rest (heap, hasFound)
      else syncFound state rest (updateAt heap entity (setState state), true)
    | none => syncFound state rest (heap, hasFound)

/-- The body of the loop over `packet.Players`: the entities with the `NetID` of the state
take its fields, and a new player is created for it when there is none. -/
def syncState (w : world.World) (state : PlayerState) : world.World :=
  let found := syncFound state w.Players (w.heap, false)
  if found.2 then { w with heap := found.1 }
  else
    let created := ({ w with heap := found.1 } : world.World).CreatePlayer
    { created.2 with
      heap := updateAt created.2.heap created.1
        (fun entity => setState state { entity with NetID := state.NetID }) }

/-- The first part of applying a world state: the local player takes `MyNetID`, then every
state of the packet is copied into the world. -/
def syncWorldState (w : world.World) (packet : ServerWorldStatePacket) : world.World :=
  let w1 : world.World :=
    match w.MyPlayer with
    | some player =>
      { w with heap := updateAt w.heap player (fun p => { p with NetID := packet.MyNetID }) }
    | none => w
  packet.Players.foldl syncState w1

/-- The loop over `net.frameInputBuffer` in the replay block: `unprocessedFrameInputBuffer`
(the buffer from the first frame that is after `lastSimulatedInputFrame` on) and
`unprocessedCount`. -/
def scanUnprocessed (lastSimulatedInputFrame : Nat) :
    List ClientFrameInput → List ClientFrameInput × Nat → List ClientFrameInput × Nat
  | [], acc => acc
  | frameInput :: rest, (unprocessed, unprocessedCount) =>
    if rtt.IsWrappedUInt16GreaterThan frameInput.Frame lastSimulatedInputFrame then
      scanUnprocessed lastSimulatedInputFrame rest
        (if unprocessedCount = 0 then frameInput :: rest else unprocessed, unprocessedCount + 1)
    else scanUnprocessed lastSimulatedInputFrame rest (unprocessed, unprocessedCount)

/-- The loop `player.Inputs = inputFrame.PlayerInput; player.Update()` over the frames to
replay; `update` is `ent.Player.Update`, the simulation step. -/
def replayInputs (update : ent.Player → ent.Player) (player : ent.Player) :
    List ClientFrameInput → ent.Player
  | [] => player
  | inputFrame :: rest =>
    replayInputs update (update { player with Inputs := inputFrame.PlayerInput }) rest

/-- The replay block of `Controller.BeforeUpdate`: the inputs the server has not simulated
yet are replayed on the local player, whose `Inputs` are put back afterwards. -/
def replayUnprocessed (update : ent.Player → ent.Player) (w : world.World)
    (frameInputBuffer : List ClientFrameInput) (lastSimulatedInputFrame : Nat) : world.World :=
  let scanned := scanUnprocessed lastSimulatedInputFrame frameInputBuffer ([], 0)
  if scanned.2 > 0 then
    match w.MyPlayer with
    | some player =>
      { w with heap := updateAt w.heap player (fun p =>
          { replayInputs update p scanned.1 with Inputs := p.Inputs }) }
    | none => w
  else w

/-- The block of `Controller.BeforeUpdate` that applies `lastWorldStatePacket` when there is
one: the world snaps to the packet, then the unprocessed inputs are replayed. -/
def applyWorldState (update : ent.Player → ent.Player) (w : world.World)
    (frameInputBuffer : List ClientFrameInput) (packet : ServerWorldStatePacket) :
    world.World :=
  replayUnprocessed update (syncWorldState w packet) frameInputBuffer
    packet.LastSimulatedInputFrame

end client

/-! ### `server`: the server controller -/

namespace server

open packs

/-- The struct `gameConnection`; `Player` is the pointer into the heap of the world. -/
structure gameConnection where
  ID : Nat
  Player : Option Nat
  IsUsed : Bool
  AckPacket : AckPacket
  rtt : rtt.RoundTripTracking
  InputBuffer : List ClientFrameInput
  LastInputFrameSimulated : Nat
  NextInputFrameToBeSimulated : Nat
  deriving DecidableEq, Repr

/-- The zero value `gameConnection{}` with its `ID` set, as `init` and the reclamation of a
slot leave it. -/
def gameConnection.fresh (id : Nat) : gameConnection :=
  ⟨id, none, false, ⟨[]⟩, rtt.RoundTripTracking.fresh, [], 0, 0⟩

/-- A slot during the ingest of a tick: the connection, its game state, and whether
`break MainReadLoop` has been reached. -/
structure Ingest where
  conn : webrtcserver.Connection
  gameConn : gameConnection
  stopped : Bool
  deriving DecidableEq, Repr

/-- The body of the inner loop of `MainReadLoop` in `Controller.BeforeUpdate`, once
`packs.Read` has returned `sequenceID` and `packet`. -/
def handlePacket (ewma : Int → Int → Int) (now : Int) (conn : webrtcserver.Connection)
    (gameConn : gameConnection) (sequenceID : Nat) (packet : Packet) : Ingest :=
  match packet with
  | .Ack packet =>
    ⟨conn, { gameConn with rtt := client.ackAll ewma now gameConn.rtt packet.SequenceIDList },
      false⟩
  | .ClientPlayer packet =>
    let gameConn :=
      { gameConn with
        AckPacket := ⟨gameConn.AckPacket.SequenceIDList ++ [sequenceID]⟩ }
    if packet.InputBuffer.length > netconst.MaxServerInputBuffer then
      ⟨conn.CloseButDontFree, gameConn, true⟩
    else if packet.InputBuffer.length = 0 then ⟨conn, gameConn, false⟩
    else
      match gameConn.InputBuffer.getLast?, packet.InputBuffer.getLast? with
      | some prevInputBuffer, some nextInputBuffer =>
        if rtt.IsWrappedUInt16GreaterThan nextInputBuffer.Frame prevInputBuffer.Frame then
          ⟨conn, { gameConn with InputBuffer := packet.InputBuffer }, false⟩
        else ⟨conn, gameConn, false⟩
      | _, _ => ⟨conn, { gameConn with InputBuffer := packet.InputBuffer }, false⟩
  | .ServerWorldState _ =>
    ⟨conn, { gameConn with
      AckPacket := ⟨gameConn.AckPacket.SequenceIDList ++ [sequenceID]⟩ }, false⟩

/-- The ingest of the packets decoded for one connection in one tick, in the order decoded,
up to `break MainReadLoop`. -/
def handlePackets (ewma : Int → Int → Int) (now : Int) :
    Ingest → List (Nat × Packet) → Ingest
  | state, [] => state
  | state, (sequenceID, packet) :: rest =>
    if state.stopped then state
    else handlePackets ewma now (handlePacket ewma now state.conn state.gameConn sequenceID packet)
      rest

/-- The state of the scan over `gameConn.InputBuffer` in the input-selection pass. -/
structure Scan where
  inputBuffer : ClientFrameInput
  foundCount : Nat
  closed : Bool
  deriving DecidableEq, Repr

/-- The loop over `gameConn.InputBuffer` in the input-selection pass: the first frame after
`LastInputFrameSimulated` is kept and the frames after it are counted; a frame 0 closes the
connection and ends the loop. -/
def scanInputBuffer (lastInputFrameSimulated : Nat) : List ClientFrameInput → Scan → Scan
  | [], scan => scan
  | otherInputBuffer :: rest, scan =>
    if otherInputBuffer.Frame = 0 then { scan with closed := true }
    else if rtt.IsWrappedUInt16GreaterThan otherInputBuffer.Frame lastInputFrameSimulated then
      scanInputBuffer lastInputFrameSimulated rest
        { scan with
          inputBuffer := if scan.foundCount = 0 then otherInputBuffer else scan.inputBuffer
          foundCount := scan.foundCount + 1 }
    else scanInputBuffer lastInputFrameSimulated rest scan

/-- A slot after its turn in the input-selection pass, with the heap of the world, and
whether the `break` out of the loop over the connections has been reached. -/
structure Selection where
  heap : List ent.Player
  conn : webrtcserver.Connection
  gameConn : gameConnection
  stopped : Bool
  deriving DecidableEq, Repr

/-- The body of the second loop over the connections in `Controller.BeforeUpdate`, the
input-selection pass, for one slot. -/
def selectInput (heap : List ent.Player) (conn : webrtcserver.Connection)
    (gameConn : gameConnection) : Selection :=
  if !conn.IsConnected then ⟨heap, conn, gameConn, false⟩
  else
    match gameConn.IsUsed, gameConn.Player with
    | true, some player =>
      let scan := scanInputBuffer gameConn.LastInputFrameSimulated gameConn.InputBuffer
        ⟨⟨0, ⟨false, false, false⟩⟩, 0, false⟩
      let conn := if scan.closed then conn.CloseButDontFree else conn
      if scan.foundCount > 0 then
        if scan.inputBuffer.Frame = 0 then ⟨heap, conn.CloseButDontFree, gameConn, true⟩
        else
          ⟨updateAt heap player (fun p => { p with Inputs := scan.inputBuffer.PlayerInput }),
            conn,
            { gameConn with
              LastInputFrameSimulated := gameConn.NextInputFrameToBeSimulated
              NextInputFrameToBeSimulated := scan.inputBuffer.Frame },
            false⟩
      else
        ⟨updateAt heap player (fun p => { p with Inputs := ⟨false, false, false⟩ }),
          conn, gameConn, false⟩
    | _, _ => ⟨heap, conn, gameConn, false⟩

end server

/-! ### The slot pool of `webrtcserver` and the loops of the server tick -/

namespace webrtcserver

/-- `Connection.Free`: a panic when the slot is still connected, otherwise the slot is no
longer used. -/
def Connection.Free (conn : Connection) : Except Fault Connection :=
  if conn.isConnected then .error (.panic "cannot call Free if connection is still connected")
  else .ok { conn with isUsed := false }

/-- The scan of `Server.handleSDP` for a free connection slot: the first slot that is not
used becomes used and takes the peer connection; the result is its index and the slots
afterwards, or nothing when every slot is used ("server is full"). -/
def acquire : List Connection → Option (Nat × List Connection)
  | [] => none
  | conn :: rest =>
    if conn.isUsed then
      match acquire rest with
      | some (i, rest1) => some (i + 1, conn :: rest1)
      | none => none
    else some (0, { conn with isUsed := true, hasPeerConnection := true } :: rest)

/-- The steps that change a connection slot: the scan of `handleSDP` taking the slot,
`onDataChannel` with a valid or an invalid data channel, `onDataChannelClose`,
`CloseButDontFree`, `Free`, and the failure of `handleSDP` to encode the connect
response. -/
inductive SlotStep
  | acquire
  | validDataChannelOpened
  | invalidDataChannelOpened
  | dataChannelClosed
  | closeButDontFree
  | free
  | encodeFailure
  deriving DecidableEq, Repr

/-- One step of a connection slot; `acquire` leaves a used slot alone (the scan passes over
it). -/
def SlotStep.apply : SlotStep → Connection → Except Fault Connection
  | .acquire, conn =>
    if conn.isUsed then .ok conn
    else .ok { conn with isUsed := true, hasPeerConnection := true }
  | .validDataChannelOpened, conn =>
    if conn.hasDataChannel then .ok conn
    else .ok { conn with packets := [], isConnected := true, hasDataChannel := true }
  | .invalidDataChannelOpened, conn => .ok { conn.CloseButDontFree with isUsed := false }
  | .dataChannelClosed, conn => .ok conn.CloseButDontFree
  | .closeButDontFree, conn => .ok conn.CloseButDontFree
  | .free, conn => conn.Free
  | .encodeFailure, conn => .ok { conn.CloseButDontFree with isUsed := false }

end webrtcserver

namespace world

/-- `World.RemovePlayer`: the first pointer of `Players` equal to `player` is taken out, the
others keep their order. -/
def World.RemovePlayer (w : World) (player : Option Nat) : World :=
  match player with
  | some p => { w with Players := w.Players.erase p }
  | none => w

/-- Every pointer of `Players` points into the heap, and none occurs twice. -/
def World.WellFormed (w : World) : Prop :=
  w.Players.Nodup ∧ ∀ p ∈ w.Players, p < w.heap.length

end world

namespace server

open packs

/-- A slot at the start of its turn in the first loop of `Controller.BeforeUpdate`, with the
world: the result of the part before `MainReadLoop`, and whether that part ended with
`continue`. -/
structure Prepared where
  world : world.World
  conn : webrtcserver.Connection
  gameConn : gameConnection
  skipped : Bool
  deriving DecidableEq, Repr

/-- The part of the first loop of `Controller.BeforeUpdate` before `MainReadLoop`: a slot
that is not connected but still used by the game is reclaimed (its player removed, its game
state reset but for the `ID`, the slot freed); a slot that is connected and not yet used by
the game gets a new player. -/
def prepareSlot (w : world.World) (conn : webrtcserver.Connection) (gameConn : gameConnection) :
    Except Fault Prepared :=
  if !conn.IsConnected then
    if gameConn.IsUsed then
      match conn.Free with
      | .ok conn1 =>
        .ok ⟨w.RemovePlayer gameConn.Player,
          conn1, { gameConnection.fresh 0 with ID := gameConn.ID }, true⟩
      | .error e => .error e
    else .ok ⟨w, conn, gameConn, true⟩
  else if !gameConn.IsUsed then
    let created := w.CreatePlayer
    if gameConn.ID = 0 then .error (.panic "developer mistake, ID should never be 0")
    else
      .ok ⟨{ created.2 with
              heap := updateAt created.2.heap created.1 (fun p => { p with NetID := gameConn.ID }) },
        conn, { gameConn with Player := some created.1, IsUsed := true }, false⟩
  else .ok ⟨w, conn, gameConn, false⟩

/-- The inner loop of `MainReadLoop` on the reader of one received frame: `packs.Read` until
`io.EOF`; any other error is logged and the loop goes on; an oversized input list ends
`MainReadLoop` (`stopped`). A panic of `packs.Read` ends the program. The loop takes at most
`fuel` turns; the result is `none` when they were not enough. -/
def ingestFrame (ewma : Int → Int → Int) (now : Int) :
    Nat → Ingest → List Nat → Option (Except Fault Ingest)
  | 0, _, _ => none
  | fuel + 1, state, buf =>
    match packs.Read buf with
    | .fail (.err .EOF) _ => some (.ok state)
    | .fail (.err _) rest => ingestFrame ewma now fuel state rest
    | .fail (.panic msg) _ => some (.error (.panic msg))
    | .ok (sequenceID, packet) rest =>
      let state1 := handlePacket ewma now state.conn state.gameConn sequenceID packet
      if state1.stopped then some (.ok state1)
      else ingestFrame ewma now fuel state1 rest

/-- `MainReadLoop` over the frames waiting in the channel of the connection, oldest first:
each `conn.Read()` takes one frame out, and the loop ends when there is none left or when
`break MainReadLoop` is reached. Every turn of the inner loop on a frame uses up at least
one byte of it or ends the loop, so one more turn than the frame has bytes is enough. -/
def readFrames (ewma : Int → Int → Int) (now : Int) :
    List (List Nat) → Ingest → Option (Except Fault Ingest)
  | [], state => some (.ok state)
  | byteData :: frames, state =>
    match ingestFrame ewma now (byteData.length + 1)
        { state with conn := { state.conn with packets := frames } } byteData with
    | some (.ok state1) =>
      if state1.stopped then some (.ok state1) else readFrames ewma now frames state1
    | other => other

/-- `MainReadLoop` for one connection. -/
def MainReadLoop (ewma : Int → Int → Int) (now : Int) (conn : webrtcserver.Connection)
    (gameConn : gameConnection) : Option (Except Fault Ingest) :=
  readFrames ewma now conn.packets ⟨conn, gameConn, false⟩

end server

/-! ### The `float64` arithmetic of `RoundTripTracking.Ack` -/

namespace rtt

/-- The integer nearest to `x`, the even one of the two when `x` lies half way. -/
def roundHalfEven (x : ℚ) : ℤ :=
  if x - ⌊x⌋ < 1 / 2 then ⌊x⌋
  else if 1 / 2 < x - ⌊x⌋ then ⌊x⌋ + 1
  else if ⌊x⌋ % 2 = 0 then ⌊x⌋ else ⌊x⌋ + 1

/-- The `float64` nearest to the number `q`, the one with the even mantissa when `q` lies
half way between two (IEEE 754 round to nearest even, the rounding of every `float64`
operation of Go): `q` is rounded to a multiple of `2 ^ (e - 52)` for the `e` with
`2 ^ e ≤ |q| < 2 ^ (e + 1)`. Overflow and subnormal numbers are left out: the numbers
rounded in `Ack` come from `int64` values and lie far inside the normal range. -/
def float64Round (q : ℚ) : ℚ :=
  if q = 0 then 0
  else roundHalfEven (q / 2 ^ (Int.log 2 |q| - 52)) * 2 ^ (Int.log 2 |q| - 52)

/-- The constant `0.10` as a `float64`: the `float64` nearest to one tenth. -/
def float64Tenth : ℚ := 3602879701896397 / 36028797018963968

/-- The conversion of a `float64` to `int64` (`time.Duration(x)`): the fraction is dropped,
rounding toward zero. For a value outside `int64` the result depends on the processor; it is
the one of amd64, `-2^63`. -/
def float64ToInt64 (x : ℚ) : Int :=
  if -9223372036854775808 ≤ (if 0 ≤ x then ⌊x⌋ else ⌈x⌉) ∧
      (if 0 ≤ x then ⌊x⌋ else ⌈x⌉) ≤ 9223372036854775807 then
    (if 0 ≤ x then ⌊x⌋ else ⌈x⌉)
  else -9223372036854775808

/-- The expression of `Ack` for a latency that is not 0,
`time.Duration(float64(latency) + (0.10 * float64(timePacketSent - latency)))`, for
`d = timePacketSent - latency` before it wraps as an `int64`. Each conversion and each
operation rounds on its own (no fused multiply-add, as on amd64 and wasm). -/
def ewmaFloat64 (latency d : Int) : Int :=
  float64ToInt64 (float64Round (float64Round latency +
    float64Round (float64Tenth * float64Round (toSigned 64 (toUnsigned 64 d)))))

end rtt

/-! ### The client tick -/

namespace packs

/-- The type assertion `packet.(*packs.AckPacket)`. -/
def Packet.isAck : Packet → Bool
  | .Ack _ => true
  | _ => false

end packs

namespace client

open packs

/-- The zero value `Controller{}`. -/
def Controller.fresh : Controller :=
  ⟨rtt.RoundTripTracking.fresh, ⟨[]⟩, 0, [], false, false⟩

/-- The block `if !net.hasConnected` of `Controller.BeforeUpdate`: the first connected tick
creates the local player. -/
def connect (net : Controller) (w : world.World) : Controller × world.World :=
  if !net.hasConnected then
    ({ net with hasConnected := true },
      { w.CreatePlayer.2 with MyPlayer := some w.CreatePlayer.1 })
  else (net, w)

/-- The statements `net.frameCounter++; if net.frameCounter == 0 { net.frameCounter++ }` on
the `uint16` counter. -/
def nextFrameCounter (frameCounter : Nat) : Nat :=
  if (frameCounter + 1) % 65536 = 0 then ((frameCounter + 1) % 65536 + 1) % 65536
  else (frameCounter + 1) % 65536

/-- The local constant `maxClientInputBuffer` of `Controller.BeforeUpdate`. -/
def maxClientInputBuffer : Nat := 60

/-- The loop `for i := 1; i < len(buf); i++ { buf[i-1] = buf[i] }`, with `k = i - 1`. -/
def shiftDown {α : Type} (buf : List α) : List α :=
  (List.range (buf.length - 1)).foldl
    (fun b k =>
      match b[k + 1]? with
      | some x => b.set k x
      | none => b) buf

/-- The retention step of `Controller.BeforeUpdate`: a full buffer is moved down one slot
and its last slot overwritten, otherwise the entry is appended. -/
def storeFrameInput (frameInputBuffer : List ClientFrameInput)
    (frameInputBufferData : ClientFrameInput) : List ClientFrameInput :=
  if frameInputBuffer.length ≥ maxClientInputBuffer then
    (shiftDown frameInputBuffer).set (frameInputBuffer.length - 1) frameInputBufferData
  else frameInputBuffer ++ [frameInputBufferData]

/-- The field `Inputs` of the player a pointer points to (all `false` for a pointer that
points nowhere, which Go cannot produce). -/
def inputsOf (w : world.World) (player : Nat) : ent.PlayerInput :=
  match w.heap[player]? with
  | some p => p.Inputs
  | none => ⟨false, false, false⟩

/-- The part of `Controller.BeforeUpdate` that allocates the frame number and stores the
input of the frame in the retained buffer. -/
def advanceFrame (net : Controller) (w : world.World) : Controller :=
  match w.MyPlayer with
  | some player =>
    { net with
      frameCounter := nextFrameCounter net.frameCounter
      frameInputBuffer := storeFrameInput net.frameInputBuffer
        ⟨nextFrameCounter net.frameCounter, inputsOf w player⟩ }
  | none => { net with frameCounter := nextFrameCounter net.frameCounter }

/-- What one decoded packet does to the tracker during the drain: the sequence numbers an
`AckPacket` lists go to `Ack`, in order; any other packet leaves the tracker alone. -/
def trackerAfter (ewma : Int → Int → Int) (now : Int) (tracker : rtt.RoundTripTracking) :
    Packet → rtt.RoundTripTracking
  | .Ack packet => ackAll ewma now tracker packet.SequenceIDList
  | _ => tracker

/-- The slice of the retained buffer that goes into the `ClientPlayerPacket`. -/
def inputsToSend (frameInputBuffer : List ClientFrameInput) : List ClientFrameInput :=
  if frameInputBuffer.length > netconst.MaxServerInputBuffer then
    frameInputBuffer.drop (frameInputBuffer.length - netconst.MaxServerInputBuffer)
  else frameInputBuffer

/-- What `panic(err)` raises, and what a panic inside the call raises. -/
def panicOf : Fault → Fault
  | .err e => .panic e.Error
  | .panic msg => .panic msg

/-- The first half of the send block: the acknowledgments collected are written, if there
are any, and the list is emptied. The result is the bytes written and the controller. -/
def writeAcks (net : Controller) (now : Int) : Except Fault (List Nat × Controller) :=
  if net.ackPacket.SequenceIDList.length > 0 then
    match (packs.Write net.rtt now (.Ack net.ackPacket)).1.fault with
    | some f => .error (panicOf f)
    | none =>
      .ok ((packs.Write net.rtt now (.Ack net.ackPacket)).1.bytes,
        { net with
          rtt := (packs.Write net.rtt now (.Ack net.ackPacket)).2
          ackPacket := ⟨[]⟩ })
  else .ok ([], net)

/-- The second half of the send block: the `ClientPlayerPacket` with the last inputs is
written. -/
def writeInputs (net : Controller) (now : Int) : Except Fault (List Nat × Controller) :=
  match (packs.Write net.rtt now (.ClientPlayer ⟨inputsToSend net.frameInputBuffer⟩)).1.fault with
  | some f => .error (panicOf f)
  | none =>
    .ok ((packs.Write net.rtt now (.ClientPlayer ⟨inputsToSend net.frameInputBuffer⟩)).1.bytes,
      { net with
        rtt := (packs.Write net.rtt now
          (.ClientPlayer ⟨inputsToSend net.frameInputBuffer⟩)).2 })

/-- The send block of `Controller.BeforeUpdate`: the bytes handed to `net.client.Send` and
the controller afterwards; `nowAck` and `nowInput` are the clock readings of the two
`packs.Write`. -/
def send (net : Controller) (nowAck nowInput : Int) : Except Fault (List Nat × Controller) :=
  match writeAcks net nowAck with
  | .error e => .error e
  | .ok (ackBytes, net1) =>
    match writeInputs net1 nowInput with
    | .error e => .error e
    | .ok (inputBytes, net2) => .ok (ackBytes ++ inputBytes, net2)

/-- What a connected tick of the client takes from outside: the world as the game hands it
over, the packets the decode loop yields in the order decoded, and the clock readings of the
drain and of the two writes. -/
structure TickInput where
  world : world.World
  packets : List (Nat × Packet)
  now : Int
  nowAck : Int
  nowInput : Int
  deriving DecidableEq, Repr

/-- `Controller.BeforeUpdate` on a tick on which the client is connected and has no error
pending: the controller and the world afterwards and the bytes sent, or the panic that ends
the program. -/
def BeforeUpdate (ewma : Int → Int → Int) (update : ent.Player → ent.Player)
    (net : Controller) (input : TickInput) :
    Except Fault (Controller × world.World × List Nat) :=
  match handlePackets ewma input.now
      (advanceFrame (connect net input.world).1 (connect net input.world).2, none)
      input.packets with
  | .error e => .error e
  | .ok (net2, lastWorldStatePacket) =>
    match send net2 input.nowAck input.nowInput with
    | .error e => .error e
    | .ok (bytes, net3) =>
      .ok (net3,
        (match lastWorldStatePacket with
          | some packet =>
            applyWorldState update (connect net input.world).2 net2.frameInputBuffer packet
          | none => (connect net input.world).2),
        bytes)

/-- Connected ticks one after the other, up to the first that panics. -/
def runTicks (ewma : Int → Int → Int) (update : ent.Player → ent.Player) :
    Controller → List TickInput → Except Fault Controller
  | net, [] => .ok net
  | net, input :: rest =>
    match BeforeUpdate ewma update net input with
    | .error e => .error e
    | .ok (net1, _, _) => runTicks ewma update net1 rest

end client

/-! ### Truncated input -/

/-- The reader `f` takes exactly the bytes `c` from the front of any input that starts with
them; on an input that is a strict prefix of `c` it fails, leaving nothing unread, with
`io.EOF` when the length of the input satisfies `atStart` and with `io.ErrUnexpectedEOF`
when it does not. -/
def ReadsExactly {α : Type} (f : List Nat → ReadResult α) (c : List Nat)
    (atStart : Nat → Prop) : Prop :=
  (∀ rest, ∃ v, f (c ++ rest) = .ok v rest) ∧
    ∀ pre, pre <+: c → pre ≠ c →
      (atStart pre.length → f pre = .fail (.err .EOF) []) ∧
        (¬ atStart pre.length → f pre = .fail (.err .ErrUnexpectedEOF) [])

namespace packs

/-- Whether a fixed-width read of `packs.Read` starts at the offset `n` of the envelope of a
packet: the tag at 0, the sequence number at 1, then the fields of the body in declaration
order, a sequence as its count (four bytes) followed by its elements, each element field by
field (`uint16` two bytes, `float32` four, `bool` one). -/
def Packet.readStartsAt : Packet → Nat → Bool
  | .Ack _, n => decide (n = 0 ∨ n = 1 ∨ n = 3 ∨ (7 ≤ n ∧ (n - 7) % 2 = 0))
  | .ClientPlayer _, n =>
    decide (n = 0 ∨ n = 1 ∨ n = 3 ∨
      (7 ≤ n ∧ ((n - 7) % 5 = 0 ∨ (n - 7) % 5 = 2 ∨ (n - 7) % 5 = 3 ∨ (n - 7) % 5 = 4)))
  | .ServerWorldState _, n =>
    decide (n = 0 ∨ n = 1 ∨ n = 3 ∨ n = 5 ∨ n = 7 ∨
      (11 ≤ n ∧ ((n - 11) % 19 = 0 ∨ (n - 11) % 19 = 2 ∨ (n - 11) % 19 = 6 ∨
        (n - 11) % 19 = 10 ∨ (n - 11) % 19 = 14 ∨ (n - 11) % 19 = 18)))

end packs

/-! ## Theorems -/

/-- Wrapping `uint16` subtraction agrees with subtraction of naturals when nothing wraps. -/
theorem uint16Sub_of_le (a b : Nat) (ha : a < 65536) (h : b ≤ a) : uint16Sub a b = a - b := by
  unfold uint16Sub
  have e : a + 65536 - b = (a - b) + 65536 := by omega
  rw [e]; omega

/-- The comparator unfolded over naturals below `2^16`. -/
theorem IsWrappedUInt16GreaterThan_eq_true_iff (a b : Nat) (ha : a < 65536) (hb : b < 65536) :
    rtt.IsWrappedUInt16GreaterThan a b = true ↔
      (a > b ∧ a - b ≤ 32768) ∨ (a < b ∧ b - a > 32768) := by
  simp only [rtt.IsWrappedUInt16GreaterThan, Bool.or_eq_true, Bool.and_eq_true,
    decide_eq_true_eq]
  constructor
  · rintro (⟨h1, h2⟩ | ⟨h1, h2⟩)
    · rw [uint16Sub_of_le a b ha (by omega)] at h2; exact Or.inl ⟨h1, h2⟩
    · rw [uint16Sub_of_le b a hb (by omega)] at h2; exact Or.inr ⟨h1, h2⟩
  · rintro (⟨h1, h2⟩ | ⟨h1, h2⟩)
    · rw [← uint16Sub_of_le a b ha (by omega)] at h2; exact Or.inl ⟨h1, h2⟩
    · rw [← uint16Sub_of_le b a hb (by omega)] at h2; exact Or.inr ⟨h1, h2⟩

/-- C3 (as amended): for all `uint16` values `a`, `b`, `IsWrappedUInt16GreaterThan a b`
holds exactly when `(a > b and a-b <= 32768) or (a < b and b-a > 32768)`, that is when the
circular difference `(a - b) mod 65536` lies in `1..32767`, or is exactly `32768` with
`a > b`; it holds on the five pairs of the golden test. -/
theorem IsWrappedUInt16GreaterThan_iff_circular (a b : Nat) (ha : a < 65536) (hb : b < 65536) :
    (rtt.IsWrappedUInt16GreaterThan a b = true ↔
        (1 ≤ (a + 65536 - b) % 65536 ∧ (a + 65536 - b) % 65536 ≤ 32767) ∨
        ((a + 65536 - b) % 65536 = 32768 ∧ a > b)) ∧
    (rtt.IsWrappedUInt16GreaterThan a b = true ↔
        (a > b ∧ a - b ≤ 32768) ∨ (a < b ∧ b - a > 32768)) ∧
    rtt.IsWrappedUInt16GreaterThan 1 0 = true ∧
    rtt.IsWrappedUInt16GreaterThan 101 100 = true ∧
    rtt.IsWrappedUInt16GreaterThan 65001 65000 = true ∧
    rtt.IsWrappedUInt16GreaterThan 1 65000 = true ∧
    rtt.IsWrappedUInt16GreaterThan 300 65000 = true := by
  refine ⟨?_, ?_, by decide, by decide, by decide, by decide, by decide⟩
  · rw [IsWrappedUInt16GreaterThan_eq_true_iff a b ha hb]
    rcases Nat.lt_or_ge b a with h | h
    · have e : a + 65536 - b = (a - b) + 65536 := by omega
      rw [e]; omega
    · rcases Nat.eq_or_lt_of_le h with h0 | h0
      · subst h0
        have e : (a + 65536 - a) % 65536 = 0 := by
          rw [Nat.add_sub_cancel_left]
        rw [e]; omega
      · have e : (a + 65536 - b) % 65536 = a + 65536 - b := Nat.mod_eq_of_lt (by omega)
        rw [e]; omega
  · exact IsWrappedUInt16GreaterThan_eq_true_iff a b ha hb

/-- Witness of C3 at the wrapped pair `(1, 65000)`. -/
theorem IsWrappedUInt16GreaterThan_iff_circular_witness :
    (rtt.IsWrappedUInt16GreaterThan 1 65000 = true ↔
        (1 ≤ (1 + 65536 - 65000) % 65536 ∧ (1 + 65536 - 65000) % 65536 ≤ 32767) ∨
        ((1 + 65536 - 65000) % 65536 = 32768 ∧ 1 > 65000)) :=
  (IsWrappedUInt16GreaterThan_iff_circular 1 65000 (by decide) (by decide)).1

/-- C3 as stated fails: at `(0, 32768)` the circular difference `(0 - 32768) mod 65536` is
`32768`, inside `1..32768`, yet the comparator is false. -/
theorem IsWrappedUInt16GreaterThan_half_range_counterexample :
    ¬ (∀ a b : Nat, a < 65536 → b < 65536 →
        (rtt.IsWrappedUInt16GreaterThan a b = true ↔
          1 ≤ (a + 65536 - b) % 65536 ∧ (a + 65536 - b) % 65536 ≤ 32768)) := by
  intro h
  have h0 := (h 0 32768 (by decide) (by decide)).2 (by decide)
  exact absurd h0 (by decide)

/-- C4: `IsWrappedUInt16GreaterThan x x` is false for every `uint16` `x`, and for
`uint16` values `a ≠ b` exactly one of `IsWrappedUInt16GreaterThan a b` and
`IsWrappedUInt16GreaterThan b a` is true (also when they differ by exactly 32768). -/
theorem IsWrappedUInt16GreaterThan_irrefl_and_exactly_one (a b : Nat) (ha : a < 65536)
    (hb : b < 65536) :
    rtt.IsWrappedUInt16GreaterThan a a = false ∧
    (a ≠ b →
      (rtt.IsWrappedUInt16GreaterThan a b = true ∧ rtt.IsWrappedUInt16GreaterThan b a = false) ∨
      (rtt.IsWrappedUInt16GreaterThan a b = false ∧ rtt.IsWrappedUInt16GreaterThan b a = true)) := by
  constructor
  · simp [rtt.IsWrappedUInt16GreaterThan]
  · intro hab
    by_cases h1 : rtt.IsWrappedUInt16GreaterThan a b = true
    · left
      refine ⟨h1, ?_⟩
      rw [Bool.eq_false_iff]
      intro h2
      rw [IsWrappedUInt16GreaterThan_eq_true_iff a b ha hb] at h1
      rw [IsWrappedUInt16GreaterThan_eq_true_iff b a hb ha] at h2
      omega
    · right
      refine ⟨by simpa using h1, ?_⟩
      rw [IsWrappedUInt16GreaterThan_eq_true_iff a b ha hb] at h1
      rw [IsWrappedUInt16GreaterThan_eq_true_iff b a hb ha]
      omega

/-- Witness of C4 at the half-range pair `(32768, 0)`. -/
theorem IsWrappedUInt16GreaterThan_irrefl_and_exactly_one_witness :
    rtt.IsWrappedUInt16GreaterThan 32768 32768 = false ∧
    ((32768 : Nat) ≠ 0 →
      (rtt.IsWrappedUInt16GreaterThan 32768 0 = true ∧
        rtt.IsWrappedUInt16GreaterThan 0 32768 = false) ∨
      (rtt.IsWrappedUInt16GreaterThan 32768 0 = false ∧
        rtt.IsWrappedUInt16GreaterThan 0 32768 = true)) :=
  IsWrappedUInt16GreaterThan_irrefl_and_exactly_one 32768 0 (by decide) (by decide)



/-! ### Byte order and readers -/

/-- `leBytes width n` has `width` bytes. -/
theorem leBytes_length (width n : Nat) : (leBytes width n).length = width := by
  induction width generalizing n with
  | zero => rfl
  | succ k ih => simp [leBytes, ih]

/-- Decoding the little-endian bytes of `n` gives `n` truncated to the width. -/
theorem leNat_leBytes (width n : Nat) : leNat (leBytes width n) = n % 256 ^ width := by
  induction width generalizing n with
  | zero => simp [leBytes, leNat, Nat.mod_one]
  | succ k ih =>
    simp only [leBytes, leNat, ih, Nat.mod_mod]
    rw [pow_succ, Nat.mul_comm (256 ^ k) 256, Nat.mod_mul]

/-- A fixed-size read takes exactly the bytes in front when there are enough of them. -/
theorem binaryRead_append (size : Nat) (bs tail : List Nat) (h : bs.length = size)
    (hpos : 0 < size) : binaryRead size (bs ++ tail) = .ok bs tail := by
  unfold binaryRead
  have h1 : ¬ (bs ++ tail).length = 0 := by rw [List.length_append]; omega
  have h2 : ¬ (bs ++ tail).length < size := by rw [List.length_append]; omega
  rw [if_neg h1, if_neg h2]
  subst h
  simp

/-- Reading back a little-endian number that was written. -/
theorem binaryRead_leBytes (width n : Nat) (tail : List Nat) (hpos : 0 < width) :
    binaryRead width (leBytes width n ++ tail) = .ok (leBytes width n) tail :=
  binaryRead_append width _ tail (leBytes_length width n) hpos

/-- A count below `2^31` survives the trip through `int32` and four bytes. -/
theorem toSigned_leNat_leBytes_count (n : Nat) (h : n < 2 ^ 31) :
    toSigned 32 (leNat (leBytes 4 (n % 2 ^ 32))) = (n : Int) := by
  rw [leNat_leBytes]
  have e : n % 2 ^ 32 % 256 ^ 4 = n := by
    norm_num
    omega
  rw [e]
  unfold toSigned
  have e2 : n % 2 ^ 32 = n := Nat.mod_eq_of_lt (by omega)
  rw [e2]
  simp only [Nat.add_one_sub_one]
  rw [if_pos h]

/-- Writing a slice element by element appends the encodings of the elements. -/
theorem writeItems_map {α : Type} (g : packbuf.Value → WriteResult) (val : α → packbuf.Value)
    (enc : α → List Nat) (xs : List α) (h : ∀ x ∈ xs, g (val x) = .wrote (enc x)) :
    packbuf.writeItems g (xs.map val) = .wrote (xs.flatMap enc) := by
  induction xs with
  | nil => rfl
  | cons x xs ih =>
    simp only [List.map_cons, packbuf.writeItems, List.flatMap_cons]
    rw [h x (List.mem_cons_self _ _), ih (fun y hy => h y (List.mem_cons_of_mem _ hy))]
    rfl

/-- Reading as many elements as were written gives the elements back. -/
theorem readItems_bind {α : Type} (f : List Nat → ReadResult packbuf.Value)
    (val : α → packbuf.Value) (enc : α → List Nat) (xs : List α) (tail : List Nat)
    (h : ∀ x ∈ xs, ∀ t, f (enc x ++ t) = .ok (val x) t) :
    packbuf.readItems f xs.length (xs.flatMap enc ++ tail) = .ok (xs.map val) tail := by
  induction xs with
  | nil => rfl
  | cons x xs ih =>
    simp only [List.length_cons, packbuf.readItems, List.flatMap_cons, List.append_assoc,
      List.map_cons]
    rw [h x (List.mem_cons_self _ _)]
    simp only [ReadResult.bind]
    rw [ih (fun y hy => h y (List.mem_cons_of_mem _ hy))]
    rfl

/-- Typed views of reflected elements that were built from typed elements. -/
theorem ofValues_map {α : Type} (f : packbuf.Value → Option α) (val : α → packbuf.Value)
    (xs : List α) (h : ∀ x ∈ xs, f (val x) = some x) :
    packs.ofValues f (xs.map val) = some xs := by
  induction xs with
  | nil => rfl
  | cons x xs ih =>
    simp only [List.map_cons, packs.ofValues]
    rw [h x (List.mem_cons_self _ _), ih (fun y hy => h y (List.mem_cons_of_mem _ hy))]

/-- A one-byte read. -/
theorem binaryRead_one (a : Nat) (r : List Nat) : binaryRead 1 (a :: r) = .ok [a] r :=
  binaryRead_append 1 [a] r rfl (by decide)

/-- Reading back the byte of a `bool`. -/
theorem leNat_wireBool (b : Bool) : decide (leNat [if b then 1 else 0] ≠ 0) = b := by
  cases b <;> decide

/-- Reading back the byte of a `bool`, in the form the simplifier meets it. -/
theorem leNat_wireBool_eq_zero (b : Bool) :
    decide (leNat [if b = true then 1 else 0] = 0) = !b := by
  cases b <;> decide

/-- A `float32` that is no signalling NaN comes back from `float64` with the same bits. -/
theorem float32ViaFloat64_of_not_signalling (bits : Nat) (h : ¬ isSignallingNaN32 bits) :
    float32ViaFloat64 bits = bits := by
  unfold float32ViaFloat64
  exact if_neg h

/-- Writing a `ClientFrameInput` gives its wire layout. -/
theorem writeStruct_ClientFrameInput (f : packs.ClientFrameInput) :
    packbuf.writeStruct packs.ClientFrameInputFields [.uint f.Frame,
      packs.PlayerInputValue f.PlayerInput] = .wrote (packs.wireClientFrameInput f) := by
  simp [packs.ClientFrameInputFields, packs.PlayerInputType, packs.PlayerInputValue,
    packbuf.writeStruct, packbuf.writeField, WriteResult.andThen, WriteResult.wrote,
    packs.wireClientFrameInput, packs.wireBool]

/-- Reading the wire layout of a `ClientFrameInput` gives it back. -/
theorem readStruct_ClientFrameInput (f : packs.ClientFrameInput) (hf : f.Frame < 65536)
    (t : List Nat) :
    packbuf.readStruct packs.ClientFrameInputFields
      (packbuf.zeroFields packs.ClientFrameInputFields) (packs.wireClientFrameInput f ++ t) =
      .ok [.uint f.Frame, packs.PlayerInputValue f.PlayerInput] t := by
  simp [packs.ClientFrameInputFields, packs.PlayerInputType, packs.PlayerInputValue,
    packbuf.zeroFields, packbuf.zero, packbuf.readStruct, packbuf.readField,
    packs.wireClientFrameInput, packs.wireBool, binaryRead_leBytes, binaryRead_one,
    ReadResult.bind, ReadResult.map, leNat_leBytes, hf, leNat_wireBool_eq_zero]

/-- Writing a `PlayerState` gives its wire layout. -/
theorem writeStruct_PlayerState (q : packs.PlayerState) :
    packbuf.writeStruct packs.PlayerStateFields
      [.uint q.NetID, .float32 q.X, .float32 q.Y, .float32 q.Hspeed, .float32 q.Vspeed,
        .bool q.DirLeft] = .wrote (packs.wirePlayerState q) := by
  simp [packs.PlayerStateFields, packbuf.writeStruct, packbuf.writeField, WriteResult.andThen,
    WriteResult.wrote, packs.wirePlayerState, packs.wireBool]

/-- Reading the wire layout of a `PlayerState` gives it back, each `float32` having gone
through `float64`. -/
theorem readStruct_PlayerState (q : packs.PlayerState) (hq : q.Valid) (t : List Nat) :
    packbuf.readStruct packs.PlayerStateFields (packbuf.zeroFields packs.PlayerStateFields)
      (packs.wirePlayerState q ++ t) =
      .ok [.uint q.NetID, .float32 (float32ViaFloat64 q.X), .float32 (float32ViaFloat64 q.Y),
        .float32 (float32ViaFloat64 q.Hspeed), .float32 (float32ViaFloat64 q.Vspeed),
        .bool q.DirLeft] t := by
  obtain ⟨h1, h2, h3, h4, h5⟩ := hq
  have e1 : q.NetID % 256 ^ 2 = q.NetID := Nat.mod_eq_of_lt (by norm_num; omega)
  have e2 : q.X % 256 ^ 4 = q.X := Nat.mod_eq_of_lt (by norm_num at h2 ⊢; omega)
  have e3 : q.Y % 256 ^ 4 = q.Y := Nat.mod_eq_of_lt (by norm_num at h3 ⊢; omega)
  have e4 : q.Hspeed % 256 ^ 4 = q.Hspeed := Nat.mod_eq_of_lt (by norm_num at h4 ⊢; omega)
  have e5 : q.Vspeed % 256 ^ 4 = q.Vspeed := Nat.mod_eq_of_lt (by norm_num at h5 ⊢; omega)
  simp only [packs.PlayerStateFields, packbuf.zeroFields, packbuf.zero, packbuf.readStruct,
    packbuf.readField, packs.wirePlayerState, packs.wireBool, List.append_assoc,
    List.singleton_append, Bool.not_true, Bool.false_eq_true, if_false,
    binaryRead_leBytes _ _ _ (by decide : 0 < 2), binaryRead_leBytes _ _ _ (by decide : 0 < 4),
    binaryRead_one, ReadResult.bind, ReadResult.map, leNat_leBytes, e1, e2, e3, e4, e5,
    leNat_wireBool]

/-- Reading a slice of structs that was written with fewer than `2^31` elements. -/
theorem readField_slice_struct {α : Type} (fs : packbuf.Fields) (val : α → List packbuf.Value)
    (enc : α → List Nat) (xs : List α) (hlen : xs.length < 2 ^ 31) (tail : List Nat)
    (h : ∀ x ∈ xs, ∀ t,
      packbuf.readStruct fs (packbuf.zeroFields fs) (enc x ++ t) = .ok (val x) t) :
    packbuf.readField (.slice (.struct fs)) (.slice [])
      (leBytes 4 (xs.length % 2 ^ 32) ++ (xs.flatMap enc ++ tail)) =
      .ok (.slice (xs.map fun x => .struct (val x))) tail := by
  simp only [packbuf.readField, binaryRead_leBytes _ _ _ (by decide : 0 < 4), ReadResult.bind,
    toSigned_leNat_leBytes_count _ hlen]
  cases xs with
  | nil => simp
  | cons x xs =>
    have h0 : ¬ (((x :: xs).length : Nat) : Int) = 0 := by simp; omega
    have h1 : ¬ (((x :: xs).length : Nat) : Int) < 0 := by omega
    rw [if_neg h0, if_neg h1, Int.toNat_ofNat]
    rw [readItems_bind _ (fun x => .struct (val x)) enc (x :: xs) tail]
    · rfl
    · intro y hy t
      rw [h y hy t]
      rfl

/-- Reading a slice of `uint16` that was written with fewer than `2^31` elements. -/
theorem readField_slice_uint16 (xs : List Nat) (hlen : xs.length < 2 ^ 31) (tail : List Nat)
    (h : ∀ x ∈ xs, x < 65536) :
    packbuf.readField (.slice .uint16) (.slice [])
      (leBytes 4 (xs.length % 2 ^ 32) ++ (xs.flatMap (leBytes 2) ++ tail)) =
      .ok (.slice (xs.map .uint)) tail := by
  simp only [packbuf.readField, binaryRead_leBytes _ _ _ (by decide : 0 < 4), ReadResult.bind,
    toSigned_leNat_leBytes_count _ hlen]
  cases xs with
  | nil => simp
  | cons x xs =>
    have h0 : ¬ (((x :: xs).length : Nat) : Int) = 0 := by simp; omega
    have h1 : ¬ (((x :: xs).length : Nat) : Int) < 0 := by omega
    rw [if_neg h0, if_neg h1, Int.toNat_ofNat]
    rw [readItems_bind _ packbuf.Value.uint (leBytes 2) (x :: xs) tail]
    · rfl
    · intro y hy t
      have e : y % 256 ^ 2 = y := Nat.mod_eq_of_lt (by have := h y hy; norm_num; omega)
      rw [binaryRead_leBytes _ _ _ (by decide : 0 < 2)]
      simp only [ReadResult.map, leNat_leBytes, e]

/-- The bytes `packs.Write` appends are the wire layout of the envelope, and it returns no
error. -/
theorem packs_Write_eq_wireEnvelope (tracker : rtt.RoundTripTracking) (now : Int)
    (p : packs.Packet) :
    (packs.Write tracker now p).1 = .wrote (packs.wireEnvelope tracker.packetSequenceID p) := by
  cases p with
  | Ack a =>
    simp only [packs.Write, packs.Packet.type, packs.Packet.toValue, packs.AckPacketType,
      packbuf.Write, packbuf.writeStruct, packbuf.writeField, rtt.RoundTripTracking.Next]
    rw [writeItems_map _ packbuf.Value.uint (leBytes 2) a.SequenceIDList (fun _ _ => rfl)]
    simp [WriteResult.andThen, WriteResult.wrote, packs.wireEnvelope, packs.wireBody]
  | ClientPlayer a =>
    simp only [packs.Write, packs.Packet.type, packs.Packet.toValue,
      packs.ClientPlayerPacketType, packbuf.Write, packbuf.writeStruct, packbuf.writeField,
      rtt.RoundTripTracking.Next]
    rw [writeItems_map _ packs.ClientFrameInput.toValue packs.wireClientFrameInput
      a.InputBuffer (fun f _ => writeStruct_ClientFrameInput f)]
    simp [WriteResult.andThen, WriteResult.wrote, packs.wireEnvelope, packs.wireBody]
  | ServerWorldState a =>
    simp only [packs.Write, packs.Packet.type, packs.Packet.toValue,
      packs.ServerWorldStatePacketType, packbuf.Write, packbuf.writeStruct,
      packbuf.writeField, rtt.RoundTripTracking.Next]
    rw [writeItems_map _ packs.PlayerState.toValue packs.wirePlayerState
      a.Players (fun q _ => writeStruct_PlayerState q)]
    simp [WriteResult.andThen, WriteResult.wrote, packs.wireEnvelope, packs.wireBody]

/-- Without signalling NaNs the trip through `float64` changes nothing. -/
theorem viaFloat64_of_noSignallingNaN (p : packs.Packet) (h : p.NoSignallingNaN) :
    p.viaFloat64 = p := by
  cases p with
  | Ack a => rfl
  | ClientPlayer a => rfl
  | ServerWorldState a =>
    simp only [packs.Packet.viaFloat64]
    have e : a.Players.map packs.PlayerState.viaFloat64 = a.Players := by
      conv_rhs => rw [← List.map_id a.Players]
      apply List.map_congr_left
      intro q hq
      obtain ⟨h1, h2, h3, h4⟩ := h q hq
      simp [packs.PlayerState.viaFloat64, float32ViaFloat64_of_not_signalling, h1, h2, h3, h4]
    rw [e]

/-- Reading a `uint16` field that was written. -/
theorem readField_uint16 (v : packbuf.Value) (n : Nat) (hn : n < 65536) (t : List Nat) :
    packbuf.readField .uint16 v (leBytes 2 n ++ t) = .ok (.uint n) t := by
  have e : n % 256 ^ 2 = n := Nat.mod_eq_of_lt (by norm_num; omega)
  simp only [packbuf.readField, binaryRead_leBytes _ _ _ (by decide : 0 < 2), ReadResult.map,
    leNat_leBytes, e]

/-- `packs.Read` on the wire layout of an envelope, followed by anything: the sequence
number and the packet come back (each `float32` having gone through `float64`), and what
follows the envelope is left unread. -/
theorem packs_Read_wireEnvelope (seqID : Nat) (p : packs.Packet) (hv : p.Valid)
    (hlen : p.sequenceLength < 2 ^ 31) (tail : List Nat) :
    packs.Read (packs.wireEnvelope seqID p ++ tail) =
      .ok (seqID % 65536, p.viaFloat64) tail := by
  cases p with
  | Ack a =>
    have hr := readField_slice_uint16 a.SequenceIDList hlen tail hv
    simp only [packs.Read, packs.wireEnvelope, packs.wireBody, packs.Packet.ID,
      List.cons_append, List.append_assoc, binaryRead_one, ReadResult.bind]
    simp only [show leNat [packs.packetAck] = 1 from rfl,
      show packs.packetIDToType 1 = some packs.AckPacketType from rfl,
      binaryRead_leBytes _ _ _ (by decide : 0 < 2), ReadResult.bind,
      packs.AckPacketType, packbuf.Read, packbuf.zero, packbuf.zeroFields,
      packbuf.readStruct, hr, ReadResult.map, leNat_leBytes]
    simp [packs.Packet.ofValue, packs.packetAck,
      ofValues_map packs.uintOfValue packbuf.Value.uint a.SequenceIDList (fun _ _ => rfl),
      packs.Packet.viaFloat64]
  | ClientPlayer a =>
    have hr := readField_slice_struct packs.ClientFrameInputFields
      (fun f => [.uint f.Frame, packs.PlayerInputValue f.PlayerInput])
      packs.wireClientFrameInput a.InputBuffer hlen tail
      (fun f hf t => readStruct_ClientFrameInput f (hv f hf) t)
    simp only [packs.Read, packs.wireEnvelope, packs.wireBody, packs.Packet.ID,
      List.cons_append, List.append_assoc, binaryRead_one, ReadResult.bind]
    simp only [show leNat [packs.packetClientPlayerUpdate] = 2 from rfl,
      show packs.packetIDToType 2 = some packs.ClientPlayerPacketType from rfl,
      binaryRead_leBytes _ _ _ (by decide : 0 < 2), ReadResult.bind,
      packs.ClientPlayerPacketType, packbuf.Read, packbuf.zero, packbuf.zeroFields,
      packbuf.readStruct, hr, ReadResult.map, leNat_leBytes]
    have e := ofValues_map packs.ClientFrameInput.ofValue
      (fun f : packs.ClientFrameInput =>
        packbuf.Value.struct [.uint f.Frame, packs.PlayerInputValue f.PlayerInput])
      a.InputBuffer (fun _ _ => rfl)
    simp [packs.Packet.ofValue, packs.packetAck, packs.packetClientPlayerUpdate, e,
      packs.Packet.viaFloat64]
  | ServerWorldState a =>
    obtain ⟨hv1, hv2, hv3⟩ := hv
    have hr := readField_slice_struct packs.PlayerStateFields
      (fun q => [.uint q.NetID, .float32 (float32ViaFloat64 q.X),
        .float32 (float32ViaFloat64 q.Y), .float32 (float32ViaFloat64 q.Hspeed),
        .float32 (float32ViaFloat64 q.Vspeed), .bool q.DirLeft])
      packs.wirePlayerState a.Players hlen tail
      (fun q hq t => readStruct_PlayerState q (hv3 q hq) t)
    simp only [packs.Read, packs.wireEnvelope, packs.wireBody, packs.Packet.ID,
      List.cons_append, List.append_assoc, binaryRead_one, ReadResult.bind]
    simp only [show leNat [packs.packetWorldStateUpdate] = 3 from rfl,
      show packs.packetIDToType 3 = some packs.ServerWorldStatePacketType from rfl,
      binaryRead_leBytes _ _ _ (by decide : 0 < 2), ReadResult.bind,
      packs.ServerWorldStatePacketType, packbuf.Read, packbuf.zero, packbuf.zeroFields,
      packbuf.readStruct, readField_uint16 _ _ hv1, readField_uint16 _ _ hv2, hr,
      ReadResult.map, leNat_leBytes, Bool.not_true, Bool.false_eq_true, if_false]
    have e : packs.ofValues packs.PlayerState.ofValue
        (a.Players.map fun q => packbuf.Value.struct [.uint q.NetID,
          .float32 (float32ViaFloat64 q.X), .float32 (float32ViaFloat64 q.Y),
          .float32 (float32ViaFloat64 q.Hspeed), .float32 (float32ViaFloat64 q.Vspeed),
          .bool q.DirLeft]) = some (a.Players.map packs.PlayerState.viaFloat64) := by
      have h0 := ofValues_map packs.PlayerState.ofValue packs.PlayerState.toValue
        (a.Players.map packs.PlayerState.viaFloat64) (fun _ _ => rfl)
      rw [List.map_map] at h0
      exact h0
    simp [packs.Packet.ofValue, packs.packetAck, packs.packetClientPlayerUpdate,
      packs.packetWorldStateUpdate, packs.Packet.viaFloat64, e]

/-- The length of a concatenation of encodings that all have the same length. -/
theorem length_flatMap_const {α : Type} (enc : α → List Nat) (k : Nat) (xs : List α)
    (h : ∀ x, (enc x).length = k) : (xs.flatMap enc).length = k * xs.length := by
  induction xs with
  | nil => rfl
  | cons x xs ih =>
    rw [List.flatMap_cons, List.length_append, h x, ih, List.length_cons]
    ring

/-- The wire layout of a `ClientFrameInput` has five bytes. -/
theorem wireClientFrameInput_length (f : packs.ClientFrameInput) :
    (packs.wireClientFrameInput f).length = 5 := by
  simp [packs.wireClientFrameInput, packs.wireBool, leBytes_length]

/-- The wire layout of a `PlayerState` has nineteen bytes. -/
theorem wirePlayerState_length (q : packs.PlayerState) :
    (packs.wirePlayerState q).length = 19 := by
  simp [packs.wirePlayerState, packs.wireBool, leBytes_length]

/-- An envelope of an `AckPacket` whose count prefix is negative as an `int32`:
`reflect.MakeSlice` panics on the negative length. -/
theorem packs_Read_Ack_negative_count (seqID : Nat) (count rest : List Nat)
    (hc : count.length = 4) (hneg : toSigned 32 (leNat count) < 0) :
    packs.Read (packs.packetAck :: (leBytes 2 seqID ++ (count ++ rest))) =
      .fail (.panic "reflect.MakeSlice: negative len") rest := by
  have h0 : ¬ toSigned 32 (leNat count) = 0 := by omega
  simp only [packs.Read, binaryRead_one, ReadResult.bind,
    show leNat [packs.packetAck] = 1 from rfl,
    show packs.packetIDToType 1 = some packs.AckPacketType from rfl,
    binaryRead_leBytes _ _ _ (by decide : 0 < 2), packs.AckPacketType, packbuf.Read,
    packbuf.zero, packbuf.zeroFields, packbuf.readStruct, packbuf.readField,
    binaryRead_append 4 count rest hc (by decide), if_neg h0, if_pos hneg,
    Bool.not_true, Bool.false_eq_true, if_false, ReadResult.map]

/-- A sequence whose count does not fit the `int32` prefix: with exactly `2^31` elements the
prefix reads back as a negative length and `reflect.MakeSlice` panics. -/
theorem packs_Read_Write_Ack_of_length_two_pow_31 (tracker : rtt.RoundTripTracking)
    (now : Int) (xs tail : List Nat) (hlen : xs.length = 2 ^ 31) :
    packs.Read ((packs.Write tracker now (.Ack ⟨xs⟩)).1.bytes ++ tail) =
      .fail (.panic "reflect.MakeSlice: negative len") (xs.flatMap (leBytes 2) ++ tail) := by
  rw [packs_Write_eq_wireEnvelope]
  simp only [WriteResult.wrote, packs.wireEnvelope, packs.wireBody, packs.Packet.ID,
    List.cons_append, List.append_assoc]
  apply packs_Read_Ack_negative_count
  · exact leBytes_length _ _
  · rw [leNat_leBytes, hlen]
    decide

/-- The counter of the tracker after a write. -/
theorem packs_Write_counter (tracker : rtt.RoundTripTracking) (now : Int) (p : packs.Packet) :
    (packs.Write tracker now p).2.packetSequenceID = (tracker.packetSequenceID + 1) % 65536 :=
  rfl

/-! ### The claims -/

/-- C1 (as amended): for every packet `p` of the three registered variants whose fields hold
values of their Go types, whose sequence has fewer than `2^31` elements and whose `float32`
fields hold no signalling NaN, and for every tracker state, `packs.Write` returns no error
and `packs.Read` on the bytes it produced succeeds, consumes them all, and returns the
sequence number and a packet of the same variant equal to `p` field for field (`float32`
fields as bit patterns; an empty sequence comes back empty). -/
theorem packs_Read_Write_roundtrip (tracker : rtt.RoundTripTracking) (now : Int)
    (p : packs.Packet) (hv : p.Valid) (hlen : p.sequenceLength < 2 ^ 31)
    (hnan : p.NoSignallingNaN) :
    (packs.Write tracker now p).1.fault = none ∧
    packs.Read (packs.Write tracker now p).1.bytes =
      .ok (tracker.packetSequenceID % 65536, p) [] := by
  rw [packs_Write_eq_wireEnvelope]
  refine ⟨rfl, ?_⟩
  have h := packs_Read_wireEnvelope tracker.packetSequenceID p hv hlen []
  rw [List.append_nil, viaFloat64_of_noSignallingNaN p hnan] at h
  exact h

/-- Witness of C1: a world state with two players (a quiet NaN and a negative zero among the
`float32` fields, the second player all zero). -/
theorem packs_Read_Write_roundtrip_witness :
    (packs.Write rtt.RoundTripTracking.fresh 5 (.ServerWorldState ⟨1, 7,
      [⟨1, 0x42340000, 0x7FC00000, 0, 0x80000000, true⟩, ⟨2, 0, 0, 0, 0, false⟩]⟩)).1.fault =
      none ∧
    packs.Read (packs.Write rtt.RoundTripTracking.fresh 5 (.ServerWorldState ⟨1, 7,
      [⟨1, 0x42340000, 0x7FC00000, 0, 0x80000000, true⟩, ⟨2, 0, 0, 0, 0, false⟩]⟩)).1.bytes =
      .ok (rtt.RoundTripTracking.fresh.packetSequenceID % 65536, .ServerWorldState ⟨1, 7,
      [⟨1, 0x42340000, 0x7FC00000, 0, 0x80000000, true⟩, ⟨2, 0, 0, 0, 0, false⟩]⟩) [] :=
  packs_Read_Write_roundtrip rtt.RoundTripTracking.fresh 5 _ (by decide) (by decide) (by decide)

/-- C1 as stated fails. A player state whose `X` holds the signalling NaN `0x7FA00000` is
read back with the quiet NaN `0x7FE00000`, a different bit pattern; and an `AckPacket` with
`2^31` sequence numbers is written with the count prefix `0x80000000`, on which `packs.Read`
panics with a negative slice length. -/
theorem packs_Read_Write_roundtrip_counterexample :
    (packs.Read (packs.Write rtt.RoundTripTracking.fresh 0
        (.ServerWorldState ⟨1, 1, [⟨1, 0x7FA00000, 0, 0, 0, false⟩]⟩)).1.bytes =
      .ok (0, .ServerWorldState ⟨1, 1, [⟨1, 0x7FE00000, 0, 0, 0, false⟩]⟩) [] ∧
     packs.Read (packs.Write rtt.RoundTripTracking.fresh 0
        (.ServerWorldState ⟨1, 1, [⟨1, 0x7FA00000, 0, 0, 0, false⟩]⟩)).1.bytes ≠
      .ok (0, .ServerWorldState ⟨1, 1, [⟨1, 0x7FA00000, 0, 0, 0, false⟩]⟩) []) ∧
    packs.Read ((packs.Write rtt.RoundTripTracking.fresh 0
        (.Ack ⟨List.replicate (2 ^ 31) 0⟩)).1.bytes ++ []) =
      .fail (.panic "reflect.MakeSlice: negative len")
        ((List.replicate (2 ^ 31) 0).flatMap (leBytes 2) ++ []) :=
  ⟨⟨by decide, by decide⟩,
    packs_Read_Write_Ack_of_length_two_pow_31 _ _ _ _ (List.length_replicate _ _)⟩

/-- C2 (as amended): for every two packets `p1`, `p2` of the three registered variants whose
fields hold values of their Go types, whose sequences have fewer than `2^31` elements and
whose `float32` fields hold no signalling NaN, written one after the other into one stream
with the same tracker: both writes return no error, the first `packs.Read` on the stream
returns `p1` and leaves exactly the bytes of the second write, the second `packs.Read`
returns `p2` and leaves nothing, and the two sequence numbers are `s` and `(s + 1) mod 65536`
for the tracker counter `s` before the first write. -/
theorem packs_double_Write_double_Read (tracker : rtt.RoundTripTracking) (now1 now2 : Int)
    (p1 p2 : packs.Packet) (hs : tracker.packetSequenceID < 65536)
    (hv1 : p1.Valid) (hlen1 : p1.sequenceLength < 2 ^ 31) (hnan1 : p1.NoSignallingNaN)
    (hv2 : p2.Valid) (hlen2 : p2.sequenceLength < 2 ^ 31) (hnan2 : p2.NoSignallingNaN) :
    (packs.Write tracker now1 p1).1.fault = none ∧
    (packs.Write (packs.Write tracker now1 p1).2 now2 p2).1.fault = none ∧
    packs.Read ((packs.Write tracker now1 p1).1.bytes ++
        (packs.Write (packs.Write tracker now1 p1).2 now2 p2).1.bytes) =
      .ok (tracker.packetSequenceID, p1)
        (packs.Write (packs.Write tracker now1 p1).2 now2 p2).1.bytes ∧
    packs.Read (packs.Write (packs.Write tracker now1 p1).2 now2 p2).1.bytes =
      .ok ((tracker.packetSequenceID + 1) % 65536, p2) [] := by
  have h1 := packs_Read_wireEnvelope tracker.packetSequenceID p1 hv1 hlen1
    (packs.Write (packs.Write tracker now1 p1).2 now2 p2).1.bytes
  have h2 := packs_Read_wireEnvelope (packs.Write tracker now1 p1).2.packetSequenceID p2 hv2
    hlen2 []
  rw [viaFloat64_of_noSignallingNaN p1 hnan1, Nat.mod_eq_of_lt hs] at h1
  rw [viaFloat64_of_noSignallingNaN p2 hnan2, List.append_nil, packs_Write_counter,
    Nat.mod_mod] at h2
  rw [packs_Write_eq_wireEnvelope tracker now1 p1,
    packs_Write_eq_wireEnvelope (packs.Write tracker now1 p1).2 now2 p2]
  rw [packs_Write_eq_wireEnvelope (packs.Write tracker now1 p1).2 now2 p2] at h1
  exact ⟨rfl, rfl, h1, h2⟩

/-- Witness of C2: the counter wraps from 65535 to 0 between an `AckPacket` and a
`ClientPlayerPacket`. -/
theorem packs_double_Write_double_Read_witness :
    packs.Read ((packs.Write ⟨65535, [], 0⟩ 1 (.Ack ⟨[3, 4]⟩)).1.bytes ++
        (packs.Write (packs.Write ⟨65535, [], 0⟩ 1 (.Ack ⟨[3, 4]⟩)).2 2
          (.ClientPlayer ⟨[⟨9, ⟨true, false, true⟩⟩]⟩)).1.bytes) =
      .ok (65535, .Ack ⟨[3, 4]⟩)
        (packs.Write (packs.Write ⟨65535, [], 0⟩ 1 (.Ack ⟨[3, 4]⟩)).2 2
          (.ClientPlayer ⟨[⟨9, ⟨true, false, true⟩⟩]⟩)).1.bytes ∧
    packs.Read (packs.Write (packs.Write ⟨65535, [], 0⟩ 1 (.Ack ⟨[3, 4]⟩)).2 2
          (.ClientPlayer ⟨[⟨9, ⟨true, false, true⟩⟩]⟩)).1.bytes =
      .ok ((65535 + 1) % 65536, .ClientPlayer ⟨[⟨9, ⟨true, false, true⟩⟩]⟩) [] :=
  (packs_double_Write_double_Read ⟨65535, [], 0⟩ 1 2 (.Ack ⟨[3, 4]⟩)
    (.ClientPlayer ⟨[⟨9, ⟨true, false, true⟩⟩]⟩) (by decide) (by decide) (by decide)
    (by decide) (by decide) (by decide) (by decide)).2.2

/-- C2 as stated fails. With an `AckPacket` then a world state whose player has the
signalling NaN `0xFFA00000` as `Vspeed`, the second read returns the quiet NaN `0xFFE00000`
instead; and when the first packet is an `AckPacket` with `2^31` sequence numbers, the first
read panics. -/
theorem packs_double_Write_double_Read_counterexample :
    (packs.Read ((packs.Write rtt.RoundTripTracking.fresh 0 (.Ack ⟨[7]⟩)).1.bytes ++
        (packs.Write (packs.Write rtt.RoundTripTracking.fresh 0 (.Ack ⟨[7]⟩)).2 0
          (.ServerWorldState ⟨2, 5, [⟨2, 0, 0, 0, 0xFFA00000, true⟩]⟩)).1.bytes) =
      .ok (0, .Ack ⟨[7]⟩)
        (packs.Write (packs.Write rtt.RoundTripTracking.fresh 0 (.Ack ⟨[7]⟩)).2 0
          (.ServerWorldState ⟨2, 5, [⟨2, 0, 0, 0, 0xFFA00000, true⟩]⟩)).1.bytes ∧
     packs.Read (packs.Write (packs.Write rtt.RoundTripTracking.fresh 0 (.Ack ⟨[7]⟩)).2 0
          (.ServerWorldState ⟨2, 5, [⟨2, 0, 0, 0, 0xFFA00000, true⟩]⟩)).1.bytes =
      .ok (1, .ServerWorldState ⟨2, 5, [⟨2, 0, 0, 0, 0xFFE00000, true⟩]⟩) []) ∧
    packs.Read ((packs.Write rtt.RoundTripTracking.fresh 0
        (.Ack ⟨List.replicate (2 ^ 31) 1⟩)).1.bytes ++
        (packs.Write (packs.Write rtt.RoundTripTracking.fresh 0
          (.Ack ⟨List.replicate (2 ^ 31) 1⟩)).2 0 (.Ack ⟨[]⟩)).1.bytes) =
      .fail (.panic "reflect.MakeSlice: negative len")
        ((List.replicate (2 ^ 31) 1).flatMap (leBytes 2) ++
          (packs.Write (packs.Write rtt.RoundTripTracking.fresh 0
            (.Ack ⟨List.replicate (2 ^ 31) 1⟩)).2 0 (.Ack ⟨[]⟩)).1.bytes) :=
  ⟨⟨by decide, by decide⟩,
    packs_Read_Write_Ack_of_length_two_pow_31 _ _ _ _ (List.length_replicate _ _)⟩

/-- C6: for every byte stream whose first byte `b` is not 1, 2 or 3, `packs.Read` returns no
packet but the error `InvalidPacketID` carrying `b`, whose message is
`"invalid packet id: "` followed by `b` in decimal, and every byte after the first is still
unread: neither the sequence number nor the body has been read. -/
theorem packs_Read_invalid_packet_id (b : Nat) (rest : List Nat) (hb : b < 256)
    (h : b ≠ 1 ∧ b ≠ 2 ∧ b ≠ 3) :
    packs.Read (b :: rest) = .fail (.err (.InvalidPacketID b)) rest ∧
    (GoError.InvalidPacketID b).Error = "invalid packet id: " ++ toString b := by
  refine ⟨?_, rfl⟩
  have e : leNat [b] = b := by simp [leNat, Nat.mod_eq_of_lt hb]
  simp [packs.Read, binaryRead_one, ReadResult.bind, e, packs.packetIDToType,
    packs.packetAck, packs.packetClientPlayerUpdate, packs.packetWorldStateUpdate, h.1, h.2.1,
    h.2.2]

/-- Witness of C6: the tag 0 followed by bytes that would otherwise be a sequence number and
a body. -/
theorem packs_Read_invalid_packet_id_witness :
    packs.Read (0 :: [5, 0, 1, 0, 0, 0, 9, 0]) =
      .fail (.err (.InvalidPacketID 0)) [5, 0, 1, 0, 0, 0, 9, 0] ∧
    (GoError.InvalidPacketID 0).Error = "invalid packet id: " ++ toString 0 :=
  packs_Read_invalid_packet_id 0 [5, 0, 1, 0, 0, 0, 9, 0] (by decide) (by decide)

/-! ### Client reconciliation -/

/-- What a pointer reads after an assignment through a pointer. -/
theorem getElem?_updateAt {α : Type} (l : List α) (i : Nat) (f : α → α) (j : Nat) :
    (updateAt l i f)[j]? = if j = i then (l[j]?).map f else l[j]? := by
  induction l generalizing i j with
  | nil => simp [updateAt]
  | cons x xs ih =>
    cases i with
    | zero =>
      cases j with
      | zero => simp [updateAt]
      | succ j => simp [updateAt]
    | succ i =>
      cases j with
      | zero => simp [updateAt]
      | succ j => simp [updateAt, ih]

/-- An assignment that leaves `Inputs` alone leaves the `Inputs` behind every pointer. -/
theorem inputs_updateAt (heap : List ent.Player) (k : Nat) (g : ent.Player → ent.Player)
    (hg : ∀ p, (g p).Inputs = p.Inputs) (ptr : Nat) (inp : ent.PlayerInput)
    (h : ∃ p, heap[ptr]? = some p ∧ p.Inputs = inp) :
    ∃ p, (updateAt heap k g)[ptr]? = some p ∧ p.Inputs = inp := by
  obtain ⟨p, hp, hi⟩ := h
  rw [getElem?_updateAt]
  by_cases e : ptr = k
  · rw [if_pos e, hp]
    exact ⟨g p, rfl, by rw [hg, hi]⟩
  · rw [if_neg e]
    exact ⟨p, hp, hi⟩

/-- The loop over `world.Players` leaves the `Inputs` behind every pointer. -/
theorem inputs_syncFound (state : packs.PlayerState) (players : List Nat)
    (acc : List ent.Player × Bool) (ptr : Nat) (inp : ent.PlayerInput)
    (h : ∃ p, acc.1[ptr]? = some p ∧ p.Inputs = inp) :
    ∃ p, (client.syncFound state players acc).1[ptr]? = some p ∧ p.Inputs = inp := by
  induction players generalizing acc with
  | nil => exact h
  | cons entity rest ih =>
    obtain ⟨heap, hasFound⟩ := acc
    simp only [client.syncFound]
    split
    · split
      · exact ih _ h
      · exact ih _ (inputs_updateAt heap entity (client.setState state) (fun _ => rfl) ptr inp h)
    · exact ih _ h

/-- Copying one state of the packet into the world leaves the local player pointer and the
`Inputs` behind every pointer. -/
theorem inputs_syncState (w : world.World) (state : packs.PlayerState) (ptr : Nat)
    (inp : ent.PlayerInput) (h : ∃ p, w.heap[ptr]? = some p ∧ p.Inputs = inp) :
    (client.syncState w state).MyPlayer = w.MyPlayer ∧
    ∃ p, (client.syncState w state).heap[ptr]? = some p ∧ p.Inputs = inp := by
  have hf := inputs_syncFound state w.Players (w.heap, false) ptr inp h
  unfold client.syncState
  simp only
  split
  · exact ⟨rfl, hf⟩
  · refine ⟨rfl, ?_⟩
    apply inputs_updateAt _ _
      (fun entity => client.setState state { entity with NetID := state.NetID })
      (fun _ => rfl)
    obtain ⟨p, hp, hi⟩ := hf
    refine ⟨p, ?_, hi⟩
    simp only [world.World.CreatePlayer]
    rw [List.getElem?_append_left]
    · exact hp
    · by_contra hc
      rw [List.getElem?_eq_none (by omega)] at hp
      exact absurd hp (by simp)

/-- Copying every state of the packet into the world leaves the local player pointer and the
`Inputs` behind every pointer. -/
theorem inputs_foldl_syncState (states : List packs.PlayerState) (w : world.World) (ptr : Nat)
    (inp : ent.PlayerInput) (h : ∃ p, w.heap[ptr]? = some p ∧ p.Inputs = inp) :
    (states.foldl client.syncState w).MyPlayer = w.MyPlayer ∧
    ∃ p, (states.foldl client.syncState w).heap[ptr]? = some p ∧ p.Inputs = inp := by
  induction states generalizing w with
  | nil => exact ⟨rfl, h⟩
  | cons state rest ih =>
    have h1 := inputs_syncState w state ptr inp h
    have h2 := ih (client.syncState w state) h1.2
    exact ⟨h2.1.trans h1.1, h2.2⟩

/-- Snapping the world to a packet leaves the local player pointer and the `Inputs` behind
every pointer. -/
theorem inputs_syncWorldState (w : world.World) (packet : packs.ServerWorldStatePacket)
    (ptr : Nat) (inp : ent.PlayerInput) (h : ∃ p, w.heap[ptr]? = some p ∧ p.Inputs = inp) :
    (client.syncWorldState w packet).MyPlayer = w.MyPlayer ∧
    ∃ p, (client.syncWorldState w packet).heap[ptr]? = some p ∧ p.Inputs = inp := by
  unfold client.syncWorldState
  cases hm : w.MyPlayer with
  | none =>
    have := inputs_foldl_syncState packet.Players w ptr inp h
    simp only
    rw [hm] at this
    exact this
  | some player =>
    simp only
    have h1 := inputs_updateAt w.heap player (fun p => { p with NetID := packet.MyNetID })
      (fun _ => rfl) ptr inp h
    have := inputs_foldl_syncState packet.Players
      { w with heap := updateAt w.heap player (fun p => { p with NetID := packet.MyNetID }) }
      ptr inp h1
    simp only [hm] at this
    exact this

/-- The scan of the six retained frames `F-2 .. F+3` against `F`: the frames to replay are
`F+1`, `F+2`, `F+3`. -/
theorem scanUnprocessed_six_frames (F : Nat) (hF : F < 65536)
    (i0 i1 i2 i3 i4 i5 : ent.PlayerInput) :
    client.scanUnprocessed F
      [⟨uint16Sub F 2, i0⟩, ⟨uint16Sub F 1, i1⟩, ⟨F, i2⟩, ⟨(F + 1) % 65536, i3⟩,
        ⟨(F + 2) % 65536, i4⟩, ⟨(F + 3) % 65536, i5⟩] ([], 0) =
      ([⟨(F + 1) % 65536, i3⟩, ⟨(F + 2) % 65536, i4⟩, ⟨(F + 3) % 65536, i5⟩], 3) := by
  have hm2 : uint16Sub F 2 < 65536 := Nat.mod_lt _ (by decide)
  have hm1 : uint16Sub F 1 < 65536 := Nat.mod_lt _ (by decide)
  have e2 : uint16Sub F 2 = if 2 ≤ F then F - 2 else F + 65534 := by
    unfold uint16Sub; split <;> omega
  have e1 : uint16Sub F 1 = if 1 ≤ F then F - 1 else F + 65535 := by
    unfold uint16Sub; split <;> omega
  have a0 : rtt.IsWrappedUInt16GreaterThan (uint16Sub F 2) F = false := by
    rw [Bool.eq_false_iff, Ne, IsWrappedUInt16GreaterThan_eq_true_iff _ _ hm2 hF, e2]
    split <;> omega
  have a1 : rtt.IsWrappedUInt16GreaterThan (uint16Sub F 1) F = false := by
    rw [Bool.eq_false_iff, Ne, IsWrappedUInt16GreaterThan_eq_true_iff _ _ hm1 hF, e1]
    split <;> omega
  have a2 : rtt.IsWrappedUInt16GreaterThan F F = false := by
    rw [Bool.eq_false_iff, Ne, IsWrappedUInt16GreaterThan_eq_true_iff _ _ hF hF]
    omega
  have a3 : rtt.IsWrappedUInt16GreaterThan ((F + 1) % 65536) F = true := by
    rw [IsWrappedUInt16GreaterThan_eq_true_iff _ _ (Nat.mod_lt _ (by decide)) hF]
    omega
  have a4 : rtt.IsWrappedUInt16GreaterThan ((F + 2) % 65536) F = true := by
    rw [IsWrappedUInt16GreaterThan_eq_true_iff _ _ (Nat.mod_lt _ (by decide)) hF]
    omega
  have a5 : rtt.IsWrappedUInt16GreaterThan ((F + 3) % 65536) F = true := by
    rw [IsWrappedUInt16GreaterThan_eq_true_iff _ _ (Nat.mod_lt _ (by decide)) hF]
    omega
  simp [client.scanUnprocessed, a0, a1, a2, a3, a4, a5]

/-- C7: for every `uint16` `F` and every client whose retained input buffer holds, in order,
the six frames `F-2, F-1, F, F+1, F+2, F+3` (in `uint16` arithmetic), applying a world state
with `LastSimulatedInputFrame = F` runs the simulation step `update` on the local player
exactly three times, with the recorded inputs of the frames `F+1`, `F+2`, `F+3` in that
order, starting from the player `before` as the snap to the packet left it; afterwards the
`Inputs` of the player are those of `before`, which are those it had before the world state
was applied, not the input of frame `F+3`. -/
theorem client_replays_frames_after_last_simulated (update : ent.Player → ent.Player)
    (w : world.World) (packet : packs.ServerWorldStatePacket) (F : Nat)
    (i0 i1 i2 i3 i4 i5 : ent.PlayerInput) (player : Nat) (orig : ent.Player)
    (hF : F < 65536) (hlast : packet.LastSimulatedInputFrame = F)
    (hmy : w.MyPlayer = some player) (horig : w.heap[player]? = some orig) :
    ∃ before, (client.syncWorldState w packet).heap[player]? = some before ∧
      before.Inputs = orig.Inputs ∧
      (client.applyWorldState update w
        [⟨uint16Sub F 2, i0⟩, ⟨uint16Sub F 1, i1⟩, ⟨F, i2⟩, ⟨(F + 1) % 65536, i3⟩,
          ⟨(F + 2) % 65536, i4⟩, ⟨(F + 3) % 65536, i5⟩] packet).heap[player]? =
        some { update { update { update { before with Inputs := i3 } with Inputs := i4 }
                 with Inputs := i5 } with Inputs := before.Inputs } := by
  obtain ⟨hm, before, hb, hi⟩ :=
    inputs_syncWorldState w packet player orig.Inputs ⟨orig, horig, rfl⟩
  refine ⟨before, hb, hi, ?_⟩
  unfold client.applyWorldState client.replayUnprocessed
  rw [hlast, scanUnprocessed_six_frames F hF]
  simp only [Nat.lt_irrefl, show (3 : Nat) > 0 from by decide, if_true, hm, hmy]
  rw [getElem?_updateAt, if_pos rfl, hb]
  rfl

/-- Witness of C7 at `F = 65534`, where the frames to replay are `65535`, `0` and `1`. -/
theorem client_replays_frames_after_last_simulated_witness :
    ∃ before, (client.syncWorldState
        ⟨[⟨0, ⟨true, false, false⟩, 0, 0, 0, 0, 0, 0, false⟩], [0], ⟨false, false, false⟩,
          some 0⟩ ⟨4, 65534, []⟩).heap[0]? = some before ∧
      before.Inputs = (⟨0, ⟨true, false, false⟩, 0, 0, 0, 0, 0, 0, false⟩ : ent.Player).Inputs ∧
      (client.applyWorldState (fun p => { p with X := p.X + 1 })
        ⟨[⟨0, ⟨true, false, false⟩, 0, 0, 0, 0, 0, 0, false⟩], [0], ⟨false, false, false⟩,
          some 0⟩
        [⟨uint16Sub 65534 2, ⟨false, false, false⟩⟩, ⟨uint16Sub 65534 1, ⟨false, false, false⟩⟩,
          ⟨65534, ⟨false, false, false⟩⟩, ⟨(65534 + 1) % 65536, ⟨false, true, false⟩⟩,
          ⟨(65534 + 2) % 65536, ⟨false, true, true⟩⟩,
          ⟨(65534 + 3) % 65536, ⟨false, false, true⟩⟩] ⟨4, 65534, []⟩).heap[0]? =
        some { (fun p : ent.Player => { p with X := p.X + 1 })
                { (fun p : ent.Player => { p with X := p.X + 1 })
                  { (fun p : ent.Player => { p with X := p.X + 1 })
                    { before with Inputs := ⟨false, true, false⟩ }
                    with Inputs := ⟨false, true, true⟩ }
                  with Inputs := ⟨false, false, true⟩ } with Inputs := before.Inputs } :=
  client_replays_frames_after_last_simulated (fun p => { p with X := p.X + 1 })
    ⟨[⟨0, ⟨true, false, false⟩, 0, 0, 0, 0, 0, 0, false⟩], [0], ⟨false, false, false⟩, some 0⟩
    ⟨4, 65534, []⟩ 65534 ⟨false, false, false⟩ ⟨false, false, false⟩ ⟨false, false, false⟩
    ⟨false, true, false⟩ ⟨false, true, true⟩ ⟨false, false, true⟩ 0
    ⟨0, ⟨true, false, false⟩, 0, 0, 0, 0, 0, 0, false⟩ (by decide) rfl rfl rfl

/-- One world state in the drain: it is acknowledged, and it replaces `lastWorldStatePacket`
when its `MyNetID` is not 0 and there is no packet yet or its frame is after the one kept. -/
theorem client_handlePacket_worldState (ewma : Int → Int → Int) (now : Int)
    (net : client.Controller) (last : Option packs.ServerWorldStatePacket) (seqID : Nat)
    (q : packs.ServerWorldStatePacket) :
    client.handlePacket ewma now (net, last) seqID (.ServerWorldState q) =
      .ok ({ net with ackPacket := ⟨net.ackPacket.SequenceIDList ++ [seqID]⟩ },
        if q.MyNetID = 0 then last
        else match last with
          | some l =>
            if rtt.IsWrappedUInt16GreaterThan q.LastSimulatedInputFrame
              l.LastSimulatedInputFrame then some q else some l
          | none => some q) := by
  unfold client.handlePacket
  simp only
  by_cases h0 : q.MyNetID = 0
  · simp [h0]
  · cases last with
    | none => simp [h0]
    | some l =>
      by_cases ha : rtt.IsWrappedUInt16GreaterThan q.LastSimulatedInputFrame
          l.LastSimulatedInputFrame = true
      · simp [h0, ha]
      · simp [h0, ha]

/-- The drain over world states only: it never panics; the packet kept at the end is the one
kept at the start or one of the packets with a non-zero `MyNetID`, and no packet with a
non-zero `MyNetID` that was decoded after the one kept is after it. -/
theorem client_handlePackets_worldStates (ewma : Int → Int → Int) (now : Int)
    (ws : List (Nat × packs.ServerWorldStatePacket)) (net : client.Controller)
    (last0 : Option packs.ServerWorldStatePacket) :
    ∃ net1 last1,
      client.handlePackets ewma now (net, last0)
        (ws.map fun x => (x.1, packs.Packet.ServerWorldState x.2)) = .ok (net1, last1) ∧
      (last1 = none → last0 = none ∧ ∀ x ∈ ws, x.2.MyNetID = 0) ∧
      (∀ a, last1 = some a →
        (last0 = some a ∧ ∀ x ∈ ws, x.2.MyNetID ≠ 0 →
          rtt.IsWrappedUInt16GreaterThan x.2.LastSimulatedInputFrame
            a.LastSimulatedInputFrame = false) ∨
        (∃ pre s post, ws = pre ++ (s, a) :: post ∧ a.MyNetID ≠ 0 ∧
          ∀ x ∈ post, x.2.MyNetID ≠ 0 →
            rtt.IsWrappedUInt16GreaterThan x.2.LastSimulatedInputFrame
              a.LastSimulatedInputFrame = false)) := by
  induction ws generalizing net last0 with
  | nil =>
    refine ⟨net, last0, rfl, fun h => ⟨h, fun _ hx => absurd hx (List.not_mem_nil _)⟩,
      fun a ha => Or.inl ⟨ha, fun _ hx => absurd hx (List.not_mem_nil _)⟩⟩
  | cons x rest ih =>
    obtain ⟨s, q⟩ := x
    simp only [List.map_cons, client.handlePackets, client_handlePacket_worldState]
    by_cases h0 : q.MyNetID = 0
    · -- a packet with `MyNetID` 0 is dropped
      simp only [h0, if_true]
      obtain ⟨net1, last1, hr, hnone, hsome⟩ := ih
        { net with ackPacket := ⟨net.ackPacket.SequenceIDList ++ [s]⟩ } last0
      refine ⟨net1, last1, hr, ?_, ?_⟩
      · intro h
        refine ⟨(hnone h).1, ?_⟩
        intro y hy
        rcases List.mem_cons.1 hy with e | e
        · rw [e]; exact h0
        · exact (hnone h).2 y e
      · intro a ha
        rcases hsome a ha with ⟨h1, h2⟩ | ⟨pre, s1, post, h1, h2, h3⟩
        · left
          refine ⟨h1, ?_⟩
          intro y hy hy0
          rcases List.mem_cons.1 hy with e | e
          · rw [e] at hy0; exact absurd h0 hy0
          · exact h2 y e hy0
        · right
          exact ⟨(s, q) :: pre, s1, post, by rw [h1]; rfl, h2, h3⟩
    · simp only [h0, if_false]
      cases last0 with
      | none =>
        -- the first packet with a non-zero `MyNetID` is kept
        simp only
        obtain ⟨net1, last1, hr, hnone, hsome⟩ := ih
          { net with ackPacket := ⟨net.ackPacket.SequenceIDList ++ [s]⟩ } (some q)
        refine ⟨net1, last1, hr, ?_, ?_⟩
        · intro h
          exact absurd (hnone h).1 (by simp)
        · intro a ha
          rcases hsome a ha with ⟨h1, h2⟩ | ⟨pre, s1, post, h1, h2, h3⟩
          · right
            have e : q = a := Option.some.inj h1
            subst e
            exact ⟨[], s, rest, rfl, h0, h2⟩
          · right
            exact ⟨(s, q) :: pre, s1, post, by rw [h1]; rfl, h2, h3⟩
      | some l =>
        simp only
        by_cases hq : rtt.IsWrappedUInt16GreaterThan q.LastSimulatedInputFrame
            l.LastSimulatedInputFrame = true
        · -- the packet is after the one kept and replaces it
          simp only [hq, if_true]
          obtain ⟨net1, last1, hr, hnone, hsome⟩ := ih
            { net with ackPacket := ⟨net.ackPacket.SequenceIDList ++ [s]⟩ } (some q)
          refine ⟨net1, last1, hr, ?_, ?_⟩
          · intro h
            exact absurd (hnone h).1 (by simp)
          · intro a ha
            rcases hsome a ha with ⟨h1, h2⟩ | ⟨pre, s1, post, h1, h2, h3⟩
            · right
              have e : q = a := Option.some.inj h1
              subst e
              exact ⟨[], s, rest, rfl, h0, h2⟩
            · right
              exact ⟨(s, q) :: pre, s1, post, by rw [h1]; rfl, h2, h3⟩
        · -- the packet is not after the one kept, which stays
          have hq' : rtt.IsWrappedUInt16GreaterThan q.LastSimulatedInputFrame
              l.LastSimulatedInputFrame = false := by simpa using hq
          simp only [hq', Bool.false_eq_true, if_false]
          obtain ⟨net1, last1, hr, hnone, hsome⟩ := ih
            { net with ackPacket := ⟨net.ackPacket.SequenceIDList ++ [s]⟩ } (some l)
          refine ⟨net1, last1, hr, ?_, ?_⟩
          · intro h
            exact absurd (hnone h).1 (by simp)
          · intro a ha
            rcases hsome a ha with ⟨h1, h2⟩ | ⟨pre, s1, post, h1, h2, h3⟩
            · left
              refine ⟨h1, ?_⟩
              have e : l = a := Option.some.inj h1
              subst e
              intro y hy hy0
              rcases List.mem_cons.1 hy with e | e
              · rw [e]; exact hq'
              · exact h2 y e hy0
            · right
              exact ⟨(s, q) :: pre, s1, post, by rw [h1]; rfl, h2, h3⟩

/-- Inside a half-range window starting at `base` the comparator is the order of the
offsets from `base`. -/
theorem IsWrappedUInt16GreaterThan_in_window (base x y : Nat) (hb : base < 65536)
    (hx : x < 65536) (hy : y < 65536) (wx : (x + 65536 - base) % 65536 < 32768)
    (wy : (y + 65536 - base) % 65536 < 32768) :
    rtt.IsWrappedUInt16GreaterThan x y = true ↔
      (y + 65536 - base) % 65536 < (x + 65536 - base) % 65536 := by
  rw [IsWrappedUInt16GreaterThan_eq_true_iff x y hx hy]
  have ex : (x + 65536 - base) % 65536 = if base ≤ x then x - base else x + 65536 - base := by
    split
    · have e : x + 65536 - base = (x - base) + 65536 := by omega
      rw [e]; omega
    · exact Nat.mod_eq_of_lt (by omega)
  have ey : (y + 65536 - base) % 65536 = if base ≤ y then y - base else y + 65536 - base := by
    split
    · have e : y + 65536 - base = (y - base) + 65536 := by omega
      rw [e]; omega
    · exact Nat.mod_eq_of_lt (by omega)
  rw [ex] at wx ⊢
  rw [ey] at wy ⊢
  split at wx <;> split at wy <;> simp only [*, if_true, if_false] <;> omega

/-- The drain over world states whose frames lie in one half-range window: the packet kept
at the end has the largest offset in the window. -/
theorem client_handlePackets_window (ewma : Int → Int → Int) (now : Int) (base : Nat)
    (hb : base < 65536) (ws : List (Nat × packs.ServerWorldStatePacket))
    (net : client.Controller) (last0 : Option packs.ServerWorldStatePacket)
    (h0 : ∀ l, last0 = some l → l.LastSimulatedInputFrame < 65536 ∧
      (l.LastSimulatedInputFrame + 65536 - base) % 65536 < 32768)
    (hws : ∀ x ∈ ws, x.2.MyNetID ≠ 0 → x.2.LastSimulatedInputFrame < 65536 ∧
      (x.2.LastSimulatedInputFrame + 65536 - base) % 65536 < 32768) :
    ∃ net1 last1,
      client.handlePackets ewma now (net, last0)
        (ws.map fun x => (x.1, packs.Packet.ServerWorldState x.2)) = .ok (net1, last1) ∧
      ∀ a, last1 = some a →
        (a.LastSimulatedInputFrame < 65536 ∧
          (a.LastSimulatedInputFrame + 65536 - base) % 65536 < 32768) ∧
        (∀ l, last0 = some l → (l.LastSimulatedInputFrame + 65536 - base) % 65536 ≤
          (a.LastSimulatedInputFrame + 65536 - base) % 65536) ∧
        ∀ x ∈ ws, x.2.MyNetID ≠ 0 → (x.2.LastSimulatedInputFrame + 65536 - base) % 65536 ≤
          (a.LastSimulatedInputFrame + 65536 - base) % 65536 := by
  induction ws generalizing net last0 with
  | nil =>
    refine ⟨net, last0, rfl, fun a ha => ⟨h0 a ha, ?_, fun _ hx => absurd hx (List.not_mem_nil _)⟩⟩
    intro l hl
    rw [ha] at hl
    rw [Option.some.inj hl]
  | cons x rest ih =>
    obtain ⟨s, q⟩ := x
    have hrest : ∀ x ∈ rest, x.2.MyNetID ≠ 0 → x.2.LastSimulatedInputFrame < 65536 ∧
        (x.2.LastSimulatedInputFrame + 65536 - base) % 65536 < 32768 :=
      fun y hy => hws y (List.mem_cons_of_mem _ hy)
    simp only [List.map_cons, client.handlePackets, client_handlePacket_worldState]
    by_cases hq0 : q.MyNetID = 0
    · simp only [hq0, if_true]
      obtain ⟨net1, last1, hr, hmax⟩ := ih
        { net with ackPacket := ⟨net.ackPacket.SequenceIDList ++ [s]⟩ } last0 h0 hrest
      refine ⟨net1, last1, hr, fun a ha => ⟨(hmax a ha).1, (hmax a ha).2.1, ?_⟩⟩
      intro y hy hy0
      rcases List.mem_cons.1 hy with e | e
      · rw [e] at hy0; exact absurd hq0 hy0
      · exact (hmax a ha).2.2 y e hy0
    · have hq : q.LastSimulatedInputFrame < 65536 ∧
          (q.LastSimulatedInputFrame + 65536 - base) % 65536 < 32768 :=
        hws (s, q) (List.mem_cons_self _ _) hq0
      simp only [hq0, if_false]
      cases last0 with
      | none =>
        simp only
        obtain ⟨net1, last1, hr, hmax⟩ := ih
          { net with ackPacket := ⟨net.ackPacket.SequenceIDList ++ [s]⟩ } (some q)
          (fun l hl => by rw [← Option.some.inj hl]; exact hq) hrest
        refine ⟨net1, last1, hr, fun a ha => ⟨(hmax a ha).1, fun l hl => by simp at hl, ?_⟩⟩
        intro y hy hy0
        rcases List.mem_cons.1 hy with e | e
        · rw [e]; exact (hmax a ha).2.1 q rfl
        · exact (hmax a ha).2.2 y e hy0
      | some l =>
        have hl := h0 l rfl
        simp only
        by_cases ha : rtt.IsWrappedUInt16GreaterThan q.LastSimulatedInputFrame
            l.LastSimulatedInputFrame = true
        · simp only [ha, if_true]
          have hlt := (IsWrappedUInt16GreaterThan_in_window base _ _ hb hq.1 hl.1 hq.2 hl.2).1 ha
          obtain ⟨net1, last1, hr, hmax⟩ := ih
            { net with ackPacket := ⟨net.ackPacket.SequenceIDList ++ [s]⟩ } (some q)
            (fun l hl => by rw [← Option.some.inj hl]; exact hq) hrest
          refine ⟨net1, last1, hr, fun a ha1 => ⟨(hmax a ha1).1, ?_, ?_⟩⟩
          · intro l1 hl1
            rw [← Option.some.inj hl1]
            exact Nat.le_trans (Nat.le_of_lt hlt) ((hmax a ha1).2.1 q rfl)
          · intro y hy hy0
            rcases List.mem_cons.1 hy with e | e
            · rw [e]; exact (hmax a ha1).2.1 q rfl
            · exact (hmax a ha1).2.2 y e hy0
        · have ha' : rtt.IsWrappedUInt16GreaterThan q.LastSimulatedInputFrame
              l.LastSimulatedInputFrame = false := by simpa using ha
          have hle : (q.LastSimulatedInputFrame + 65536 - base) % 65536 ≤
              (l.LastSimulatedInputFrame + 65536 - base) % 65536 := by
            by_contra hc
            exact ha ((IsWrappedUInt16GreaterThan_in_window base _ _ hb hq.1 hl.1 hq.2 hl.2).2
              (Nat.lt_of_not_le hc))
          simp only [ha', Bool.false_eq_true, if_false]
          obtain ⟨net1, last1, hr, hmax⟩ := ih
            { net with ackPacket := ⟨net.ackPacket.SequenceIDList ++ [s]⟩ } (some l)
            (fun l1 hl1 => by rw [← Option.some.inj hl1]; exact hl) hrest
          refine ⟨net1, last1, hr, fun a ha1 => ⟨(hmax a ha1).1, ?_, ?_⟩⟩
          · intro l1 hl1
            rw [← Option.some.inj hl1]
            exact (hmax a ha1).2.1 l rfl
          · intro y hy hy0
            rcases List.mem_cons.1 hy with e | e
            · rw [e]; exact Nat.le_trans hle ((hmax a ha1).2.1 l rfl)
            · exact (hmax a ha1).2.2 y e hy0

/-- C8 (as amended): for every sequence `ws` of world states decoded by the client in one
tick (each with its sequence number), the drain does not panic; it keeps no packet exactly
when every packet has `MyNetID` 0; the packet it keeps, the one that is applied, is one of
the packets with a non-zero `MyNetID`, and no packet with a non-zero `MyNetID` decoded after
it in that tick has a `LastSimulatedInputFrame` that is after its own; and when the
`LastSimulatedInputFrame` of all the packets with a non-zero `MyNetID` lie in one half-range
window (for some `base`, `(f - base) mod 65536 < 32768` for each), no such packet of the
tick at all is after the one applied. -/
theorem client_keeps_newest_world_state (ewma : Int → Int → Int) (now : Int)
    (net : client.Controller) (ws : List (Nat × packs.ServerWorldStatePacket)) :
    ∃ net1 last1,
      client.handlePackets ewma now (net, none)
        (ws.map fun x => (x.1, packs.Packet.ServerWorldState x.2)) = .ok (net1, last1) ∧
      (last1 = none ↔ ∀ x ∈ ws, x.2.MyNetID = 0) ∧
      (∀ a, last1 = some a →
        a.MyNetID ≠ 0 ∧
        (∃ pre s post, ws = pre ++ (s, a) :: post ∧
          ∀ x ∈ post, x.2.MyNetID ≠ 0 →
            rtt.IsWrappedUInt16GreaterThan x.2.LastSimulatedInputFrame
              a.LastSimulatedInputFrame = false) ∧
        (∀ base, base < 65536 →
          (∀ x ∈ ws, x.2.MyNetID ≠ 0 → x.2.LastSimulatedInputFrame < 65536 ∧
            (x.2.LastSimulatedInputFrame + 65536 - base) % 65536 < 32768) →
          ∀ x ∈ ws, x.2.MyNetID ≠ 0 →
            rtt.IsWrappedUInt16GreaterThan x.2.LastSimulatedInputFrame
              a.LastSimulatedInputFrame = false)) := by
  obtain ⟨net1, last1, hr, hnone, hsome⟩ := client_handlePackets_worldStates ewma now ws net none
  refine ⟨net1, last1, hr, ⟨fun h => (hnone h).2, ?_⟩, ?_⟩
  · intro hall
    cases hl : last1 with
    | none => rfl
    | some a =>
      rcases hsome a hl with ⟨h1, _⟩ | ⟨pre, s, post, h1, h2, _⟩
      · exact absurd h1 (by simp)
      · exact absurd (hall (s, a) (by rw [h1]; simp)) h2
  · intro a ha
    rcases hsome a ha with ⟨h1, _⟩ | ⟨pre, s, post, h1, h2, h3⟩
    · exact absurd h1 (by simp)
    · refine ⟨h2, ⟨pre, s, post, h1, h3⟩, ?_⟩
      intro base hb hws x hx hx0
      obtain ⟨net2, last2, hr2, hmax⟩ :=
        client_handlePackets_window ewma now base hb ws net none (fun l hl => by simp at hl) hws
      rw [hr] at hr2
      have e : last1 = last2 := by
        injection hr2 with e1
        exact (Prod.mk.inj e1).2
      rw [e] at ha
      obtain ⟨wa, _, hle⟩ := hmax a ha
      have wx := hws x hx hx0
      rw [Bool.eq_false_iff]
      intro hc
      have := (IsWrappedUInt16GreaterThan_in_window base _ _ hb wx.1 wa.1 wx.2 wa.2).1 hc
      have := hle x hx hx0
      omega

/-- Witness of C8: three world states in one window, the newest in the middle, and one with
`MyNetID` 0 carrying a still newer frame. -/
theorem client_keeps_newest_world_state_witness :
    ∃ net1 last1,
      client.handlePackets (fun l _ => l) 0 (⟨rtt.RoundTripTracking.fresh, ⟨[]⟩, 1, [], true,
          true⟩, none)
        ((([(10, ⟨1, 65530, []⟩), (11, ⟨1, 3, []⟩), (12, ⟨0, 9, []⟩), (13, ⟨1, 65535, []⟩)] :
          List (Nat × packs.ServerWorldStatePacket))).map
            fun x => (x.1, packs.Packet.ServerWorldState x.2)) = .ok (net1, last1) ∧
      (last1 = none ↔ ∀ x ∈ ([(10, ⟨1, 65530, []⟩), (11, ⟨1, 3, []⟩), (12, ⟨0, 9, []⟩),
          (13, ⟨1, 65535, []⟩)] : List (Nat × packs.ServerWorldStatePacket)), x.2.MyNetID = 0) ∧
      (∀ a, last1 = some a →
        a.MyNetID ≠ 0 ∧
        (∃ pre s post, ([(10, ⟨1, 65530, []⟩), (11, ⟨1, 3, []⟩), (12, ⟨0, 9, []⟩),
            (13, ⟨1, 65535, []⟩)] : List (Nat × packs.ServerWorldStatePacket)) =
            pre ++ (s, a) :: post ∧
          ∀ x ∈ post, x.2.MyNetID ≠ 0 →
            rtt.IsWrappedUInt16GreaterThan x.2.LastSimulatedInputFrame
              a.LastSimulatedInputFrame = false) ∧
        (∀ base, base < 65536 →
          (∀ x ∈ ([(10, ⟨1, 65530, []⟩), (11, ⟨1, 3, []⟩), (12, ⟨0, 9, []⟩),
              (13, ⟨1, 65535, []⟩)] : List (Nat × packs.ServerWorldStatePacket)),
            x.2.MyNetID ≠ 0 → x.2.LastSimulatedInputFrame < 65536 ∧
            (x.2.LastSimulatedInputFrame + 65536 - base) % 65536 < 32768) →
          ∀ x ∈ ([(10, ⟨1, 65530, []⟩), (11, ⟨1, 3, []⟩), (12, ⟨0, 9, []⟩),
              (13, ⟨1, 65535, []⟩)] : List (Nat × packs.ServerWorldStatePacket)),
            x.2.MyNetID ≠ 0 →
            rtt.IsWrappedUInt16GreaterThan x.2.LastSimulatedInputFrame
              a.LastSimulatedInputFrame = false)) :=
  client_keeps_newest_world_state (fun l _ => l) 0
    ⟨rtt.RoundTripTracking.fresh, ⟨[]⟩, 1, [], true, true⟩
    [(10, ⟨1, 65530, []⟩), (11, ⟨1, 3, []⟩), (12, ⟨0, 9, []⟩), (13, ⟨1, 65535, []⟩)]

/-- C8 as stated fails: with the frames 0, 40000 and 20000 decoded in that order, each with
`MyNetID` 1, the drain keeps the packet of frame 20000 (40000 is not after 0, 20000 is),
although the packet of frame 40000, decoded in the same tick, is after it. -/
theorem client_keeps_newest_world_state_counterexample :
    ∃ net1,
      client.handlePackets (fun l _ => l) 0 (⟨rtt.RoundTripTracking.fresh, ⟨[]⟩, 1, [], true,
          true⟩, none)
        [(1, .ServerWorldState ⟨1, 0, []⟩), (2, .ServerWorldState ⟨1, 40000, []⟩),
          (3, .ServerWorldState ⟨1, 20000, []⟩)] = .ok (net1, some ⟨1, 20000, []⟩) ∧
      rtt.IsWrappedUInt16GreaterThan 40000 20000 = true :=
  ⟨_, rfl, by decide⟩

/-! ### Server input selection and ingest -/

/-- Once a frame has been found, the scan of a buffer without frame 0 keeps it. -/
theorem scanInputBuffer_of_found (last : Nat) (buf : List packs.ClientFrameInput)
    (scan : server.Scan) (hz : ∀ f ∈ buf, f.Frame ≠ 0) (hfound : 0 < scan.foundCount) :
    (server.scanInputBuffer last buf scan).inputBuffer = scan.inputBuffer ∧
    0 < (server.scanInputBuffer last buf scan).foundCount ∧
    (server.scanInputBuffer last buf scan).closed = scan.closed := by
  induction buf generalizing scan with
  | nil => exact ⟨rfl, hfound, rfl⟩
  | cons f rest ih =>
    have hf : f.Frame ≠ 0 := hz f (List.mem_cons_self _ _)
    have hrest : ∀ g ∈ rest, g.Frame ≠ 0 := fun g hg => hz g (List.mem_cons_of_mem _ hg)
    simp only [server.scanInputBuffer, hf, if_false]
    split
    · have h1 := ih { scan with
        inputBuffer := if scan.foundCount = 0 then f else scan.inputBuffer
        foundCount := scan.foundCount + 1 } hrest (Nat.succ_pos _)
      have e : scan.foundCount ≠ 0 := by omega
      simp only [e, if_false] at h1 ⊢
      exact h1
    · exact ih scan hrest hfound

/-- The scan of a buffer without frame 0 in which no frame is after the last simulated one
changes nothing. -/
theorem scanInputBuffer_of_find?_none (last : Nat) (buf : List packs.ClientFrameInput)
    (scan : server.Scan) (hz : ∀ f ∈ buf, f.Frame ≠ 0)
    (hnone : buf.find? (fun f => rtt.IsWrappedUInt16GreaterThan f.Frame last) = none) :
    server.scanInputBuffer last buf scan = scan := by
  induction buf generalizing scan with
  | nil => rfl
  | cons f rest ih =>
    have hf : f.Frame ≠ 0 := hz f (List.mem_cons_self _ _)
    have hrest : ∀ g ∈ rest, g.Frame ≠ 0 := fun g hg => hz g (List.mem_cons_of_mem _ hg)
    rw [List.find?_cons] at hnone
    cases ha : rtt.IsWrappedUInt16GreaterThan f.Frame last with
    | true => rw [ha] at hnone; simp at hnone
    | false =>
      rw [ha] at hnone
      simp only [server.scanInputBuffer, hf, if_false, ha, Bool.false_eq_true]
      exact ih scan hrest hnone

/-- The scan of a buffer without frame 0 keeps the first frame that is after the last
simulated one. -/
theorem scanInputBuffer_of_find?_some (last : Nat) (buf : List packs.ClientFrameInput)
    (scan : server.Scan) (e : packs.ClientFrameInput) (hz : ∀ f ∈ buf, f.Frame ≠ 0)
    (h0 : scan.foundCount = 0)
    (hsome : buf.find? (fun f => rtt.IsWrappedUInt16GreaterThan f.Frame last) = some e) :
    (server.scanInputBuffer last buf scan).inputBuffer = e ∧
    0 < (server.scanInputBuffer last buf scan).foundCount ∧
    (server.scanInputBuffer last buf scan).closed = scan.closed := by
  induction buf generalizing scan with
  | nil => simp at hsome
  | cons f rest ih =>
    have hf : f.Frame ≠ 0 := hz f (List.mem_cons_self _ _)
    have hrest : ∀ g ∈ rest, g.Frame ≠ 0 := fun g hg => hz g (List.mem_cons_of_mem _ hg)
    rw [List.find?_cons] at hsome
    cases ha : rtt.IsWrappedUInt16GreaterThan f.Frame last with
    | true =>
      rw [ha] at hsome
      have e1 : f = e := Option.some.inj hsome
      simp only [server.scanInputBuffer, hf, if_false, ha, if_true, h0]
      have h1 := scanInputBuffer_of_found last rest
        { scan with inputBuffer := f, foundCount := 0 + 1 } hrest (Nat.succ_pos _)
      rw [← e1]
      exact h1
    | false =>
      rw [ha] at hsome
      simp only [server.scanInputBuffer, hf, if_false, ha, Bool.false_eq_true]
      exact ih scan hrest h0 hsome

/-- C9: in the input-selection pass of the server, for a connected, used connection with a
player and a retained buffer containing no frame 0: when some entry is after
`LastInputFrameSimulated`, the first such entry `e` of the buffer is selected, the `Inputs`
of the player become the input of `e`, `LastInputFrameSimulated` becomes the old
`NextInputFrameToBeSimulated` and `NextInputFrameToBeSimulated` becomes the frame of `e`;
when no entry is after it, the `Inputs` of the player become all false and both frame fields
stay as they are. In both cases nothing else changes and the pass goes on. -/
theorem server_selectInput_first_after (heap : List ent.Player)
    (conn : webrtcserver.Connection) (gameConn : server.gameConnection) (player : Nat)
    (hconn : conn.isConnected = true) (hused : gameConn.IsUsed = true)
    (hplayer : gameConn.Player = some player)
    (hz : ∀ f ∈ gameConn.InputBuffer, f.Frame ≠ 0) :
    (∀ e, gameConn.InputBuffer.find? (fun f =>
        rtt.IsWrappedUInt16GreaterThan f.Frame gameConn.LastInputFrameSimulated) = some e →
      server.selectInput heap conn gameConn =
        ⟨updateAt heap player (fun p => { p with Inputs := e.PlayerInput }), conn,
          { gameConn with
            LastInputFrameSimulated := gameConn.NextInputFrameToBeSimulated
            NextInputFrameToBeSimulated := e.Frame }, false⟩) ∧
    (gameConn.InputBuffer.find? (fun f =>
        rtt.IsWrappedUInt16GreaterThan f.Frame gameConn.LastInputFrameSimulated) = none →
      server.selectInput heap conn gameConn =
        ⟨updateAt heap player (fun p => { p with Inputs := ⟨false, false, false⟩ }), conn,
          gameConn, false⟩) := by
  constructor
  · intro e he
    obtain ⟨h1, h2, h3⟩ := scanInputBuffer_of_find?_some gameConn.LastInputFrameSimulated
      gameConn.InputBuffer ⟨⟨0, ⟨false, false, false⟩⟩, 0, false⟩ e hz rfl he
    have hne : e.Frame ≠ 0 := hz e (List.mem_of_find?_eq_some he)
    unfold server.selectInput
    simp only [webrtcserver.Connection.IsConnected, hconn, hused, hplayer, Bool.not_true,
      Bool.false_eq_true, if_false, h1, h3, gt_iff_lt, h2, if_true, hne]
  · intro hn
    have h := scanInputBuffer_of_find?_none gameConn.LastInputFrameSimulated
      gameConn.InputBuffer ⟨⟨0, ⟨false, false, false⟩⟩, 0, false⟩ hz hn
    unfold server.selectInput
    simp only [webrtcserver.Connection.IsConnected, hconn, hused, hplayer, Bool.not_true,
      Bool.false_eq_true, if_false, h, gt_iff_lt, Nat.lt_irrefl]

/-- Witness of C9: the buffer `[5, 6, 7]` with frame 5 already simulated selects frame 6. -/
theorem server_selectInput_first_after_witness :
    ([⟨5, ⟨true, false, false⟩⟩, ⟨6, ⟨false, true, false⟩⟩, ⟨7, ⟨false, false, true⟩⟩] :
        List packs.ClientFrameInput).find? (fun f =>
        rtt.IsWrappedUInt16GreaterThan f.Frame 5) = some ⟨6, ⟨false, true, false⟩⟩ ∧
      server.selectInput [⟨1, ⟨false, false, false⟩, 0, 0, 0, 0, 0, 0, false⟩]
        ⟨true, true, [], true, true⟩
        ⟨1, some 0, true, ⟨[]⟩, rtt.RoundTripTracking.fresh,
          [⟨5, ⟨true, false, false⟩⟩, ⟨6, ⟨false, true, false⟩⟩, ⟨7, ⟨false, false, true⟩⟩],
          5, 5⟩ =
        ⟨updateAt [⟨1, ⟨false, false, false⟩, 0, 0, 0, 0, 0, 0, false⟩] 0
            (fun p => { p with Inputs := (⟨6, ⟨false, true, false⟩⟩ :
              packs.ClientFrameInput).PlayerInput }),
          ⟨true, true, [], true, true⟩,
          { (⟨1, some 0, true, ⟨[]⟩, rtt.RoundTripTracking.fresh,
              [⟨5, ⟨true, false, false⟩⟩, ⟨6, ⟨false, true, false⟩⟩,
                ⟨7, ⟨false, false, true⟩⟩], 5, 5⟩ : server.gameConnection) with
            LastInputFrameSimulated := 5
            NextInputFrameToBeSimulated := (⟨6, ⟨false, true, false⟩⟩ :
              packs.ClientFrameInput).Frame }, false⟩ :=
  ⟨by decide,
    (server_selectInput_first_after [⟨1, ⟨false, false, false⟩, 0, 0, 0, 0, 0, 0, false⟩]
      ⟨true, true, [], true, true⟩
      ⟨1, some 0, true, ⟨[]⟩, rtt.RoundTripTracking.fresh,
        [⟨5, ⟨true, false, false⟩⟩, ⟨6, ⟨false, true, false⟩⟩, ⟨7, ⟨false, false, true⟩⟩], 5, 5⟩
      0 rfl rfl rfl (by decide)).1 ⟨6, ⟨false, true, false⟩⟩ (by decide)⟩

/-- Ingesting one packet never makes the retained input buffer longer than
`MaxServerInputBuffer`. -/
theorem server_handlePacket_length_le (ewma : Int → Int → Int) (now : Int)
    (conn : webrtcserver.Connection) (gameConn : server.gameConnection) (seqID : Nat)
    (packet : packs.Packet) (h : gameConn.InputBuffer.length ≤ 10) :
    (server.handlePacket ewma now conn gameConn seqID packet).gameConn.InputBuffer.length ≤
      10 := by
  cases packet with
  | Ack a => exact h
  | ServerWorldState a => exact h
  | ClientPlayer a =>
    unfold server.handlePacket
    simp only [netconst.MaxServerInputBuffer]
    split
    · exact h
    · rename_i hle
      split
      · exact h
      · split
        · split
          · exact Nat.le_of_not_gt hle
          · exact h
        · exact Nat.le_of_not_gt hle

/-- C10: when the server ingests a `ClientPlayerPacket` whose input list has between 1 and
10 entries, the retained input buffer of the connection becomes the incoming list if the
retained buffer is empty or the last frame of the incoming list is after the last frame of
the retained buffer, and stays as it is otherwise (the connection stays open and the read
loop goes on); an empty incoming list never changes it; and over every sequence of packets
ingested, from a buffer of at most 10 entries (an empty one for a fresh connection), the
retained buffer never holds more than 10 entries. -/
theorem server_ingest_ClientPlayerPacket (ewma : Int → Int → Int) (now : Int)
    (conn : webrtcserver.Connection) (gameConn : server.gameConnection) (seqID : Nat)
    (packet : packs.ClientPlayerPacket) :
    (1 ≤ packet.InputBuffer.length ∧ packet.InputBuffer.length ≤ 10 →
      (gameConn.InputBuffer = [] →
        (server.handlePacket ewma now conn gameConn seqID (.ClientPlayer packet)) =
          ⟨conn, { gameConn with
            AckPacket := ⟨gameConn.AckPacket.SequenceIDList ++ [seqID]⟩
            InputBuffer := packet.InputBuffer }, false⟩) ∧
      (∀ prev next, gameConn.InputBuffer.getLast? = some prev →
        packet.InputBuffer.getLast? = some next →
        (server.handlePacket ewma now conn gameConn seqID (.ClientPlayer packet)) =
          ⟨conn, { gameConn with
            AckPacket := ⟨gameConn.AckPacket.SequenceIDList ++ [seqID]⟩
            InputBuffer :=
              if rtt.IsWrappedUInt16GreaterThan next.Frame prev.Frame then packet.InputBuffer
              else gameConn.InputBuffer }, false⟩)) ∧
    (packet.InputBuffer = [] →
      (server.handlePacket ewma now conn gameConn seqID
        (.ClientPlayer packet)).gameConn.InputBuffer = gameConn.InputBuffer) ∧
    (∀ (packets : List (Nat × packs.Packet)) (state : server.Ingest),
      state.gameConn.InputBuffer.length ≤ 10 →
      (server.handlePackets ewma now state packets).gameConn.InputBuffer.length ≤ 10) ∧
    (∀ (packets : List (Nat × packs.Packet)) (id : Nat),
      (server.handlePackets ewma now ⟨conn, server.gameConnection.fresh id, false⟩
        packets).gameConn.InputBuffer.length ≤ 10) := by
  have hinv : ∀ (packets : List (Nat × packs.Packet)) (state : server.Ingest),
      state.gameConn.InputBuffer.length ≤ 10 →
      (server.handlePackets ewma now state packets).gameConn.InputBuffer.length ≤ 10 := by
    intro packets
    induction packets with
    | nil => intro state h; exact h
    | cons x rest ih =>
      intro state h
      obtain ⟨s, q⟩ := x
      simp only [server.handlePackets]
      split
      · exact h
      · exact ih _ (server_handlePacket_length_le ewma now _ _ s q h)
  refine ⟨?_, ?_, hinv, fun packets id => hinv packets _ (Nat.zero_le 10)⟩
  · rintro ⟨h1, h10⟩
    have hgt : ¬ packet.InputBuffer.length > netconst.MaxServerInputBuffer := by
      simp only [netconst.MaxServerInputBuffer]; omega
    have hne : ¬ packet.InputBuffer.length = 0 := by omega
    constructor
    · intro hempty
      unfold server.handlePacket
      simp only [hgt, hne, if_false, hempty, List.getLast?_nil]
    · intro prev next hprev hnext
      unfold server.handlePacket
      simp only [hgt, hne, if_false, hprev, hnext]
      split <;> rfl
  · intro hempty
    unfold server.handlePacket
    simp [hempty, netconst.MaxServerInputBuffer]

/-- Witness of C10: a retained buffer ending at frame 65535 and an incoming list ending at
frame 2, which is after it. -/
theorem server_ingest_ClientPlayerPacket_witness :
    (1 ≤ ([⟨1, ⟨false, false, false⟩⟩, ⟨2, ⟨false, true, false⟩⟩] :
        List packs.ClientFrameInput).length ∧
      ([⟨1, ⟨false, false, false⟩⟩, ⟨2, ⟨false, true, false⟩⟩] :
        List packs.ClientFrameInput).length ≤ 10) ∧
    server.handlePacket (fun l _ => l) 0 ⟨true, true, [], true, true⟩
        ⟨1, some 0, true, ⟨[]⟩, rtt.RoundTripTracking.fresh,
          [⟨65535, ⟨true, false, false⟩⟩], 0, 0⟩ 7
        (.ClientPlayer ⟨[⟨1, ⟨false, false, false⟩⟩, ⟨2, ⟨false, true, false⟩⟩]⟩) =
      ⟨⟨true, true, [], true, true⟩,
        { (⟨1, some 0, true, ⟨[]⟩, rtt.RoundTripTracking.fresh,
            [⟨65535, ⟨true, false, false⟩⟩], 0, 0⟩ : server.gameConnection) with
          AckPacket := ⟨[] ++ [7]⟩
          InputBuffer :=
            if rtt.IsWrappedUInt16GreaterThan
                (⟨2, ⟨false, true, false⟩⟩ : packs.ClientFrameInput).Frame
                (⟨65535, ⟨true, false, false⟩⟩ : packs.ClientFrameInput).Frame then
              [⟨1, ⟨false, false, false⟩⟩, ⟨2, ⟨false, true, false⟩⟩]
            else [⟨65535, ⟨true, false, false⟩⟩] }, false⟩ :=
  ⟨⟨by decide, by decide⟩,
    ((server_ingest_ClientPlayerPacket (fun l _ => l) 0 ⟨true, true, [], true, true⟩
      ⟨1, some 0, true, ⟨[]⟩, rtt.RoundTripTracking.fresh, [⟨65535, ⟨true, false, false⟩⟩],
        0, 0⟩
      7 ⟨[⟨1, ⟨false, false, false⟩⟩, ⟨2, ⟨false, true, false⟩⟩]⟩).1
        ⟨by decide, by decide⟩).2 ⟨65535, ⟨true, false, false⟩⟩ ⟨2, ⟨false, true, false⟩⟩
        rfl rfl⟩

/-! ### Reads never give bytes back -/

/-- A fixed-size read leaves no more bytes than there were. -/
theorem binaryRead_rest_le (size : Nat) (r : List Nat) :
    (binaryRead size r).rest.length ≤ r.length := by
  unfold binaryRead
  split
  · exact Nat.le_refl _
  · split
    · exact Nat.zero_le _
    · simp [ReadResult.rest]

/-- A read into a buffer leaves no more bytes than there were. -/
theorem readerRead_rest_le (size : Nat) (r : List Nat) :
    (readerRead size r).rest.length ≤ r.length := by
  unfold readerRead
  split
  · exact Nat.le_refl _
  · simp [ReadResult.rest]

/-- Transforming the value read does not touch the unread bytes. -/
theorem ReadResult.rest_map {α β : Type} (a : ReadResult α) (f : α → β) :
    (a.map f).rest = a.rest := by
  cases a <;> rfl

/-- Two reads in a row leave no more bytes than there were. -/
theorem ReadResult.rest_bind_le {α β : Type} (a : ReadResult α)
    (f : α → List Nat → ReadResult β) (n : Nat) (ha : a.rest.length ≤ n)
    (hf : ∀ v r, (f v r).rest.length ≤ r.length) : (a.bind f).rest.length ≤ n := by
  cases a with
  | ok v rest => exact Nat.le_trans (hf v rest) ha
  | fail e rest => exact ha

/-- Reading the elements of a slice leaves no more bytes than there were. -/
theorem readItems_rest_le (f : List Nat → ReadResult packbuf.Value)
    (hf : ∀ r, (f r).rest.length ≤ r.length) (n : Nat) (r : List Nat) :
    (packbuf.readItems f n r).rest.length ≤ r.length := by
  induction n generalizing r with
  | zero => exact Nat.le_refl _
  | succ n ih =>
    simp only [packbuf.readItems]
    apply ReadResult.rest_bind_le _ _ _ (hf r)
    intro v r1
    rw [ReadResult.rest_map]
    exact ih r1

/-- Reading a slice field leaves no more bytes than there were, when reading a struct of
the element type does. -/
theorem readField_slice_rest_le (elem : packbuf.Ty) (v : packbuf.Value) (r : List Nat)
    (h : ∀ fs, elem = .struct fs ∨ elem = .ptr (.struct fs) →
      ∀ vs r1, (packbuf.readStruct fs vs r1).rest.length ≤ r1.length) :
    (packbuf.readField (.slice elem) v r).rest.length ≤ r.length := by
  have key : ∀ (body : Int → List Nat → ReadResult packbuf.Value),
      (∀ n rest, (body n rest).rest.length ≤ rest.length) →
      ((binaryRead 4 r).bind fun bs rest =>
        if toSigned 32 (leNat bs) = 0 then ReadResult.ok v rest
        else if toSigned 32 (leNat bs) < 0 then
          ReadResult.fail (.panic "reflect.MakeSlice: negative len") rest
        else body (toSigned 32 (leNat bs)) rest).rest.length ≤ r.length := by
    intro body hbody
    apply ReadResult.rest_bind_le _ _ _ (binaryRead_rest_le 4 r)
    intro bs rest
    by_cases h0 : toSigned 32 (leNat bs) = 0
    · rw [if_pos h0]; exact Nat.le_refl _
    · rw [if_neg h0]
      by_cases h1 : toSigned 32 (leNat bs) < 0
      · rw [if_pos h1]; exact Nat.le_refl _
      · rw [if_neg h1]; exact hbody _ rest
  cases elem with
  | uint8 =>
    simp only [packbuf.readField]
    exact key (fun n rest => (readerRead n.toNat rest).map
      fun value => .slice (value.map .uint))
      (fun n rest => by rw [ReadResult.rest_map]; exact readerRead_rest_le _ _)
  | uint16 =>
    simp only [packbuf.readField]
    exact key (fun n rest => (packbuf.readItems
      (fun r => (binaryRead 2 r).map fun bs => .uint (leNat bs)) n.toNat rest).map .slice)
      (fun n rest => by
        rw [ReadResult.rest_map]
        apply readItems_rest_le
        intro r1
        rw [ReadResult.rest_map]; exact binaryRead_rest_le 2 r1)
  | struct fs =>
    simp only [packbuf.readField]
    exact key (fun n rest => (packbuf.readItems
      (fun r => (packbuf.readStruct fs (packbuf.zeroFields fs) r).map .struct)
      n.toNat rest).map .slice)
      (fun n rest => by
        rw [ReadResult.rest_map]
        apply readItems_rest_le
        intro r1
        rw [ReadResult.rest_map]; exact h fs (Or.inl rfl) _ r1)
  | ptr target =>
    cases target with
    | struct fs =>
      simp only [packbuf.readField]
      exact key (fun n rest => (packbuf.readItems
        (fun r => (packbuf.readStruct fs (packbuf.zeroFields fs) r).map
          fun vs => .ptr (.struct vs)) n.toNat rest).map .slice)
        (fun n rest => by
          rw [ReadResult.rest_map]
          apply readItems_rest_le
          intro r1
          rw [ReadResult.rest_map]; exact h fs (Or.inr rfl) _ r1)
    | _ =>
      simp only [packbuf.readField]
      exact key (fun _ rest => .fail
        (.err (.New "unable to handle []*Type where Type is not a struct")) rest)
        (fun _ _ => Nat.le_refl _)
  | _ =>
    simp only [packbuf.readField]
    exact key (fun _ rest => .fail (.err (.New _)) rest) (fun _ _ => Nat.le_refl _)

/-- Reading a field, or the fields of a struct, leaves no more bytes than there were: by
induction on the size of the type. -/
theorem read_rest_le_of_sizeOf (n : Nat) :
    (∀ t : packbuf.Ty, sizeOf t ≤ n → ∀ v r,
      (packbuf.readField t v r).rest.length ≤ r.length) ∧
    (∀ fs : packbuf.Fields, sizeOf fs ≤ n → ∀ vs r,
      (packbuf.readStruct fs vs r).rest.length ≤ r.length) := by
  induction n with
  | zero =>
    constructor
    · intro t ht; cases t <;> simp at ht
    · intro fs hfs; cases fs <;> simp at hfs
  | succ n ih =>
    constructor
    · intro t ht v r
      cases t with
      | slice elem =>
        apply readField_slice_rest_le
        intro fs hfs vs r1
        apply ih.2 fs _ vs r1
        rcases hfs with e | e <;> subst e <;> simp at ht <;> omega
      | struct fs =>
        cases v with
        | struct vs =>
          simp only [packbuf.readField]
          rw [ReadResult.rest_map]
          exact ih.2 fs (by simp at ht; omega) vs r
        | _ => simp [packbuf.readField, ReadResult.rest]
      | string =>
        simp only [packbuf.readField]
        apply ReadResult.rest_bind_le _ _ _ (binaryRead_rest_le 2 r)
        intro bs rest
        split
        · exact Nat.le_refl _
        · split
          · exact Nat.le_refl _
          · rw [ReadResult.rest_map]; exact readerRead_rest_le _ _
      | int16 => simp [packbuf.readField, ReadResult.rest]
      | other kind => simp [packbuf.readField, ReadResult.rest]
      | ptr elem => simp [packbuf.readField, ReadResult.rest]
      | _ =>
        simp only [packbuf.readField]; rw [ReadResult.rest_map]; exact binaryRead_rest_le _ _
    · intro fs hfs vs r
      cases fs with
      | nil => simp [packbuf.readStruct, ReadResult.rest]
      | cons exported t rest =>
        cases vs with
        | nil => simp [packbuf.readStruct, ReadResult.rest]
        | cons v vs =>
          simp only [packbuf.readStruct]
          have h1 : sizeOf t ≤ n := by simp at hfs; omega
          have h2 : sizeOf rest ≤ n := by simp at hfs; omega
          split
          · rw [ReadResult.rest_map]; exact ih.2 rest h2 vs r
          · apply ReadResult.rest_bind_le _ _ _ (ih.1 t h1 v r)
            intro v1 r1
            rw [ReadResult.rest_map]; exact ih.2 rest h2 vs r1

/-- Reading the fields of a struct leaves no more bytes than there were. -/
theorem readStruct_rest_le (fs : packbuf.Fields) (vs : List packbuf.Value) (r : List Nat) :
    (packbuf.readStruct fs vs r).rest.length ≤ r.length :=
  (read_rest_le_of_sizeOf (sizeOf fs)).2 fs (Nat.le_refl _) vs r

/-- `packs.Read` on a reader that is not empty uses up at least one byte, whatever it
returns. -/
theorem packs_Read_rest_lt (b : Nat) (r : List Nat) :
    (packs.Read (b :: r)).rest.length < (b :: r).length := by
  have hle : (packs.Read (b :: r)).rest.length ≤ r.length := by
    simp only [packs.Read, binaryRead_one, ReadResult.bind]
    split
    · exact Nat.le_refl _
    · rename_i packetType _
      apply ReadResult.rest_bind_le _ _ _ (binaryRead_rest_le 2 r)
      intro bs r2
      apply ReadResult.rest_bind_le (n := r2.length) _ _
      · unfold packbuf.Read
        split
        · rw [ReadResult.rest_map]; exact readStruct_rest_le _ _ _
        · exact Nat.le_refl _
      · intro v r3
        split <;> exact Nat.le_refl _
  exact Nat.lt_of_le_of_lt hle (Nat.lt_succ_self _)

/-- `packs.Read` on an empty reader is `io.EOF`. -/
theorem packs_Read_nil : packs.Read [] = .fail (.err .EOF) [] := rfl

/-! ### The ingest loops of the server -/

/-- One more turn than the frame has bytes is enough for the inner loop of `MainReadLoop`:
it ends by `io.EOF`, by `break MainReadLoop` or by a panic, never for lack of turns. -/
theorem server_ingestFrame_ends (ewma : Int → Int → Int) (now : Int) (fuel : Nat)
    (state : server.Ingest) (buf : List Nat) (h : buf.length < fuel) :
    server.ingestFrame ewma now fuel state buf ≠ none := by
  induction fuel generalizing state buf with
  | zero => exact absurd h (Nat.not_lt_zero _)
  | succ fuel ih =>
    cases buf with
    | nil => simp [server.ingestFrame, packs_Read_nil]
    | cons b r =>
      have hlt := packs_Read_rest_lt b r
      have hfuel : (packs.Read (b :: r)).rest.length < fuel := by
        simp only [List.length_cons] at h hlt
        omega
      unfold server.ingestFrame
      cases hr : packs.Read (b :: r) with
      | ok value rest =>
        obtain ⟨sequenceID, packet⟩ := value
        rw [hr] at hfuel
        simp only
        split
        · simp
        · exact ih _ rest hfuel
      | fail fault rest =>
        rw [hr] at hfuel
        cases fault with
        | panic msg => simp
        | err e =>
          cases e with
          | EOF => simp
          | ErrUnexpectedEOF => exact ih _ rest hfuel
          | InvalidPacketID id => exact ih _ rest hfuel
          | New msg => exact ih _ rest hfuel
          | Errorf format => exact ih _ rest hfuel

/-- A packet that does not end `MainReadLoop` leaves the connection as it was. -/
theorem server_handlePacket_conn (ewma : Int → Int → Int) (now : Int)
    (conn : webrtcserver.Connection) (gameConn : server.gameConnection) (seqID : Nat)
    (packet : packs.Packet)
    (h : (server.handlePacket ewma now conn gameConn seqID packet).stopped = false) :
    (server.handlePacket ewma now conn gameConn seqID packet).conn = conn := by
  cases packet with
  | Ack a => rfl
  | ServerWorldState a => rfl
  | ClientPlayer a =>
    unfold server.handlePacket at h ⊢
    simp only at h ⊢
    split
    · rename_i hgt
      rw [if_pos hgt] at h
      exact absurd h (by simp)
    · split
      · rfl
      · split
        · split <;> rfl
        · rfl

/-- The inner loop of `MainReadLoop` leaves the connection as it was unless it reached
`break MainReadLoop`. -/
theorem server_ingestFrame_conn (ewma : Int → Int → Int) (now : Int) (fuel : Nat)
    (state state1 : server.Ingest) (buf : List Nat)
    (h : server.ingestFrame ewma now fuel state buf = some (.ok state1))
    (hstopped : state1.stopped = false) : state1.conn = state.conn := by
  induction fuel generalizing state buf with
  | zero => simp [server.ingestFrame] at h
  | succ fuel ih =>
    unfold server.ingestFrame at h
    cases hr : packs.Read buf with
    | ok value rest =>
      obtain ⟨sequenceID, packet⟩ := value
      rw [hr] at h
      simp only at h
      split at h
      · rename_i hs
        have e : server.handlePacket ewma now state.conn state.gameConn sequenceID packet =
            state1 := by
          injection h with h1
          injection h1
        rw [e] at hs
        rw [hs] at hstopped
        exact absurd hstopped (by simp)
      · rename_i hs
        have h1 := ih _ rest h
        rw [h1]
        exact server_handlePacket_conn ewma now _ _ _ _ (by simpa using hs)
    | fail fault rest =>
      rw [hr] at h
      cases fault with
      | panic msg => simp at h
      | err e =>
        cases e with
        | EOF =>
          simp only at h
          injection h with h1
          injection h1 with h2
          rw [h2]
        | ErrUnexpectedEOF => exact ih _ rest h
        | InvalidPacketID id => exact ih _ rest h
        | New msg => exact ih _ rest h
        | Errorf format => exact ih _ rest h

/-- C11: when the server decodes a `ClientPlayerPacket` with more than 10 input frames from
a connection, it closes that connection without freeing its slot (not connected, `isUsed`
as before), leaves the retained input buffer of the connection as it was, and ends
`MainReadLoop`: the inner loop returns at once, whatever bytes are left in the frame, and
the loop over the received frames returns at once, whatever frames are left. -/
theorem server_oversized_input_closes_connection (ewma : Int → Int → Int) (now : Int)
    (seqID : Nat) (packet : packs.ClientPlayerPacket)
    (hlen : packet.InputBuffer.length > 10) :
    (∀ (conn : webrtcserver.Connection) (gameConn : server.gameConnection),
      server.handlePacket ewma now conn gameConn seqID (.ClientPlayer packet) =
        ⟨conn.CloseButDontFree,
          { gameConn with AckPacket := ⟨gameConn.AckPacket.SequenceIDList ++ [seqID]⟩ },
          true⟩ ∧
      conn.CloseButDontFree.isConnected = false ∧
      conn.CloseButDontFree.isUsed = conn.isUsed ∧
      ({ gameConn with AckPacket := ⟨gameConn.AckPacket.SequenceIDList ++ [seqID]⟩ } :
        server.gameConnection).InputBuffer = gameConn.InputBuffer) ∧
    (∀ (fuel : Nat) (state : server.Ingest) (buf rest : List Nat),
      packs.Read buf = .ok (seqID, .ClientPlayer packet) rest →
      server.ingestFrame ewma now (fuel + 1) state buf =
        some (.ok ⟨state.conn.CloseButDontFree,
          { state.gameConn with
            AckPacket := ⟨state.gameConn.AckPacket.SequenceIDList ++ [seqID]⟩ }, true⟩)) ∧
    (∀ (byteData rest : List Nat) (frames : List (List Nat)) (state : server.Ingest),
      packs.Read byteData = .ok (seqID, .ClientPlayer packet) rest →
      server.readFrames ewma now (byteData :: frames) state =
        some (.ok ⟨({ state.conn with packets := frames } :
            webrtcserver.Connection).CloseButDontFree,
          { state.gameConn with
            AckPacket := ⟨state.gameConn.AckPacket.SequenceIDList ++ [seqID]⟩ }, true⟩)) := by
  have hstep : ∀ (conn : webrtcserver.Connection) (gameConn : server.gameConnection),
      server.handlePacket ewma now conn gameConn seqID (.ClientPlayer packet) =
        ⟨conn.CloseButDontFree,
          { gameConn with AckPacket := ⟨gameConn.AckPacket.SequenceIDList ++ [seqID]⟩ },
          true⟩ := by
    intro conn gameConn
    unfold server.handlePacket
    simp only [netconst.MaxServerInputBuffer, hlen, if_true]
  have hframe : ∀ (fuel : Nat) (state : server.Ingest) (buf rest : List Nat),
      packs.Read buf = .ok (seqID, .ClientPlayer packet) rest →
      server.ingestFrame ewma now (fuel + 1) state buf =
        some (.ok ⟨state.conn.CloseButDontFree,
          { state.gameConn with
            AckPacket := ⟨state.gameConn.AckPacket.SequenceIDList ++ [seqID]⟩ }, true⟩) := by
    intro fuel state buf rest hr
    unfold server.ingestFrame
    rw [hr]
    simp only [hstep, if_true]
  refine ⟨fun conn gameConn => ⟨hstep conn gameConn, rfl, rfl, rfl⟩, hframe, ?_⟩
  intro byteData rest frames state hr
  unfold server.readFrames
  rw [hframe _ _ _ _ hr]
  simp only [if_true]

/-- Witness of C11: a frame holding a `ClientPlayerPacket` with eleven input frames followed
by an `AckPacket`, and a second frame waiting; neither is processed. -/
theorem server_oversized_input_closes_connection_witness :
    server.readFrames (fun l _ => l) 0
        ((packs.wireEnvelope 4 (.ClientPlayer ⟨List.replicate 11 ⟨1, ⟨false, false, false⟩⟩⟩) ++
          packs.wireEnvelope 5 (.Ack ⟨[1]⟩)) :: [[1, 0, 0, 0, 0, 0, 0]])
        ⟨⟨true, true, [], true, true⟩,
          ⟨1, some 0, true, ⟨[]⟩, rtt.RoundTripTracking.fresh, [⟨7, ⟨true, false, false⟩⟩], 0,
            0⟩, false⟩ =
      some (.ok ⟨({ (⟨true, true, [], true, true⟩ : webrtcserver.Connection) with
            packets := [[1, 0, 0, 0, 0, 0, 0]] }).CloseButDontFree,
          { (⟨1, some 0, true, ⟨[]⟩, rtt.RoundTripTracking.fresh,
              [⟨7, ⟨true, false, false⟩⟩], 0, 0⟩ : server.gameConnection) with
            AckPacket := ⟨[] ++ [4]⟩ }, true⟩) :=
  (server_oversized_input_closes_connection (fun l _ => l) 0 4
    ⟨List.replicate 11 ⟨1, ⟨false, false, false⟩⟩⟩ (by decide)).2.2
    _ (packs.wireEnvelope 5 (.Ack ⟨[1]⟩)) _ _ (by decide)

/-- C12 (as amended): whenever `packs.Read` returns a decode error other than `io.EOF` on a
frame received from a connection, the server goes on decoding the frame from the byte where
the failed read stopped, with the connection and its game state as they were. The inner
loop on a frame always ends, and when it ends without `break MainReadLoop` (which only an
oversized input list reaches) the connection is as it was before the frame: still
connected, its slot still used. -/
theorem server_decode_error_is_skipped (ewma : Int → Int → Int) (now : Int) :
    (∀ (fuel : Nat) (state : server.Ingest) (buf rest : List Nat) (e : GoError),
      packs.Read buf = .fail (.err e) rest → e ≠ .EOF →
      server.ingestFrame ewma now (fuel + 1) state buf =
        server.ingestFrame ewma now fuel state rest) ∧
    (∀ (state : server.Ingest) (buf : List Nat),
      server.ingestFrame ewma now (buf.length + 1) state buf ≠ none) ∧
    (∀ (fuel : Nat) (state state1 : server.Ingest) (buf : List Nat),
      server.ingestFrame ewma now fuel state buf = some (.ok state1) →
      state1.stopped = false → state1.conn = state.conn) := by
  refine ⟨?_, fun state buf => server_ingestFrame_ends ewma now _ state buf (Nat.lt_succ_self _),
    fun fuel state state1 buf => server_ingestFrame_conn ewma now fuel state state1 buf⟩
  intro fuel state buf rest e hr hne
  conv_lhs => unfold server.ingestFrame
  rw [hr]
  cases e with
  | EOF => exact absurd rfl hne
  | ErrUnexpectedEOF => rfl
  | InvalidPacketID id => rfl
  | New msg => rfl
  | Errorf format => rfl

/-- Witness of C12: the frame `[0, 2, 7]`, whose first byte is no packet tag and whose last
two bytes are a `ClientPlayerPacket` tag with half a sequence number. -/
theorem server_decode_error_is_skipped_witness :
    packs.Read [0, 2, 7] = .fail (.err (.InvalidPacketID 0)) [2, 7] ∧
    GoError.InvalidPacketID 0 ≠ .EOF ∧
    server.ingestFrame (fun l _ => l) 0 (3 + 1)
        ⟨⟨true, true, [], true, true⟩, server.gameConnection.fresh 1, false⟩ [0, 2, 7] =
      server.ingestFrame (fun l _ => l) 0 3
        ⟨⟨true, true, [], true, true⟩, server.gameConnection.fresh 1, false⟩ [2, 7] :=
  ⟨by decide, by decide,
    (server_decode_error_is_skipped (fun l _ => l) 0).1 3
      ⟨⟨true, true, [], true, true⟩, server.gameConnection.fresh 1, false⟩ [0, 2, 7] [2, 7]
      (.InvalidPacketID 0) (by decide) (by decide)⟩

/-- C12 as stated fails: a connection that sends the frame `[0, 2, 7]` (an unknown packet
tag, then a packet cut short) stays connected and used after `MainReadLoop`, with its game
state untouched. -/
theorem server_decode_error_is_skipped_counterexample :
    packs.Read [0, 2, 7] = .fail (.err (.InvalidPacketID 0)) [2, 7] ∧
    packs.Read [2, 7] = .fail (.err .ErrUnexpectedEOF) [] ∧
    server.MainReadLoop (fun l _ => l) 0 ⟨true, true, [[0, 2, 7]], true, true⟩
        (server.gameConnection.fresh 1) =
      some (.ok ⟨⟨true, true, [], true, true⟩, server.gameConnection.fresh 1, false⟩) := by
  refine ⟨by decide, by decide, ?_⟩
  rfl

/-! ### Reclamation and the slot pool -/

/-- C13: in disconnect reclamation, for a slot whose transport reports not connected while
its `gameConnection` is marked used (with a player, in a world whose `Players` holds no
pointer twice): the turn of the slot ends with `continue` and without a panic; afterwards
the player of the connection is absent from `world.Players`, whose other players keep their
order (and no player is touched), the `gameConnection` equals a fresh record except for its
`ID`, the same non-zero value as before (`IsUsed` false, empty ack list and input buffer,
both frame fields 0), and the transport slot is marked not used. -/
theorem server_reclaims_disconnected_slot (w : world.World) (conn : webrtcserver.Connection)
    (gameConn : server.gameConnection) (player : Nat)
    (hconn : conn.isConnected = false) (hused : gameConn.IsUsed = true)
    (hplayer : gameConn.Player = some player) (hid : gameConn.ID ≠ 0)
    (hwf : w.WellFormed) :
    ∃ after, server.prepareSlot w conn gameConn = .ok after ∧
      after.skipped = true ∧
      player ∉ after.world.Players ∧
      after.world.Players = w.Players.filter (fun p => p != player) ∧
      after.world.heap = w.heap ∧
      after.gameConn = { server.gameConnection.fresh 0 with ID := gameConn.ID } ∧
      after.gameConn.ID = gameConn.ID ∧ after.gameConn.ID ≠ 0 ∧
      after.gameConn.IsUsed = false ∧ after.gameConn.Player = none ∧
      after.gameConn.AckPacket.SequenceIDList = [] ∧ after.gameConn.InputBuffer = [] ∧
      after.gameConn.LastInputFrameSimulated = 0 ∧
      after.gameConn.NextInputFrameToBeSimulated = 0 ∧
      after.conn = { conn with isUsed := false } ∧ after.conn.isUsed = false := by
  refine ⟨⟨w.RemovePlayer gameConn.Player, { conn with isUsed := false },
    { server.gameConnection.fresh 0 with ID := gameConn.ID }, true⟩, ?_, rfl, ?_, ?_, ?_, rfl,
    rfl, hid, rfl, rfl, rfl, rfl, rfl, rfl, rfl, rfl⟩
  · simp [server.prepareSlot, webrtcserver.Connection.IsConnected, hconn, hused,
      webrtcserver.Connection.Free]
  · simp only [hplayer, world.World.RemovePlayer]
    exact fun h => (List.Nodup.not_mem_erase hwf.1) h
  · simp only [hplayer, world.World.RemovePlayer]
    exact List.Nodup.erase_eq_filter hwf.1 _
  · simp only [hplayer, world.World.RemovePlayer]

/-- Witness of C13: three players, the one in the middle belongs to the slot reclaimed. -/
theorem server_reclaims_disconnected_slot_witness :
    ∃ after, server.prepareSlot
        ⟨List.replicate 3 ⟨0, ⟨false, false, false⟩, 0, 0, 0, 0, 0, 0, false⟩, [0, 1, 2],
          ⟨false, false, false⟩, none⟩
        ⟨false, false, [], false, true⟩
        ⟨2, some 1, true, ⟨[9]⟩, rtt.RoundTripTracking.fresh, [⟨7, ⟨true, false, false⟩⟩], 6,
          7⟩ = .ok after ∧
      after.skipped = true ∧
      1 ∉ after.world.Players ∧
      after.world.Players = ([0, 1, 2] : List Nat).filter (fun p => p != 1) ∧
      after.world.heap =
        List.replicate 3 ⟨0, ⟨false, false, false⟩, 0, 0, 0, 0, 0, 0, false⟩ ∧
      after.gameConn = { server.gameConnection.fresh 0 with ID := 2 } ∧
      after.gameConn.ID = 2 ∧ after.gameConn.ID ≠ 0 ∧
      after.gameConn.IsUsed = false ∧ after.gameConn.Player = none ∧
      after.gameConn.AckPacket.SequenceIDList = [] ∧ after.gameConn.InputBuffer = [] ∧
      after.gameConn.LastInputFrameSimulated = 0 ∧
      after.gameConn.NextInputFrameToBeSimulated = 0 ∧
      after.conn = { (⟨false, false, [], false, true⟩ : webrtcserver.Connection) with
        isUsed := false } ∧
      after.conn.isUsed = false :=
  server_reclaims_disconnected_slot
    ⟨List.replicate 3 ⟨0, ⟨false, false, false⟩, 0, 0, 0, 0, 0, 0, false⟩, [0, 1, 2],
      ⟨false, false, false⟩, none⟩
    ⟨false, false, [], false, true⟩
    ⟨2, some 1, true, ⟨[9]⟩, rtt.RoundTripTracking.fresh, [⟨7, ⟨true, false, false⟩⟩], 6, 7⟩
    1 rfl rfl rfl (by decide) ⟨by decide, by decide⟩

/-- The scan for a free slot passes over the used slots and takes the first free one. -/
theorem acquire_append_of_used (pre post : List webrtcserver.Connection)
    (conn : webrtcserver.Connection) (hpre : ∀ c ∈ pre, c.isUsed = true)
    (hfree : conn.isUsed = false) :
    webrtcserver.acquire (pre ++ conn :: post) =
      some (pre.length,
        pre ++ { conn with isUsed := true, hasPeerConnection := true } :: post) := by
  induction pre with
  | nil => simp [webrtcserver.acquire, hfree]
  | cons c pre ih =>
    have hc : c.isUsed = true := hpre c (List.mem_cons_self _ _)
    rw [List.cons_append]
    unfold webrtcserver.acquire
    rw [if_pos hc, ih (fun d hd => hpre d (List.mem_cons_of_mem _ hd))]
    rfl

/-- C14: `Connection.Free` panics exactly when the slot is connected, and otherwise returns
without error; for every slot state `CloseButDontFree` leaves `isUsed` as it is and makes
the slot not connected, so `CloseButDontFree` followed by `Free` always succeeds and leaves
the slot not used and not connected; after which the scan for a free slot takes it again as
soon as every slot before it is used. -/
theorem connection_close_then_free (conn : webrtcserver.Connection) :
    ((∃ msg, conn.Free = .error (.panic msg)) ↔ conn.isConnected = true) ∧
    (conn.isConnected = false → conn.Free = .ok { conn with isUsed := false }) ∧
    conn.CloseButDontFree.isUsed = conn.isUsed ∧
    conn.CloseButDontFree.isConnected = false ∧
    (∃ freed, conn.CloseButDontFree.Free = .ok freed ∧ freed.isUsed = false ∧
      freed.isConnected = false ∧
      ∀ pre post : List webrtcserver.Connection, (∀ c ∈ pre, c.isUsed = true) →
        webrtcserver.acquire (pre ++ freed :: post) =
          some (pre.length,
            pre ++ { freed with isUsed := true, hasPeerConnection := true } :: post)) := by
  refine ⟨?_, ?_, rfl, rfl, ?_⟩
  · unfold webrtcserver.Connection.Free
    cases h : conn.isConnected
    · simp
    · simp
  · intro h
    simp [webrtcserver.Connection.Free, h]
  · refine ⟨{ conn.CloseButDontFree with isUsed := false }, rfl, rfl, rfl, ?_⟩
    intro pre post hpre
    exact acquire_append_of_used pre post _ hpre rfl

/-- Witness of C14: a connected, used slot is closed and freed, and a freed slot behind one
used slot is taken again by the scan. -/
theorem connection_close_then_free_witness :
    (⟨true, true, [[1]], true, true⟩ : webrtcserver.Connection).CloseButDontFree.isConnected =
      false ∧
    (⟨true, true, [[1]], true, true⟩ : webrtcserver.Connection).CloseButDontFree.Free =
      .ok { (⟨true, true, [[1]], true, true⟩ : webrtcserver.Connection).CloseButDontFree with
        isUsed := false } ∧
    webrtcserver.acquire
        ([⟨true, true, [], true, true⟩] ++ ⟨false, false, [], false, false⟩ ::
          [⟨false, false, [], false, false⟩]) =
      some (1, [⟨true, true, [], true, true⟩] ++ ⟨true, false, [], false, true⟩ ::
          [⟨false, false, [], false, false⟩]) :=
  ⟨rfl,
    (connection_close_then_free
      (⟨true, true, [[1]], true, true⟩ : webrtcserver.Connection).CloseButDontFree).2.1 rfl,
    by decide⟩

/-! ### The tracker of sent packets -/

/-- A slot is free for `Next` when its whole-millisecond age exceeds 1000, that is when it
was stored at least 1001 ms before `now` (a zero time is always that old). -/
theorem rtt_slot_expired_iff (now t : Int) :
    rtt.Milliseconds (rtt.timeSub now t) > rtt.maximumRoundTripTimeLimit ↔
      now - t ≥ 1001000000 := by
  unfold rtt.Milliseconds rtt.timeSub rtt.maximumRoundTripTimeLimit
  split
  · rw [Int.tdiv_eq_ediv (by omega) (by omega)]
    omega
  · split
    · have e : (-9223372036854775808 : Int).tdiv 1000000 = -9223372036854 := by decide
      rw [e]
      omega
    · by_cases h : 0 ≤ now - t
      · rw [Int.tdiv_eq_ediv h (by omega)]
        omega
      · have e : (now - t).tdiv 1000000 = -((-(now - t)).tdiv 1000000) := by
          rw [Int.neg_tdiv, neg_neg]
        have := Int.tdiv_nonneg (a := -(now - t)) (b := 1000000) (by omega) (by omega)
        rw [e]
        omega

/-- The loop of `Next` writes into the first slot that is free and leaves the others. -/
theorem storeInFreeSlot_append (seqID : Nat) (now : Int) (pre post : List rtt.packetSequence)
    (slot : rtt.packetSequence) (hpre : ∀ x ∈ pre, now - x.Time < 1001000000)
    (hslot : now - slot.Time ≥ 1001000000) :
    rtt.storeInFreeSlot seqID now (pre ++ slot :: post) = pre ++ ⟨seqID, now⟩ :: post := by
  induction pre with
  | nil =>
    simp only [List.nil_append, rtt.storeInFreeSlot]
    rw [if_pos ((rtt_slot_expired_iff now slot.Time).2 hslot)]
  | cons x pre ih =>
    have hx : ¬ rtt.Milliseconds (rtt.timeSub now x.Time) > rtt.maximumRoundTripTimeLimit := by
      rw [rtt_slot_expired_iff]
      have := hpre x (List.mem_cons_self _ _)
      omega
    rw [List.cons_append]
    unfold rtt.storeInFreeSlot
    rw [if_neg hx, ih (fun y hy => hpre y (List.mem_cons_of_mem _ hy))]
    rfl

/-- The loop of `Next` changes nothing when no slot is free. -/
theorem storeInFreeSlot_of_none_expired (seqID : Nat) (now : Int)
    (ring : List rtt.packetSequence) (h : ∀ x ∈ ring, now - x.Time < 1001000000) :
    rtt.storeInFreeSlot seqID now ring = ring := by
  induction ring with
  | nil => rfl
  | cons x ring ih =>
    have hx : ¬ rtt.Milliseconds (rtt.timeSub now x.Time) > rtt.maximumRoundTripTimeLimit := by
      rw [rtt_slot_expired_iff]
      have := h x (List.mem_cons_self _ _)
      omega
    simp only [rtt.storeInFreeSlot]
    rw [if_neg hx, ih (fun y hy => h y (List.mem_cons_of_mem _ hy))]

/-- C16 (as amended): for every tracker state and current time, `RoundTripTracking.Next`
returns the current counter `s`, advances the counter by one modulo 65536 and leaves the
smoothed latency as it is. It records `s` only when some slot of the ring is free, that is
when its stored time lies at least 1001 ms before now (the age is cut to whole milliseconds
before it is compared with 1000): then the lowest-index such slot becomes `{s, now}` and
every other slot stays as it is. When no slot is free the ring stays as it is and `s` is not
recorded. -/
theorem rtt_Next_records_in_first_free_slot (tracker : rtt.RoundTripTracking) (now : Int) :
    (tracker.Next now).1 = tracker.packetSequenceID ∧
    (tracker.Next now).2.packetSequenceID = (tracker.packetSequenceID + 1) % 65536 ∧
    (tracker.Next now).2.latency = tracker.latency ∧
    (∀ pre slot post, tracker.packetSequenceList = pre ++ slot :: post →
      (∀ x ∈ pre, now - x.Time < 1001000000) → now - slot.Time ≥ 1001000000 →
      (tracker.Next now).2.packetSequenceList =
        pre ++ ⟨tracker.packetSequenceID, now⟩ :: post) ∧
    ((∀ x ∈ tracker.packetSequenceList, now - x.Time < 1001000000) →
      (tracker.Next now).2.packetSequenceList = tracker.packetSequenceList) ∧
    (∀ t, rtt.Milliseconds (rtt.timeSub now t) > rtt.maximumRoundTripTimeLimit ↔
      now - t ≥ 1001000000) := by
  refine ⟨rfl, rfl, rfl, ?_, ?_, rtt_slot_expired_iff now⟩
  · intro pre slot post hring hpre hslot
    simp only [rtt.RoundTripTracking.Next]
    rw [hring]
    exact storeInFreeSlot_append _ now pre post slot hpre hslot
  · intro h
    simp only [rtt.RoundTripTracking.Next]
    exact storeInFreeSlot_of_none_expired _ now _ h

/-- Witness of C16: the second slot is the first free one (1001 ms old; the first is only
1000.999999 ms old). -/
theorem rtt_Next_records_in_first_free_slot_witness :
    ((⟨7, [⟨5, 4000000001⟩, ⟨4, 4000000000⟩, ⟨0, 0⟩], 3⟩ : rtt.RoundTripTracking).Next
        5001000000).2.packetSequenceList =
      [⟨5, 4000000001⟩] ++ ⟨7, 5001000000⟩ :: [⟨0, 0⟩] :=
  (rtt_Next_records_in_first_free_slot ⟨7, [⟨5, 4000000001⟩, ⟨4, 4000000000⟩, ⟨0, 0⟩], 3⟩
    5001000000).2.2.2.1 [⟨5, 4000000001⟩] ⟨4, 4000000000⟩ [⟨0, 0⟩] rfl (by decide) (by decide)

/-- C16 as stated fails: after 60 calls of `Next` at one instant on a fresh tracker every
slot of the ring is young, and the 61st call, which returns 60, leaves the ring as it is:
no slot holds `{60, now}`. -/
theorem rtt_Next_records_in_first_free_slot_counterexample :
    ((Nat.iterate (fun t : rtt.RoundTripTracking => (t.Next 63750000000000000000).2) 60
        rtt.RoundTripTracking.fresh).Next 63750000000000000000).1 = 60 ∧
    ((Nat.iterate (fun t : rtt.RoundTripTracking => (t.Next 63750000000000000000).2) 60
        rtt.RoundTripTracking.fresh).Next 63750000000000000000).2.packetSequenceList =
      (Nat.iterate (fun t : rtt.RoundTripTracking => (t.Next 63750000000000000000).2) 60
        rtt.RoundTripTracking.fresh).packetSequenceList ∧
    (⟨60, 63750000000000000000⟩ : rtt.packetSequence) ∉
      ((Nat.iterate (fun t : rtt.RoundTripTracking => (t.Next 63750000000000000000).2) 60
        rtt.RoundTripTracking.fresh).Next 63750000000000000000).2.packetSequenceList := by
  decide

/-- C17 (as amended): `RoundTripTracking.Next` returns the counter as it stands, 0 included:
the first call on a freshly created tracker returns 0, and the call that follows the one
returning 65535 returns 0. -/
theorem rtt_Next_returns_zero (now1 now2 : Int) (ring : List rtt.packetSequence)
    (latency : Int) :
    (rtt.RoundTripTracking.fresh.Next now1).1 = 0 ∧
    ((⟨65535, ring, latency⟩ : rtt.RoundTripTracking).Next now1).1 = 65535 ∧
    (((⟨65535, ring, latency⟩ : rtt.RoundTripTracking).Next now1).2.Next now2).1 = 0 ∧
    ∀ tracker : rtt.RoundTripTracking, (tracker.Next now1).1 = tracker.packetSequenceID :=
  ⟨rfl, rfl, by simp [rtt.RoundTripTracking.Next], fun _ => rfl⟩

/-- C17 as stated fails: the first `Next` on a fresh tracker returns 0, and on a tracker
whose counter is 65535 the second `Next` returns 0. -/
theorem rtt_Next_returns_zero_counterexample :
    (rtt.RoundTripTracking.fresh.Next 63750000000000000000).1 = 0 ∧
    (((⟨65535, List.replicate 60 ⟨0, 0⟩, 0⟩ : rtt.RoundTripTracking).Next
        63750000000000000000).2.Next 63750000016000000000).1 = 0 := by
  decide

/-- C18 at the failing input: on a fresh tracker `Next` returns 0 and records it in slot 0;
two seconds later `Next` returns 1 and overwrites slot 0, so that no slot holds the entry of
sequence 0 any more, and the latency is still 0; `Ack(0)` then finds the never-used slot 1,
whose zero value has `SequenceID` 0 and the zero time, and sets the latency to the largest
duration. -/
theorem rtt_Ack_of_overwritten_zero_sets_latency :
    (rtt.RoundTripTracking.fresh.Next 63750000000000000000).1 = 0 ∧
    (⟨0, 63750000000000000000⟩ : rtt.packetSequence) ∈
      (rtt.RoundTripTracking.fresh.Next 63750000000000000000).2.packetSequenceList ∧
    ((rtt.RoundTripTracking.fresh.Next 63750000000000000000).2.Next
      63750002000000000000).1 = 1 ∧
    (⟨0, 63750000000000000000⟩ : rtt.packetSequence) ∉
      ((rtt.RoundTripTracking.fresh.Next 63750000000000000000).2.Next
        63750002000000000000).2.packetSequenceList ∧
    ((rtt.RoundTripTracking.fresh.Next 63750000000000000000).2.Next
      63750002000000000000).2.latency = 0 ∧
    (((rtt.RoundTripTracking.fresh.Next 63750000000000000000).2.Next
      63750002000000000000).2.Ack rtt.ewmaFloat64 63750002000000000000 0).latency =
      9223372036854775807 := by
  decide

/-! ### `float64` rounding -/

/-- Rounding to the nearest integer gives the floor or the integer above it. -/
theorem roundHalfEven_bounds (x : ℚ) :
    ⌊x⌋ ≤ rtt.roundHalfEven x ∧ rtt.roundHalfEven x ≤ ⌊x⌋ + 1 := by
  unfold rtt.roundHalfEven
  split_ifs <;> constructor <;> omega

/-- An integer rounds to itself. -/
theorem roundHalfEven_intCast (n : ℤ) : rtt.roundHalfEven (n : ℚ) = n := by
  unfold rtt.roundHalfEven
  rw [Int.floor_intCast]
  simp

/-- Rounding to the nearest integer is monotone. -/
theorem roundHalfEven_mono {x y : ℚ} (h : x ≤ y) :
    rtt.roundHalfEven x ≤ rtt.roundHalfEven y := by
  have hf : ⌊x⌋ ≤ ⌊y⌋ := Int.floor_mono h
  rcases lt_or_eq_of_le hf with hlt | heq
  · exact Int.le_trans (roundHalfEven_bounds x).2
      (Int.le_trans (by omega) (roundHalfEven_bounds y).1)
  · have hfrac : x - ⌊x⌋ ≤ y - ⌊y⌋ := by
      rw [heq]
      linarith
    unfold rtt.roundHalfEven
    rw [heq] at hfrac ⊢
    split_ifs <;> first | omega | linarith

/-- Rounding to the nearest integer commutes with negation. -/
theorem roundHalfEven_neg (x : ℚ) : rtt.roundHalfEven (-x) = -rtt.roundHalfEven x := by
  have h1 := Int.floor_le x
  have h2 := Int.lt_floor_add_one x
  have h3 := Int.floor_le (-x)
  have h4 := Int.lt_floor_add_one (-x)
  have h5 : ⌊-x⌋ ≤ -⌊x⌋ := by
    have : ((⌊-x⌋ : ℤ) : ℚ) ≤ ((-⌊x⌋ : ℤ) : ℚ) := by push_cast; linarith
    exact_mod_cast this
  have h6 : -⌊x⌋ - 1 ≤ ⌊-x⌋ := by
    have : ((-⌊x⌋ - 1 : ℤ) : ℚ) < ((⌊-x⌋ + 1 : ℤ) : ℚ) := by push_cast; linarith
    have := Int.cast_lt.mp this
    omega
  rcases eq_or_lt_of_le h5 with heq | hlt
  · have hx : x = ⌊x⌋ := by
      have : ((⌊-x⌋ : ℤ) : ℚ) = -(⌊x⌋ : ℚ) := by rw [heq]; push_cast; rfl
      linarith
    rw [hx, ← Int.cast_neg, roundHalfEven_intCast, roundHalfEven_intCast]
  · have heq : ⌊-x⌋ = -⌊x⌋ - 1 := by omega
    have hc : ((⌊-x⌋ : ℤ) : ℚ) = -(⌊x⌋ : ℚ) - 1 := by rw [heq]; push_cast; rfl
    unfold rtt.roundHalfEven
    rw [hc] at *
    rw [heq]
    split_ifs <;> first | omega | linarith

/-- The scale of a binade times `2 ^ 52` and `2 ^ 53`. -/
theorem two_zpow_sub_mul (L : ℤ) :
    (4503599627370496 : ℚ) * 2 ^ (L - 52) = 2 ^ L ∧
    (9007199254740992 : ℚ) * 2 ^ (L - 52) = 2 ^ (L + 1) := by
  have h2 : (2 : ℚ) ≠ 0 := by norm_num
  constructor
  · rw [show (4503599627370496 : ℚ) = 2 ^ (52 : ℤ) by norm_num, ← zpow_add₀ h2]
    congr 1
    ring
  · rw [show (9007199254740992 : ℚ) = 2 ^ (53 : ℤ) by norm_num, ← zpow_add₀ h2]
    congr 1
    ring

/-- Rounding to `float64` commutes with negation. -/
theorem float64Round_neg (q : ℚ) : rtt.float64Round (-q) = -rtt.float64Round q := by
  unfold rtt.float64Round
  by_cases h : q = 0
  · simp [h]
  · rw [if_neg h, if_neg (neg_ne_zero.mpr h), abs_neg, neg_div, roundHalfEven_neg]
    push_cast
    ring

/-- A positive number rounds into the closure of its binade. -/
theorem float64Round_pos_bounds {q : ℚ} (hq : 0 < q) :
    (2 : ℚ) ^ Int.log 2 q ≤ rtt.float64Round q ∧
      rtt.float64Round q ≤ 2 ^ (Int.log 2 q + 1) := by
  have hu : (0 : ℚ) < 2 ^ (Int.log 2 q - 52) := zpow_pos (by norm_num) _
  have hlo : (2 : ℚ) ^ Int.log 2 q ≤ q := by
    have := Int.zpow_log_le_self (b := 2) (by norm_num) hq
    simpa using this
  have hhi : q < (2 : ℚ) ^ (Int.log 2 q + 1) := by
    have := Int.lt_zpow_succ_log_self (b := 2) (by norm_num) q
    simpa using this
  obtain ⟨e1, e2⟩ := two_zpow_sub_mul (Int.log 2 q)
  unfold rtt.float64Round
  rw [if_neg (ne_of_gt hq), abs_of_pos hq]
  have hx1 : ((4503599627370496 : ℤ) : ℚ) ≤ q / 2 ^ (Int.log 2 q - 52) := by
    rw [le_div_iff₀ hu]
    push_cast
    rw [e1]
    exact hlo
  have hx2 : q / 2 ^ (Int.log 2 q - 52) ≤ ((9007199254740992 : ℤ) : ℚ) := by
    rw [div_le_iff₀ hu]
    push_cast
    rw [e2]
    exact le_of_lt hhi
  have r1 := roundHalfEven_mono hx1
  have r2 := roundHalfEven_mono hx2
  rw [roundHalfEven_intCast] at r1 r2
  constructor
  · rw [← e1]
    exact mul_le_mul_of_nonneg_right (by exact_mod_cast r1) (le_of_lt hu)
  · rw [← e2]
    exact mul_le_mul_of_nonneg_right (by exact_mod_cast r2) (le_of_lt hu)

/-- Zero is a `float64`. -/
theorem float64Round_zero : rtt.float64Round 0 = 0 := by
  simp [rtt.float64Round]

/-- Rounding to `float64` is monotone on the positive numbers. -/
theorem float64Round_mono_pos {a b : ℚ} (ha : 0 < a) (h : a ≤ b) :
    rtt.float64Round a ≤ rtt.float64Round b := by
  have hb : 0 < b := lt_of_lt_of_le ha h
  have hlog : Int.log 2 a ≤ Int.log 2 b := Int.log_mono_right ha h
  rcases lt_or_eq_of_le hlog with hlt | heq
  · refine le_trans (float64Round_pos_bounds ha).2 (le_trans ?_ (float64Round_pos_bounds hb).1)
    exact zpow_le_zpow_right₀ (by norm_num) (by omega)
  · have hu : (0 : ℚ) < 2 ^ (Int.log 2 b - 52) := zpow_pos (by norm_num) _
    unfold rtt.float64Round
    rw [if_neg (ne_of_gt ha), if_neg (ne_of_gt hb), abs_of_pos ha, abs_of_pos hb, heq]
    refine mul_le_mul_of_nonneg_right ?_ (le_of_lt hu)
    have : a / 2 ^ (Int.log 2 b - 52) ≤ b / 2 ^ (Int.log 2 b - 52) :=
      div_le_div_of_nonneg_right h (le_of_lt hu)
    exact_mod_cast roundHalfEven_mono this

/-- A positive number rounds to a positive `float64`. -/
theorem float64Round_pos {q : ℚ} (hq : 0 < q) : 0 < rtt.float64Round q :=
  lt_of_lt_of_le (zpow_pos (by norm_num) _) (float64Round_pos_bounds hq).1

/-- Rounding to `float64` is monotone. -/
theorem float64Round_mono {a b : ℚ} (h : a ≤ b) :
    rtt.float64Round a ≤ rtt.float64Round b := by
  rcases lt_trichotomy a 0 with ha | ha | ha
  · have hna : 0 < rtt.float64Round (-a) := float64Round_pos (neg_pos.mpr ha)
    rw [float64Round_neg] at hna
    rcases lt_trichotomy b 0 with hb | hb | hb
    · have := float64Round_mono_pos (neg_pos.mpr hb) (neg_le_neg h)
      rw [float64Round_neg, float64Round_neg] at this
      linarith
    · rw [hb, float64Round_zero]
      linarith
    · have := float64Round_pos hb
      linarith
  · rw [ha, float64Round_zero]
    rcases eq_or_lt_of_le (ha ▸ h) with hb | hb
    · rw [← hb, float64Round_zero]
    · exact le_of_lt (float64Round_pos hb)
  · exact float64Round_mono_pos ha h

/-- A positive number of a known binade rounds at the scale of that binade. -/
theorem float64Round_eq_of_binade {q : ℚ} (e : ℤ) (hlo : (2 : ℚ) ^ e ≤ q)
    (hhi : q < 2 ^ (e + 1)) :
    rtt.float64Round q = rtt.roundHalfEven (q / 2 ^ (e - 52)) * 2 ^ (e - 52) := by
  have hq : 0 < q := lt_of_lt_of_le (zpow_pos (by norm_num) _) hlo
  have h1 : e ≤ Int.log 2 q :=
    (Int.zpow_le_iff_le_log (b := 2) (by norm_num) hq).mp (by simpa using hlo)
  have h2 : Int.log 2 q < e + 1 :=
    (Int.lt_zpow_iff_log_lt (b := 2) (by norm_num) hq).mp (by simpa using hhi)
  have he : Int.log 2 q = e := by omega
  unfold rtt.float64Round
  rw [if_neg (ne_of_gt hq), abs_of_pos hq, he]

/-- Every integer up to `2 ^ 53` in size is a `float64`. -/
theorem float64Round_intCast_pos (n : ℤ) (h0 : 0 < n) (h : n ≤ 9007199254740992) :
    rtt.float64Round (n : ℚ) = n := by
  have hq : (0 : ℚ) < n := by exact_mod_cast h0
  have hlo : (2 : ℚ) ^ Int.log 2 (n : ℚ) ≤ n := by
    have := Int.zpow_log_le_self (b := 2) (by norm_num) hq
    simpa using this
  have hhi : (n : ℚ) < (2 : ℚ) ^ (Int.log 2 (n : ℚ) + 1) := by
    have := Int.lt_zpow_succ_log_self (b := 2) (by norm_num) (n : ℚ)
    simpa using this
  have hL : Int.log 2 (n : ℚ) < 54 := by
    refine (Int.lt_zpow_iff_log_lt (b := 2) (by norm_num) hq).mp ?_
    have : (n : ℚ) ≤ 9007199254740992 := by exact_mod_cast h
    norm_num
    linarith
  rw [float64Round_eq_of_binade _ hlo hhi]
  generalize Int.log 2 (n : ℚ) = L at hlo hhi hL
  rcases le_or_lt L 52 with hs | hs
  · obtain ⟨k, hk⟩ : ∃ k : ℕ, (k : ℤ) = 52 - L := ⟨(52 - L).toNat, by omega⟩
    have hu : (2 : ℚ) ^ (L - 52) = ((2 : ℚ) ^ k)⁻¹ := by
      rw [show L - 52 = -(k : ℤ) by omega, zpow_neg, zpow_natCast]
    have hk0 : ((2 : ℚ) ^ k) ≠ 0 := pow_ne_zero _ (by norm_num)
    rw [hu, div_inv_eq_mul, show (n : ℚ) * 2 ^ k = ((n * 2 ^ k : ℤ) : ℚ) by push_cast; rfl,
      roundHalfEven_intCast]
    push_cast
    field_simp
  · have hL53 : L = 53 := by omega
    subst hL53
    have hn : n = 9007199254740992 := by
      have : (9007199254740992 : ℚ) ≤ n := by
        have e : (2 : ℚ) ^ (53 : ℤ) = 9007199254740992 := by norm_num
        rw [← e]
        exact hlo
      have : (9007199254740992 : ℤ) ≤ n := by exact_mod_cast this
      omega
    subst hn
    rw [show ((53 : ℤ) - 52) = 1 by norm_num, zpow_one,
      show (((9007199254740992 : ℤ) : ℚ)) / 2 = ((4503599627370496 : ℤ) : ℚ) by norm_num,
      roundHalfEven_intCast]
    norm_num

/-- Every integer up to `2 ^ 53` in size is a `float64`. -/
theorem float64Round_intCast (n : ℤ) (h1 : -9007199254740992 ≤ n) (h2 : n ≤ 9007199254740992) :
    rtt.float64Round (n : ℚ) = n := by
  rcases lt_trichotomy n 0 with hn | hn | hn
  · have := float64Round_intCast_pos (-n) (by omega) (by omega)
    rw [Int.cast_neg, float64Round_neg] at this
    linarith
  · rw [hn, Int.cast_zero, float64Round_zero]
  · exact float64Round_intCast_pos n hn h2

/-- The conversion to `int64` of a `float64` between two `int64` values lies between
them. -/
theorem float64ToInt64_between {x : ℚ} {lo hi : ℤ} (h1 : (lo : ℚ) ≤ x) (h2 : x ≤ hi)
    (hlo : -9223372036854775808 ≤ lo) (hhi : hi ≤ 9223372036854775807) :
    lo ≤ rtt.float64ToInt64 x ∧ rtt.float64ToInt64 x ≤ hi := by
  have f1 : lo ≤ ⌊x⌋ := Int.le_floor.mpr h1
  have f2 : ⌈x⌉ ≤ hi := Int.ceil_le.mpr h2
  have f3 : ⌊x⌋ ≤ ⌈x⌉ := Int.floor_le_ceil x
  unfold rtt.float64ToInt64
  split_ifs <;> constructor <;> omega

/-- An `int64` held in a `float64` converts back to itself. -/
theorem float64ToInt64_intCast (n : ℤ) (hlo : -9223372036854775808 ≤ n)
    (hhi : n ≤ 9223372036854775807) : rtt.float64ToInt64 (n : ℚ) = n := by
  have := float64ToInt64_between (le_refl (n : ℚ)) (le_refl (n : ℚ)) hlo hhi
  omega

/-- An integer in the range of `int64` is not changed by the wrap to `int64`. -/
theorem toSigned_toUnsigned_64 (d : ℤ) (hlo : -9223372036854775808 ≤ d)
    (hhi : d ≤ 9223372036854775807) : toSigned 64 (toUnsigned 64 d) = d := by
  unfold toSigned toUnsigned
  have hp : ((2 ^ 64 : ℕ) : ℤ) = 18446744073709551616 := by norm_num
  have h0 : 0 ≤ d % ((2 ^ 64 : ℕ) : ℤ) := Int.emod_nonneg _ (by norm_num)
  have hlt : d % ((2 ^ 64 : ℕ) : ℤ) < ((2 ^ 64 : ℕ) : ℤ) := Int.emod_lt_of_pos _ (by norm_num)
  have hmod : (d % ((2 ^ 64 : ℕ) : ℤ)).toNat % 2 ^ 64 = (d % ((2 ^ 64 : ℕ) : ℤ)).toNat := by
    apply Nat.mod_eq_of_lt
    omega
  rw [hmod]
  have hcast : (((d % ((2 ^ 64 : ℕ) : ℤ)).toNat : ℕ) : ℤ) = d % ((2 ^ 64 : ℕ) : ℤ) :=
    Int.toNat_of_nonneg h0
  rw [hp] at h0 hlt hcast ⊢
  split_ifs with hc
  · rw [hcast]
    have : d % 18446744073709551616 < 9223372036854775808 := by
      have : ((d % 18446744073709551616).toNat : ℤ) < ((2 ^ (64 - 1) : ℕ) : ℤ) := by
        exact_mod_cast hc
      rw [hcast] at this
      norm_num at this
      exact this
    omega
  · rw [hcast]
    have : 9223372036854775808 ≤ d % 18446744073709551616 := by
      have : ((2 ^ (64 - 1) : ℕ) : ℤ) ≤ ((d % 18446744073709551616).toNat : ℤ) := by
        exact_mod_cast Nat.le_of_not_lt hc
      rw [hcast] at this
      norm_num at this
      exact this
    omega

/-- The `float64` nearest to one tenth lies between 0 and 1. -/
theorem float64Tenth_bounds : 0 ≤ rtt.float64Tenth ∧ rtt.float64Tenth ≤ 1 := by
  unfold rtt.float64Tenth
  constructor <;> norm_num

/-- For a latency, an elapsed time and a difference of at most `2 ^ 53` nanoseconds in size,
the `float64` expression of `Ack` gives a value between the latency and the elapsed time. -/
theorem ewmaFloat64_between (latency e : ℤ)
    (hL1 : -9007199254740992 ≤ latency) (hL2 : latency ≤ 9007199254740992)
    (he1 : -9007199254740992 ≤ e) (he2 : e ≤ 9007199254740992)
    (hd1 : -9007199254740992 ≤ e - latency) (hd2 : e - latency ≤ 9007199254740992) :
    min latency e ≤ rtt.ewmaFloat64 latency (e - latency) ∧
      rtt.ewmaFloat64 latency (e - latency) ≤ max latency e := by
  unfold rtt.ewmaFloat64
  rw [toSigned_toUnsigned_64 _ (by omega) (by omega), float64Round_intCast _ hd1 hd2,
    float64Round_intCast _ hL1 hL2]
  obtain ⟨t0, t1⟩ := float64Tenth_bounds
  rcases le_total 0 (e - latency) with hd | hd
  · have hdq : (0 : ℚ) ≤ ((e - latency : ℤ) : ℚ) := by exact_mod_cast hd
    have p1 : 0 ≤ rtt.float64Round (rtt.float64Tenth * ((e - latency : ℤ) : ℚ)) := by
      have := float64Round_mono (mul_nonneg t0 hdq)
      rwa [float64Round_zero] at this
    have p2 : rtt.float64Round (rtt.float64Tenth * ((e - latency : ℤ) : ℚ)) ≤
        ((e - latency : ℤ) : ℚ) := by
      have := float64Round_mono (mul_le_of_le_one_left hdq t1)
      rwa [float64Round_intCast _ hd1 hd2] at this
    have s1 : (latency : ℚ) ≤ rtt.float64Round ((latency : ℚ) +
        rtt.float64Round (rtt.float64Tenth * ((e - latency : ℤ) : ℚ))) := by
      have := float64Round_mono (le_add_of_nonneg_right p1 : (latency : ℚ) ≤ _)
      rwa [float64Round_intCast _ hL1 hL2] at this
    have s2 : rtt.float64Round ((latency : ℚ) +
        rtt.float64Round (rtt.float64Tenth * ((e - latency : ℤ) : ℚ))) ≤ (e : ℚ) := by
      have hle : (latency : ℚ) +
          rtt.float64Round (rtt.float64Tenth * ((e - latency : ℤ) : ℚ)) ≤ (e : ℚ) := by
        push_cast at p2 ⊢
        linarith
      have := float64Round_mono hle
      rwa [float64Round_intCast _ he1 he2] at this
    have := float64ToInt64_between s1 s2 (by omega) (by omega)
    rw [min_eq_left (by omega), max_eq_right (by omega)]
    exact this
  · have hdq : ((e - latency : ℤ) : ℚ) ≤ 0 := by exact_mod_cast hd
    have p1 : rtt.float64Round (rtt.float64Tenth * ((e - latency : ℤ) : ℚ)) ≤ 0 := by
      have := float64Round_mono (mul_nonpos_of_nonneg_of_nonpos t0 hdq)
      rwa [float64Round_zero] at this
    have p2 : ((e - latency : ℤ) : ℚ) ≤
        rtt.float64Round (rtt.float64Tenth * ((e - latency : ℤ) : ℚ)) := by
      have hle : ((e - latency : ℤ) : ℚ) ≤ rtt.float64Tenth * ((e - latency : ℤ) : ℚ) := by
        nlinarith
      have := float64Round_mono hle
      rwa [float64Round_intCast _ hd1 hd2] at this
    have s1 : rtt.float64Round ((latency : ℚ) +
        rtt.float64Round (rtt.float64Tenth * ((e - latency : ℤ) : ℚ))) ≤ (latency : ℚ) := by
      have := float64Round_mono (add_le_of_nonpos_right p1 : _ ≤ (latency : ℚ))
      rwa [float64Round_intCast _ hL1 hL2] at this
    have s2 : (e : ℚ) ≤ rtt.float64Round ((latency : ℚ) +
        rtt.float64Round (rtt.float64Tenth * ((e - latency : ℤ) : ℚ))) := by
      have hle : (e : ℚ) ≤ (latency : ℚ) +
          rtt.float64Round (rtt.float64Tenth * ((e - latency : ℤ) : ℚ)) := by
        push_cast at p2 ⊢
        linarith
      have := float64Round_mono hle
      rwa [float64Round_intCast _ he1 he2] at this
    have := float64ToInt64_between s2 s1 (by omega) (by omega)
    rw [min_eq_right (by omega), max_eq_left (by omega)]
    exact this

/-- A number less than half above an integer rounds to that integer. -/
theorem roundHalfEven_of_lt_half {x : ℚ} (m : ℤ) (h1 : (m : ℚ) ≤ x) (h2 : x < m + 1 / 2) :
    rtt.roundHalfEven x = m := by
  have hf : ⌊x⌋ = m := Int.floor_eq_iff.mpr ⟨h1, by linarith⟩
  unfold rtt.roundHalfEven
  rw [hf, if_pos (by linarith)]

/-- The number half way above an even integer rounds to that integer. -/
theorem roundHalfEven_half_even (m : ℤ) (hm : m % 2 = 0) :
    rtt.roundHalfEven ((m : ℚ) + 1 / 2) = m := by
  have hf : ⌊(m : ℚ) + 1 / 2⌋ = m := Int.floor_eq_iff.mpr ⟨by linarith, by linarith⟩
  unfold rtt.roundHalfEven
  rw [hf, if_neg (by norm_num), if_neg (by norm_num), if_pos hm]

/-- The integer `2 ^ 53 + 1` is not a `float64`: it lies half way between `2 ^ 53` and
`2 ^ 53 + 2` and rounds to the former. -/
theorem float64Round_two_pow_53_add_one :
    rtt.float64Round ((9007199254740993 : ℤ) : ℚ) = ((9007199254740992 : ℤ) : ℚ) := by
  rw [float64Round_eq_of_binade 53 (by norm_num) (by norm_num),
    show ((53 : ℤ) - 52) = 1 by norm_num, zpow_one,
    show (((9007199254740993 : ℤ) : ℚ)) / 2 = ((4503599627370496 : ℤ) : ℚ) + 1 / 2 by norm_num,
    roundHalfEven_half_even _ (by decide)]
  norm_num

/-- The product of the `float64` one tenth and `10 ^ 8` rounds to `10 ^ 7`. -/
theorem float64Round_tenth_mul :
    rtt.float64Round (rtt.float64Tenth * ((100000000 : ℤ) : ℚ)) = ((10000000 : ℤ) : ℚ) := by
  rw [float64Round_eq_of_binade 23 (by norm_num [rtt.float64Tenth])
      (by norm_num [rtt.float64Tenth]),
    roundHalfEven_of_lt_half 5368709120000000
      (by norm_num [rtt.float64Tenth]) (by norm_num [rtt.float64Tenth])]
  norm_num

/-- The `float64` expression of `Ack` for a latency of 50 ms and an elapsed time of 150 ms
gives 60 ms. -/
theorem ewmaFloat64_50ms_150ms : rtt.ewmaFloat64 50000000 100000000 = 60000000 := by
  unfold rtt.ewmaFloat64
  rw [toSigned_toUnsigned_64 _ (by norm_num) (by norm_num),
    float64Round_intCast 100000000 (by norm_num) (by norm_num), float64Round_tenth_mul,
    float64Round_intCast 50000000 (by norm_num) (by norm_num), ← Int.cast_add,
    float64Round_intCast _ (by norm_num) (by norm_num),
    float64ToInt64_intCast _ (by norm_num) (by norm_num)]
  norm_num

/-- The `float64` expression of `Ack` for a latency and an elapsed time of `2 ^ 53 + 1`
nanoseconds gives `2 ^ 53`. -/
theorem ewmaFloat64_two_pow_53_add_one :
    rtt.ewmaFloat64 9007199254740993 0 = 9007199254740992 := by
  unfold rtt.ewmaFloat64
  rw [toSigned_toUnsigned_64 _ (by norm_num) (by norm_num), Int.cast_zero,
    float64Round_zero, mul_zero, float64Round_zero, add_zero,
    float64Round_two_pow_53_add_one,
    float64Round_intCast 9007199254740992 (by norm_num) (by norm_num),
    float64ToInt64_intCast _ (by norm_num) (by norm_num)]

/-! ### `RoundTripTracking.Ack` -/

/-- `Ack` changes neither the ring nor the counter. -/
theorem rtt_Ack_ring (ewma : Int → Int → Int) (tracker : rtt.RoundTripTracking) (now : Int)
    (seqID : Nat) :
    (tracker.Ack ewma now seqID).packetSequenceList = tracker.packetSequenceList ∧
      (tracker.Ack ewma now seqID).packetSequenceID = tracker.packetSequenceID := by
  unfold rtt.RoundTripTracking.Ack
  split
  · exact ⟨rfl, rfl⟩
  · dsimp only
    split_ifs <;> exact ⟨rfl, rfl⟩

/-- The latency after an `Ack` that finds its sequence number in the ring. -/
theorem rtt_Ack_latency_of_find (ewma : Int → Int → Int) (tracker : rtt.RoundTripTracking)
    (now : Int) (seqID : Nat) (slot : rtt.packetSequence)
    (h : tracker.packetSequenceList.find? (fun sequence => sequence.SequenceID == seqID) =
      some slot) :
    (tracker.Ack ewma now seqID).latency =
      if tracker.latency = 0 then rtt.timeSub now slot.Time
      else ewma tracker.latency (rtt.timeSub now slot.Time - tracker.latency) := by
  unfold rtt.RoundTripTracking.Ack
  rw [h]
  dsimp only
  split_ifs <;> rfl

/-- C19 (as amended): `Ack` never changes the ring, so a duplicate acknowledgment finds the
sequence number again, in the same slot: for a sequence number `seqID` recorded in `slot`,
after `Ack(seqID)` at `now1` a second `Ack(seqID)` at `now2` finds `slot` and folds the time
elapsed since its send time into the latency once more (it sets the latency to that time if
the latency is still 0). -/
theorem rtt_duplicate_Ack_folds_again (ewma : Int → Int → Int)
    (tracker : rtt.RoundTripTracking) (now1 now2 : Int) (seqID : Nat)
    (slot : rtt.packetSequence)
    (h : tracker.packetSequenceList.find? (fun sequence => sequence.SequenceID == seqID) =
      some slot) :
    (tracker.Ack ewma now1 seqID).packetSequenceList.find?
        (fun sequence => sequence.SequenceID == seqID) = some slot ∧
    ((tracker.Ack ewma now1 seqID).Ack ewma now2 seqID).latency =
      (if (tracker.Ack ewma now1 seqID).latency = 0 then rtt.timeSub now2 slot.Time
       else ewma (tracker.Ack ewma now1 seqID).latency
         (rtt.timeSub now2 slot.Time - (tracker.Ack ewma now1 seqID).latency)) ∧
    ((tracker.Ack ewma now1 seqID).Ack ewma now2 seqID).packetSequenceList =
      tracker.packetSequenceList := by
  have hring := (rtt_Ack_ring ewma tracker now1 seqID).1
  have hfind : (tracker.Ack ewma now1 seqID).packetSequenceList.find?
      (fun sequence => sequence.SequenceID == seqID) = some slot := by
    rw [hring]
    exact h
  refine ⟨hfind, rtt_Ack_latency_of_find ewma _ now2 seqID slot hfind, ?_⟩
  rw [(rtt_Ack_ring ewma _ now2 seqID).1, hring]

/-- C19 at a concrete tracker: sequence number 1 sent at an instant and acknowledged twice,
50 ms and 150 ms later. -/
theorem rtt_duplicate_Ack_folds_again_witness :
    ((rtt.RoundTripTracking.fresh.Next 63750000000000000000).2.Next
        63750000000000000000).2.packetSequenceList.find?
      (fun sequence => sequence.SequenceID == 1) = some ⟨1, 63750000000000000000⟩ ∧
    (((rtt.RoundTripTracking.fresh.Next 63750000000000000000).2.Next
          63750000000000000000).2.Ack rtt.ewmaFloat64 63750000000050000000
        1).packetSequenceList.find? (fun sequence => sequence.SequenceID == 1) =
      some ⟨1, 63750000000000000000⟩ ∧
    ((((rtt.RoundTripTracking.fresh.Next 63750000000000000000).2.Next
          63750000000000000000).2.Ack rtt.ewmaFloat64 63750000000050000000 1).Ack
        rtt.ewmaFloat64 63750000000150000000 1).packetSequenceList =
      ((rtt.RoundTripTracking.fresh.Next 63750000000000000000).2.Next
        63750000000000000000).2.packetSequenceList :=
  ⟨by decide,
    (rtt_duplicate_Ack_folds_again rtt.ewmaFloat64
      ((rtt.RoundTripTracking.fresh.Next 63750000000000000000).2.Next
        63750000000000000000).2 63750000000050000000 63750000000150000000 1
      ⟨1, 63750000000000000000⟩ (by decide)).1,
    (rtt_duplicate_Ack_folds_again rtt.ewmaFloat64
      ((rtt.RoundTripTracking.fresh.Next 63750000000000000000).2.Next
        63750000000000000000).2 63750000000050000000 63750000000150000000 1
      ⟨1, 63750000000000000000⟩ (by decide)).2.2⟩

/-- C19 as stated fails: sequence number 1 is sent and acknowledged 50 ms later, which sets
the latency to 50 ms; the same acknowledgment once more, 150 ms after the send, finds the
entry again and moves the latency to 60 ms. -/
theorem rtt_duplicate_Ack_folds_again_counterexample :
    ((rtt.RoundTripTracking.fresh.Next 63750000000000000000).2.Next
        63750000000000000000).1 = 1 ∧
    (((rtt.RoundTripTracking.fresh.Next 63750000000000000000).2.Next
        63750000000000000000).2.Ack rtt.ewmaFloat64 63750000000050000000 1).latency =
      50000000 ∧
    ((((rtt.RoundTripTracking.fresh.Next 63750000000000000000).2.Next
          63750000000000000000).2.Ack rtt.ewmaFloat64 63750000000050000000 1).Ack
        rtt.ewmaFloat64 63750000000150000000 1).latency = 60000000 := by
  have h1 : (((rtt.RoundTripTracking.fresh.Next 63750000000000000000).2.Next
      63750000000000000000).2.Ack rtt.ewmaFloat64 63750000000050000000 1).latency =
      50000000 := by decide
  have hf : (((rtt.RoundTripTracking.fresh.Next 63750000000000000000).2.Next
      63750000000000000000).2.Ack rtt.ewmaFloat64 63750000000050000000
        1).packetSequenceList.find? (fun sequence => sequence.SequenceID == 1) =
      some ⟨1, 63750000000000000000⟩ := by decide
  refine ⟨by decide, h1, ?_⟩
  rw [rtt_Ack_latency_of_find _ _ _ _ _ hf, h1, if_neg (by decide),
    show rtt.timeSub 63750000000150000000 63750000000000000000 - 50000000 = 100000000 by
      decide]
  exact ewmaFloat64_50ms_150ms

/-- C20 (as amended): when `Ack` finds its sequence number in `slot`, with
`e = now - slot.Time` the time elapsed since the send: a latency of 0 becomes exactly `e`,
and any other latency becomes the value of the `float64` expression
`time.Duration(float64(latency) + 0.10 * float64(e - latency))`, every conversion and
operation rounded to the nearest `float64` and the result truncated toward zero; when the
latency, `e` and their difference are at most `2 ^ 53` nanoseconds in size, the new latency
lies between the old latency and `e` inclusive; the ring and the counter are unchanged. -/
theorem rtt_Ack_found_latency (tracker : rtt.RoundTripTracking) (now : Int) (seqID : Nat)
    (slot : rtt.packetSequence)
    (h : tracker.packetSequenceList.find? (fun sequence => sequence.SequenceID == seqID) =
      some slot) :
    (tracker.Ack rtt.ewmaFloat64 now seqID).latency =
      (if tracker.latency = 0 then rtt.timeSub now slot.Time
       else rtt.ewmaFloat64 tracker.latency (rtt.timeSub now slot.Time - tracker.latency)) ∧
    (|tracker.latency| ≤ 9007199254740992 → |rtt.timeSub now slot.Time| ≤ 9007199254740992 →
      |rtt.timeSub now slot.Time - tracker.latency| ≤ 9007199254740992 →
      min tracker.latency (rtt.timeSub now slot.Time) ≤
          (tracker.Ack rtt.ewmaFloat64 now seqID).latency ∧
        (tracker.Ack rtt.ewmaFloat64 now seqID).latency ≤
          max tracker.latency (rtt.timeSub now slot.Time)) ∧
    (tracker.Ack rtt.ewmaFloat64 now seqID).packetSequenceList = tracker.packetSequenceList ∧
    (tracker.Ack rtt.ewmaFloat64 now seqID).packetSequenceID = tracker.packetSequenceID := by
  have hlat := rtt_Ack_latency_of_find rtt.ewmaFloat64 tracker now seqID slot h
  refine ⟨hlat, ?_, rtt_Ack_ring rtt.ewmaFloat64 tracker now seqID⟩
  intro hL he hd
  rw [hlat]
  rw [abs_le] at hL he hd
  split_ifs with h0
  · exact ⟨min_le_right _ _, le_max_right _ _⟩
  · exact ewmaFloat64_between _ _ hL.1 hL.2 he.1 he.2 hd.1 hd.2

/-- C20 at a concrete tracker: sequence number 1 in slot 1, a latency of 50 ms and an
acknowledgment 150 ms after the send. -/
theorem rtt_Ack_found_latency_witness :
    (⟨2, ⟨0, 63750000000000000000⟩ :: ⟨1, 63750000000000000000⟩ :: List.replicate 58 ⟨0, 0⟩,
        50000000⟩ : rtt.RoundTripTracking).packetSequenceList.find?
      (fun sequence => sequence.SequenceID == 1) = some ⟨1, 63750000000000000000⟩ ∧
    min (50000000 : Int) (rtt.timeSub 63750000000150000000 63750000000000000000) ≤
      ((⟨2, ⟨0, 63750000000000000000⟩ :: ⟨1, 63750000000000000000⟩ ::
          List.replicate 58 ⟨0, 0⟩, 50000000⟩ : rtt.RoundTripTracking).Ack rtt.ewmaFloat64
        63750000000150000000 1).latency ∧
    ((⟨2, ⟨0, 63750000000000000000⟩ :: ⟨1, 63750000000000000000⟩ ::
          List.replicate 58 ⟨0, 0⟩, 50000000⟩ : rtt.RoundTripTracking).Ack rtt.ewmaFloat64
        63750000000150000000 1).latency ≤
      max (50000000 : Int) (rtt.timeSub 63750000000150000000 63750000000000000000) :=
  ⟨by decide,
    (rtt_Ack_found_latency
      ⟨2, ⟨0, 63750000000000000000⟩ :: ⟨1, 63750000000000000000⟩ :: List.replicate 58 ⟨0, 0⟩,
        50000000⟩ 63750000000150000000 1 ⟨1, 63750000000000000000⟩ (by decide)).2.1
      (by decide) (by decide) (by decide)⟩

/-- C20 as stated fails: with sequence number 1 in the ring, a latency of `2 ^ 53 + 1`
nanoseconds and an acknowledgment `2 ^ 53 + 1` nanoseconds after the send, the new latency
is `2 ^ 53` nanoseconds, below both the old latency and the elapsed time. -/
theorem rtt_Ack_found_latency_counterexample :
    (⟨2, ⟨0, 63750000000000000000⟩ :: ⟨1, 63750000000000000000⟩ :: List.replicate 58 ⟨0, 0⟩,
        9007199254740993⟩ : rtt.RoundTripTracking).packetSequenceList.find?
      (fun sequence => sequence.SequenceID == 1) = some ⟨1, 63750000000000000000⟩ ∧
    rtt.timeSub 63759007199254740993 63750000000000000000 = 9007199254740993 ∧
    ((⟨2, ⟨0, 63750000000000000000⟩ :: ⟨1, 63750000000000000000⟩ ::
          List.replicate 58 ⟨0, 0⟩, 9007199254740993⟩ : rtt.RoundTripTracking).Ack
        rtt.ewmaFloat64 63759007199254740993 1).latency = 9007199254740992 := by
  refine ⟨by decide, by decide, ?_⟩
  rw [rtt_Ack_latency_of_find _ _ _ _ ⟨1, 63750000000000000000⟩ (by decide),
    if_neg (by decide),
    show rtt.timeSub 63759007199254740993 63750000000000000000 - 9007199254740993 = 0 by
      decide]
  exact ewmaFloat64_two_pow_53_add_one


/-! ### The codec on single fields -/

/-- A count prefix of 0: the four bytes are consumed and the field stays as it was. -/
theorem packbuf_Read_zero_count (elem : packbuf.Ty) (v : packbuf.Value) (rest : List Nat) :
    packbuf.Read (0 :: 0 :: 0 :: 0 :: rest) (.struct (.cons true (.slice elem) .nil))
      (.struct [v]) = .ok (.struct [v]) rest := by
  have hb : binaryRead 4 (0 :: 0 :: 0 :: 0 :: rest) = .ok [0, 0, 0, 0] rest :=
    binaryRead_append 4 [0, 0, 0, 0] rest rfl (by decide)
  have hz : toSigned 32 (leNat [0, 0, 0, 0]) = 0 := by decide
  simp only [packbuf.Read, packbuf.readStruct, packbuf.readField, hb, ReadResult.bind, hz,
    ReadResult.map, Bool.not_true, Bool.false_eq_true, if_false, if_true]

/-- C25 (as amended): a count prefix of 0 makes `packbuf.Read` leave the sequence field as
it was, so the field is empty afterwards only if it was empty before (as in the fresh record
of `packs.Read`); the four bytes of the count are consumed. `packbuf.Write` encodes an empty
sequence of bytes, of `uint16`, of structs or of pointers to structs as the four bytes of
count 0 and nothing else. -/
theorem packbuf_Read_zero_count_keeps_field (elem : packbuf.Ty) (items : List packbuf.Value)
    (rest : List Nat) (fs : packbuf.Fields) :
    packbuf.Read (0 :: 0 :: 0 :: 0 :: rest) (.struct (.cons true (.slice elem) .nil))
        (.struct [.slice items]) = .ok (.struct [.slice items]) rest ∧
    packbuf.Read (0 :: 0 :: 0 :: 0 :: rest) (.struct (.cons true (.slice elem) .nil))
        (.struct [.slice []]) = .ok (.struct [.slice []]) rest ∧
    packbuf.Write (.struct (.cons true (.slice .uint8) .nil)) (.struct [.slice []]) =
      .wrote [0, 0, 0, 0] ∧
    packbuf.Write (.struct (.cons true (.slice .uint16) .nil)) (.struct [.slice []]) =
      .wrote [0, 0, 0, 0] ∧
    packbuf.Write (.struct (.cons true (.slice (.struct fs)) .nil)) (.struct [.slice []]) =
      .wrote [0, 0, 0, 0] ∧
    packbuf.Write (.struct (.cons true (.slice (.ptr (.struct fs))) .nil))
        (.struct [.slice []]) = .wrote [0, 0, 0, 0] := by
  refine ⟨packbuf_Read_zero_count _ _ _, packbuf_Read_zero_count _ _ _, ?_, ?_, ?_, ?_⟩ <;>
    simp [packbuf.Write, packbuf.writeStruct, packbuf.writeField, packbuf.writeItems,
      WriteResult.andThen, WriteResult.wrote, leBytes]

/-- C25 as stated fails: a record whose `[]uint16` field holds one element, read from the
four bytes of count 0, still holds that element. -/
theorem packbuf_Read_zero_count_keeps_field_counterexample :
    packbuf.Read [0, 0, 0, 0] (.struct (.cons true (.slice .uint16) .nil))
        (.struct [.slice [.uint 7]]) = .ok (.struct [.slice [.uint 7]]) [] :=
  packbuf_Read_zero_count .uint16 (.slice [.uint 7]) []

/-- C26: `packbuf.Write` on a record with a single scalar field. A `bool` gives the byte 1
or 0, a `uint16` two, an `int32` four, an `int64`, a `uint64` and an `int` eight
little-endian bytes; a `uint8` makes `writeStruct` panic, because it hands its one-byte
buffer to `binary.LittleEndian.PutUint64`. -/
theorem packbuf_Write_scalar_field (b : Bool) (n : Nat) (i : Int) :
    packbuf.Write (.struct (.cons true .bool .nil)) (.struct [.bool b]) =
      .wrote [if b then 1 else 0] ∧
    packbuf.Write (.struct (.cons true .uint8 .nil)) (.struct [.uint n]) =
      ⟨[], some (.panic "runtime error: index out of range [7] with length 1")⟩ ∧
    packbuf.Write (.struct (.cons true .uint16 .nil)) (.struct [.uint n]) =
      .wrote (leBytes 2 n) ∧
    packbuf.Write (.struct (.cons true .int32 .nil)) (.struct [.int i]) =
      .wrote (leBytes 4 (toUnsigned 32 i)) ∧
    packbuf.Write (.struct (.cons true .int64 .nil)) (.struct [.int i]) =
      .wrote (leBytes 8 (toUnsigned 64 i)) ∧
    packbuf.Write (.struct (.cons true .uint64 .nil)) (.struct [.uint n]) =
      .wrote (leBytes 8 n) ∧
    packbuf.Write (.struct (.cons true .int .nil)) (.struct [.int i]) =
      .wrote (leBytes 8 (toUnsigned 64 i)) ∧
    (leBytes 2 n).length = 2 ∧ (leBytes 4 (toUnsigned 32 i)).length = 4 ∧
    (leBytes 8 (toUnsigned 64 i)).length = 8 ∧ (leBytes 8 n).length = 8 := by
  refine ⟨?_, ?_, ?_, ?_, ?_, ?_, ?_, leBytes_length _ _, leBytes_length _ _,
    leBytes_length _ _, leBytes_length _ _⟩ <;>
    simp [packbuf.Write, packbuf.writeStruct, packbuf.writeField, WriteResult.andThen,
      WriteResult.wrote, WriteResult.failed]

/-- Reading a string field whose bytes are all there: a size of 0 leaves the field as it
was, any other size gives the bytes. -/
theorem packbuf_Read_string (s d tail : List Nat) (hs : s.length ≤ 65535) :
    packbuf.Read (leBytes 2 s.length ++ (s ++ tail)) (.struct (.cons true .string .nil))
      (.struct [.string d]) = .ok (.struct [.string (if s.length = 0 then d else s)]) tail := by
  have e : s.length % 256 ^ 2 = s.length := Nat.mod_eq_of_lt (by norm_num; omega)
  have hm : ¬ s.length > packbuf.maxStringSize := by unfold packbuf.maxStringSize; omega
  simp only [packbuf.Read, packbuf.readStruct, packbuf.readField,
    binaryRead_leBytes _ _ _ (by decide : 0 < 2), ReadResult.bind, leNat_leBytes, e,
    Bool.not_true, Bool.false_eq_true, if_false, if_neg hm]
  by_cases h0 : s.length = 0
  · have hnil : s = [] := List.length_eq_zero.mp h0
    subst hnil
    simp [ReadResult.map, packbuf.readStruct]
  · have hr : readerRead s.length (s ++ tail) = .ok s tail := by
      unfold readerRead
      have h1 : ¬ (s ++ tail).length = 0 := by rw [List.length_append]; omega
      rw [if_neg h1]
      simp
    simp only [if_neg h0, hr, ReadResult.map, ReadResult.bind, packbuf.readStruct]

/-- C27: for a record with a single string field holding `s`, `packbuf.Write` fails with the
size-limit error, writing nothing, exactly when `s` is longer than 65535 bytes; otherwise it
gives the length as two little-endian bytes followed by the bytes of `s`, and
`packbuf.Read` of these bytes into a fresh record gives `s` back (a length of 0 leaves the
string field of the record as it was, the empty string in a fresh record). -/
theorem packbuf_string_field (s d tail : List Nat) :
    (s.length > 65535 →
      packbuf.Write (.struct (.cons true .string .nil)) (.struct [.string s]) =
        ⟨[], some (.err (.New "cannot write string larger than 65535"))⟩) ∧
    (s.length ≤ 65535 →
      packbuf.Write (.struct (.cons true .string .nil)) (.struct [.string s]) =
        .wrote (leBytes 2 s.length ++ s) ∧
      packbuf.Read ((packbuf.Write (.struct (.cons true .string .nil))
          (.struct [.string s])).bytes ++ tail) (.struct (.cons true .string .nil))
          (packbuf.zero (.struct (.cons true .string .nil))) = .ok (.struct [.string s]) tail ∧
      packbuf.Read ((packbuf.Write (.struct (.cons true .string .nil))
          (.struct [.string s])).bytes ++ tail) (.struct (.cons true .string .nil))
          (.struct [.string d]) =
        .ok (.struct [.string (if s.length = 0 then d else s)]) tail) ∧
    ((packbuf.Write (.struct (.cons true .string .nil)) (.struct [.string s])).fault ≠ none ↔
      s.length > 65535) := by
  have hw1 : s.length > 65535 →
      packbuf.Write (.struct (.cons true .string .nil)) (.struct [.string s]) =
        ⟨[], some (.err (.New "cannot write string larger than 65535"))⟩ := by
    intro h
    have hm : s.length > packbuf.maxStringSize := h
    simp only [packbuf.Write, packbuf.writeStruct, packbuf.writeField, if_pos hm,
      Bool.not_true, Bool.false_eq_true, if_false, WriteResult.andThen, WriteResult.failed]
    rfl
  have hw2 : s.length ≤ 65535 →
      packbuf.Write (.struct (.cons true .string .nil)) (.struct [.string s]) =
        .wrote (leBytes 2 s.length ++ s) := by
    intro h
    have hm : ¬ s.length > packbuf.maxStringSize := by unfold packbuf.maxStringSize; omega
    simp [packbuf.Write, packbuf.writeStruct, packbuf.writeField, if_neg hm,
      WriteResult.andThen, WriteResult.wrote]
  refine ⟨hw1, ?_, ?_⟩
  · intro h
    refine ⟨hw2 h, ?_, ?_⟩
    · rw [hw2 h]
      simp only [WriteResult.wrote, List.append_assoc]
      have hz : packbuf.zero (.struct (.cons true .string .nil)) = .struct [.string []] := by
        simp [packbuf.zero, packbuf.zeroFields]
      rw [hz, packbuf_Read_string s [] tail h]
      by_cases h0 : s.length = 0
      · have hnil : s = [] := List.length_eq_zero.mp h0
        simp [hnil]
      · rw [if_neg h0]
    · rw [hw2 h]
      simp only [WriteResult.wrote, List.append_assoc]
      exact packbuf_Read_string s d tail h
  · constructor
    · intro hf
      by_contra hle
      rw [hw2 (by omega)] at hf
      exact hf rfl
    · intro h
      rw [hw1 h]
      simp

/-- C27 at a concrete string: the three bytes `abc`. -/
theorem packbuf_string_field_witness :
    packbuf.Write (.struct (.cons true .string .nil)) (.struct [.string [97, 98, 99]]) =
        .wrote (leBytes 2 3 ++ [97, 98, 99]) ∧
      packbuf.Read ((packbuf.Write (.struct (.cons true .string .nil))
          (.struct [.string [97, 98, 99]])).bytes ++ [])
          (.struct (.cons true .string .nil))
          (packbuf.zero (.struct (.cons true .string .nil))) =
        .ok (.struct [.string [97, 98, 99]]) [] :=
  ⟨((packbuf_string_field [97, 98, 99] [] []).2.1 (by decide)).1,
    ((packbuf_string_field [97, 98, 99] [] []).2.1 (by decide)).2.1⟩

/-- C28 at the failing inputs: an envelope whose count prefix is `-1` as an `int32` makes
`packs.Read` panic in `reflect.MakeSlice`, for each of the three registered packets, and the
panic ends the read loop of the server. -/
theorem packs_Read_panics_on_negative_count (ewma : Int → Int → Int) (now : Int)
    (fuel : Nat) (state : server.Ingest) :
    packs.Read [1, 0, 0, 255, 255, 255, 255] =
      .fail (.panic "reflect.MakeSlice: negative len") [] ∧
    packs.Read [2, 0, 0, 255, 255, 255, 255] =
      .fail (.panic "reflect.MakeSlice: negative len") [] ∧
    packs.Read [3, 0, 0, 1, 0, 0, 0, 255, 255, 255, 255] =
      .fail (.panic "reflect.MakeSlice: negative len") [] ∧
    server.ingestFrame ewma now (fuel + 1) state [1, 0, 0, 255, 255, 255, 255] =
      some (.error (.panic "reflect.MakeSlice: negative len")) := by
  have h1 : packs.Read [1, 0, 0, 255, 255, 255, 255] =
      .fail (.panic "reflect.MakeSlice: negative len") [] := by decide
  refine ⟨h1, by decide, by decide, ?_⟩
  simp only [server.ingestFrame, h1]

/-- C29 at the failing input: a new connection gets its player, and a `ClientPlayerPacket`
with the frames 1, 2, 3 is accepted into the fresh `gameConnection`. The input-selection
pass then selects frame 1, and the next pass over the same buffer selects frame 1 again:
the pass stores the previous `NextInputFrameToBeSimulated` (0) in
`LastInputFrameSimulated`, not the frame it has just selected. The third and the fourth
pass both select frame 2. -/
theorem server_selects_frame_twice :
    server.prepareSlot ⟨[], [], ⟨false, false, false⟩, none⟩ ⟨true, true, [], true, true⟩
        (server.gameConnection.fresh 1) =
      .ok ⟨⟨[⟨1, ⟨false, false, false⟩, 0x43340000, 0x43340000, 0x42C00000, 0x42C00000, 0, 0,
            false⟩], [0], ⟨false, false, false⟩, none⟩,
        ⟨true, true, [], true, true⟩,
        { server.gameConnection.fresh 1 with Player := some 0, IsUsed := true }, false⟩ ∧
    (server.handlePacket rtt.ewmaFloat64 0 ⟨true, true, [], true, true⟩
        { server.gameConnection.fresh 1 with Player := some 0, IsUsed := true } 0
        (.ClientPlayer ⟨[⟨1, ⟨true, false, false⟩⟩, ⟨2, ⟨false, true, false⟩⟩,
          ⟨3, ⟨false, false, true⟩⟩]⟩)).gameConn =
      { server.gameConnection.fresh 1 with
        Player := some 0, IsUsed := true, AckPacket := ⟨[0]⟩,
        InputBuffer := [⟨1, ⟨true, false, false⟩⟩, ⟨2, ⟨false, true, false⟩⟩,
          ⟨3, ⟨false, false, true⟩⟩] } ∧
    (server.selectInput
        [⟨1, ⟨false, false, false⟩, 0x43340000, 0x43340000, 0x42C00000, 0x42C00000, 0, 0,
          false⟩] ⟨true, true, [], true, true⟩
        { server.gameConnection.fresh 1 with
          Player := some 0, IsUsed := true, AckPacket := ⟨[0]⟩,
          InputBuffer := [⟨1, ⟨true, false, false⟩⟩, ⟨2, ⟨false, true, false⟩⟩,
            ⟨3, ⟨false, false, true⟩⟩] }) =
      ⟨[⟨1, ⟨true, false, false⟩, 0x43340000, 0x43340000, 0x42C00000, 0x42C00000, 0, 0,
          false⟩], ⟨true, true, [], true, true⟩,
        { server.gameConnection.fresh 1 with
          Player := some 0, IsUsed := true, AckPacket := ⟨[0]⟩,
          InputBuffer := [⟨1, ⟨true, false, false⟩⟩, ⟨2, ⟨false, true, false⟩⟩,
            ⟨3, ⟨false, false, true⟩⟩],
          LastInputFrameSimulated := 0, NextInputFrameToBeSimulated := 1 }, false⟩ ∧
    (server.selectInput
        [⟨1, ⟨false, false, false⟩, 0x43340000, 0x43340000, 0x42C00000, 0x42C00000, 0, 0,
          false⟩] ⟨true, true, [], true, true⟩
        { server.gameConnection.fresh 1 with
          Player := some 0, IsUsed := true, AckPacket := ⟨[0]⟩,
          InputBuffer := [⟨1, ⟨true, false, false⟩⟩, ⟨2, ⟨false, true, false⟩⟩,
            ⟨3, ⟨false, false, true⟩⟩],
          LastInputFrameSimulated := 0, NextInputFrameToBeSimulated := 1 }) =
      ⟨[⟨1, ⟨true, false, false⟩, 0x43340000, 0x43340000, 0x42C00000, 0x42C00000, 0, 0,
          false⟩], ⟨true, true, [], true, true⟩,
        { server.gameConnection.fresh 1 with
          Player := some 0, IsUsed := true, AckPacket := ⟨[0]⟩,
          InputBuffer := [⟨1, ⟨true, false, false⟩⟩, ⟨2, ⟨false, true, false⟩⟩,
            ⟨3, ⟨false, false, true⟩⟩],
          LastInputFrameSimulated := 1, NextInputFrameToBeSimulated := 1 }, false⟩ ∧
    (server.selectInput
        [⟨1, ⟨false, false, false⟩, 0x43340000, 0x43340000, 0x42C00000, 0x42C00000, 0, 0,
          false⟩] ⟨true, true, [], true, true⟩
        { server.gameConnection.fresh 1 with
          Player := some 0, IsUsed := true, AckPacket := ⟨[0]⟩,
          InputBuffer := [⟨1, ⟨true, false, false⟩⟩, ⟨2, ⟨false, true, false⟩⟩,
            ⟨3, ⟨false, false, true⟩⟩],
          LastInputFrameSimulated := 1,
          NextInputFrameToBeSimulated := 1 }).gameConn.NextInputFrameToBeSimulated = 2 ∧
    (server.selectInput
        [⟨1, ⟨false, false, false⟩, 0x43340000, 0x43340000, 0x42C00000, 0x42C00000, 0, 0,
          false⟩] ⟨true, true, [], true, true⟩
        { server.gameConnection.fresh 1 with
          Player := some 0, IsUsed := true, AckPacket := ⟨[0]⟩,
          InputBuffer := [⟨1, ⟨true, false, false⟩⟩, ⟨2, ⟨false, true, false⟩⟩,
            ⟨3, ⟨false, false, true⟩⟩],
          LastInputFrameSimulated := 1,
          NextInputFrameToBeSimulated := 2 }).gameConn.NextInputFrameToBeSimulated = 2 := by
  refine ⟨by rfl, ?_⟩
  decide

/-! ### The client tick -/

/-- The move of a buffer down by one slot, element by element: after `k` steps the first
`k` slots hold what was in the slots `1` to `k`. -/
theorem shiftDown_steps {α : Type} (buf : List α) (k : Nat) (hk : k + 1 ≤ buf.length) :
    (List.range k).foldl
      (fun b k =>
        match b[k + 1]? with
        | some x => b.set k x
        | none => b) buf = (buf.drop 1).take k ++ buf.drop k := by
  induction k with
  | zero => simp
  | succ k ih =>
    rw [List.range_succ, List.foldl_append, ih (by omega)]
    simp only [List.foldl_cons, List.foldl_nil]
    have hlen : ((buf.drop 1).take k).length = k := by
      rw [List.length_take, List.length_drop]
      omega
    have hget : ((buf.drop 1).take k ++ buf.drop k)[k + 1]? = buf[k + 1]? := by
      rw [List.getElem?_append_right (by omega), hlen, List.getElem?_drop]
      congr 1
      omega
    have hsome : buf[k + 1]? = some (buf[k + 1]) := List.getElem?_eq_getElem (by omega)
    rw [hget, hsome]
    simp only []
    apply List.ext_getElem?
    intro j
    rw [List.getElem?_set]
    by_cases hj : k = j
    · subst hj
      have h1 : k < ((buf.drop 1).take k ++ buf.drop k).length := by
        rw [List.length_append, hlen, List.length_drop]
        omega
      rw [if_pos rfl, if_pos h1]
      have hlen2 : ((buf.drop 1).take (k + 1)).length = k + 1 := by
        rw [List.length_take, List.length_drop]
        omega
      rw [List.getElem?_append_left (by omega), List.getElem?_take_of_lt (by omega),
        List.getElem?_drop, ← hsome]
      congr 1
      omega
    · rw [if_neg hj]
      have hlen2 : ((buf.drop 1).take (k + 1)).length = k + 1 := by
        rw [List.length_take, List.length_drop]
        omega
      rcases Nat.lt_or_ge j k with hlt | hge
      · rw [List.getElem?_append_left (by omega), List.getElem?_append_left (by omega),
          List.getElem?_take_of_lt hlt, List.getElem?_take_of_lt (by omega)]
      · rw [List.getElem?_append_right (by omega), List.getElem?_append_right (by omega),
          hlen, hlen2, List.getElem?_drop, List.getElem?_drop]
        congr 1
        omega

/-- A full buffer moved down one slot with its last slot overwritten: the oldest entry is
gone, the others keep their order, the new entry is the last. -/
theorem shiftDown_set {α : Type} (buf : List α) (data : α) (h : 0 < buf.length) :
    (client.shiftDown buf).set (buf.length - 1) data = buf.drop 1 ++ [data] := by
  unfold client.shiftDown
  rw [shiftDown_steps buf (buf.length - 1) (by omega)]
  have hlen : ((buf.drop 1).take (buf.length - 1)).length = buf.length - 1 := by
    rw [List.length_take, List.length_drop]
    omega
  have htake : (buf.drop 1).take (buf.length - 1) = buf.drop 1 := by
    apply List.take_of_length_le
    rw [List.length_drop]
  rw [htake]
  have hlen1 : (buf.drop 1).length = buf.length - 1 := List.length_drop 1 buf
  have hd : (buf.drop (buf.length - 1)).length = 1 := by
    rw [List.length_drop]
    omega
  obtain ⟨x, hx⟩ : ∃ x, buf.drop (buf.length - 1) = [x] := List.length_eq_one.mp hd
  rw [hx, List.set_append, hlen1, if_neg (by omega), Nat.sub_self]
  rfl

/-- The retention step on a buffer that is not full appends; on a full buffer it drops the
oldest entry and appends. -/
theorem storeFrameInput_eq (buf : List packs.ClientFrameInput) (data : packs.ClientFrameInput) :
    client.storeFrameInput buf data =
      if buf.length < 60 then buf ++ [data] else buf.drop 1 ++ [data] := by
  unfold client.storeFrameInput client.maxClientInputBuffer
  by_cases h : buf.length < 60
  · rw [if_neg (by omega), if_pos h]
  · rw [if_pos (by omega), if_neg h, shiftDown_set buf data (by omega)]

/-- The length of the buffer after the retention step. -/
theorem storeFrameInput_length (buf : List packs.ClientFrameInput)
    (data : packs.ClientFrameInput) :
    (client.storeFrameInput buf data).length =
      if buf.length < 60 then buf.length + 1 else buf.length := by
  rw [storeFrameInput_eq]
  split_ifs with h
  · simp
  · rw [List.length_append, List.length_drop]
    simp
    omega

/-- The frame counter after its increment is never 0. -/
theorem nextFrameCounter_eq (c : Nat) :
    client.nextFrameCounter c = (if (c + 1) % 65536 = 0 then 1 else (c + 1) % 65536) ∧
      client.nextFrameCounter c ≠ 0 ∧ client.nextFrameCounter c < 65536 := by
  unfold client.nextFrameCounter
  split_ifs with h
  · rw [h]
    decide
  · exact ⟨rfl, h, Nat.mod_lt _ (by decide)⟩

/-- One packet of the drain leaves the frame counter, the retained buffer and the flags of
the controller as they are. -/
theorem client_handlePacket_frame (ewma : Int → Int → Int) (now : Int)
    (state state1 : client.Controller × Option packs.ServerWorldStatePacket) (sequenceID : Nat)
    (packet : packs.Packet)
    (h : client.handlePacket ewma now state sequenceID packet = .ok state1) :
    state1.1.frameCounter = state.1.frameCounter ∧
      state1.1.frameInputBuffer = state.1.frameInputBuffer := by
  unfold client.handlePacket at h
  cases packet with
  | Ack a =>
    simp only [Except.ok.injEq] at h
    subst h
    exact ⟨rfl, rfl⟩
  | ClientPlayer a => simp at h
  | ServerWorldState a =>
    simp only at h
    split_ifs at h
    · simp only [Except.ok.injEq] at h
      subst h
      exact ⟨rfl, rfl⟩
    · split at h
      · split_ifs at h <;>
          (simp only [Except.ok.injEq] at h; subst h; exact ⟨rfl, rfl⟩)
      · simp only [Except.ok.injEq] at h
        subst h
        exact ⟨rfl, rfl⟩

/-- The drain leaves the frame counter and the retained buffer as they are. -/
theorem client_handlePackets_frame (ewma : Int → Int → Int) (now : Int)
    (packets : List (Nat × packs.Packet))
    (state state1 : client.Controller × Option packs.ServerWorldStatePacket)
    (h : client.handlePackets ewma now state packets = .ok state1) :
    state1.1.frameCounter = state.1.frameCounter ∧
      state1.1.frameInputBuffer = state.1.frameInputBuffer := by
  induction packets generalizing state with
  | nil =>
    simp only [client.handlePackets, Except.ok.injEq] at h
    subst h
    exact ⟨rfl, rfl⟩
  | cons p rest ih =>
    obtain ⟨sequenceID, packet⟩ := p
    simp only [client.handlePackets] at h
    split at h
    · rename_i s1 hs1
      have h1 := client_handlePacket_frame ewma now state s1 sequenceID packet hs1
      have h2 := ih s1 h
      exact ⟨h2.1.trans h1.1, h2.2.trans h1.2⟩
    · simp at h

/-- One packet of the drain that is no `ClientPlayerPacket`: the sequence number of a packet
that is no `AckPacket` is appended to the list of acknowledgments to send, and the sequence
numbers an `AckPacket` lists go to `Ack` of the tracker. -/
theorem client_handlePacket_acks (ewma : Int → Int → Int) (now : Int)
    (state : client.Controller × Option packs.ServerWorldStatePacket) (sequenceID : Nat)
    (packet : packs.Packet) (h : packet.ID ≠ packs.packetClientPlayerUpdate) :
    ∃ state1, client.handlePacket ewma now state sequenceID packet = .ok state1 ∧
      state1.1.ackPacket.SequenceIDList =
        state.1.ackPacket.SequenceIDList ++ (if packet.isAck then [] else [sequenceID]) ∧
      state1.1.rtt = client.trackerAfter ewma now state.1.rtt packet := by
  unfold client.handlePacket
  cases packet with
  | Ack a => exact ⟨_, rfl, by simp [packs.Packet.isAck], rfl⟩
  | ClientPlayer a => exact absurd rfl h
  | ServerWorldState a =>
    simp only [packs.Packet.isAck, Bool.false_eq_true, if_false]
    by_cases h0 : a.MyNetID = 0
    · rw [if_pos h0]
      exact ⟨_, rfl, rfl, rfl⟩
    · rw [if_neg h0]
      cases state.2 with
      | none => exact ⟨_, rfl, rfl, rfl⟩
      | some last =>
        simp only
        split_ifs <;> exact ⟨_, rfl, rfl, rfl⟩

/-- The drain over packets none of which is a `ClientPlayerPacket`: it does not panic, the
sequence numbers of the packets that are no `AckPacket` are appended in the order decoded,
and the tracker takes the acknowledgments in that order. -/
theorem client_handlePackets_acks (ewma : Int → Int → Int) (now : Int)
    (packets : List (Nat × packs.Packet))
    (state : client.Controller × Option packs.ServerWorldStatePacket)
    (h : ∀ p ∈ packets, p.2.ID ≠ packs.packetClientPlayerUpdate) :
    ∃ state1, client.handlePackets ewma now state packets = .ok state1 ∧
      state1.1.ackPacket.SequenceIDList =
        state.1.ackPacket.SequenceIDList ++
          (packets.filter fun p => !p.2.isAck).map (fun p => p.1) ∧
      state1.1.rtt =
        packets.foldl (fun tracker p => client.trackerAfter ewma now tracker p.2)
          state.1.rtt := by
  induction packets generalizing state with
  | nil => exact ⟨state, rfl, by simp, rfl⟩
  | cons p rest ih =>
    obtain ⟨sequenceID, packet⟩ := p
    obtain ⟨s1, hs1, hack1, hrtt1⟩ := client_handlePacket_acks ewma now state sequenceID packet
      (h (sequenceID, packet) (List.mem_cons_self _ _))
    obtain ⟨s2, hs2, hack2, hrtt2⟩ := ih s1 (fun p hp => h p (List.mem_cons_of_mem _ hp))
    refine ⟨s2, ?_, ?_, ?_⟩
    · simp only [client.handlePackets, hs1]
      exact hs2
    · rw [hack2, hack1, List.filter_cons]
      cases hisAck : packet.isAck <;> simp
    · rw [hrtt2, hrtt1, List.foldl_cons]

/-- The first half of the send block never fails, and leaves no acknowledgment to send. -/
theorem client_writeAcks_ok (net : client.Controller) (now : Int) :
    client.writeAcks net now =
      .ok (if net.ackPacket.SequenceIDList.length > 0 then
          packs.wireEnvelope net.rtt.packetSequenceID (.Ack net.ackPacket) else [],
        { net with
          rtt := if net.ackPacket.SequenceIDList.length > 0 then (net.rtt.Next now).2
            else net.rtt
          ackPacket := ⟨[]⟩ }) := by
  unfold client.writeAcks
  by_cases h : net.ackPacket.SequenceIDList.length > 0
  · simp only [if_pos h, packs_Write_eq_wireEnvelope, WriteResult.wrote]
    rfl
  · simp only [if_neg h]
    have hnil : net.ackPacket.SequenceIDList = [] := List.length_eq_zero.mp (by omega)
    have e : net.ackPacket = ⟨[]⟩ := by
      cases hp : net.ackPacket
      rw [hp] at hnil
      simp only at hnil
      rw [hnil]
    rw [← e]

/-- The second half of the send block never fails: it writes the envelope of the
`ClientPlayerPacket` with the last inputs. -/
theorem client_writeInputs_ok (net : client.Controller) (now : Int) :
    client.writeInputs net now =
      .ok (packs.wireEnvelope net.rtt.packetSequenceID
          (.ClientPlayer ⟨client.inputsToSend net.frameInputBuffer⟩),
        { net with rtt := (net.rtt.Next now).2 }) := by
  unfold client.writeInputs
  simp only [packs_Write_eq_wireEnvelope, WriteResult.wrote]
  rfl

/-- The send block never fails; afterwards there is no acknowledgment left to send, and the
frame counter and the retained buffer are as before. -/
theorem client_send_ok (net : client.Controller) (nowAck nowInput : Int) :
    ∃ net2, client.send net nowAck nowInput =
      .ok ((if net.ackPacket.SequenceIDList.length > 0 then
            packs.wireEnvelope net.rtt.packetSequenceID (.Ack net.ackPacket) else []) ++
          packs.wireEnvelope
            (if net.ackPacket.SequenceIDList.length > 0 then (net.rtt.Next nowAck).2
              else net.rtt).packetSequenceID
            (.ClientPlayer ⟨client.inputsToSend net.frameInputBuffer⟩), net2) ∧
      net2.ackPacket.SequenceIDList = [] ∧ net2.frameCounter = net.frameCounter ∧
      net2.frameInputBuffer = net.frameInputBuffer := by
  unfold client.send
  rw [client_writeAcks_ok]
  simp only [client_writeInputs_ok]
  exact ⟨_, rfl, rfl, rfl, rfl⟩

/-- The first connected tick changes neither the frame counter nor the retained buffer. -/
theorem client_connect_frame (net : client.Controller) (w : world.World) :
    (client.connect net w).1.frameCounter = net.frameCounter ∧
      (client.connect net w).1.frameInputBuffer = net.frameInputBuffer := by
  unfold client.connect
  split_ifs <;> exact ⟨rfl, rfl⟩

/-- The frame counter and the retained buffer after the first part of the tick. -/
theorem client_advanceFrame_eq (net : client.Controller) (w : world.World) :
    (client.advanceFrame net w).frameCounter = client.nextFrameCounter net.frameCounter ∧
      (client.advanceFrame net w).frameInputBuffer =
        (match w.MyPlayer with
          | some player =>
            client.storeFrameInput net.frameInputBuffer
              ⟨client.nextFrameCounter net.frameCounter, client.inputsOf w player⟩
          | none => net.frameInputBuffer) := by
  unfold client.advanceFrame
  cases w.MyPlayer <;> exact ⟨rfl, rfl⟩

/-- A connected tick whose packets hold no `ClientPlayerPacket` does not panic; it
increments the frame counter once, stores at most one entry, and leaves no acknowledgment
to send. -/
theorem client_BeforeUpdate_ok (ewma : Int → Int → Int) (update : ent.Player → ent.Player)
    (net : client.Controller) (input : client.TickInput)
    (hpk : ∀ p ∈ input.packets, p.2.ID ≠ packs.packetClientPlayerUpdate) :
    ∃ net3 w bytes, client.BeforeUpdate ewma update net input = .ok (net3, w, bytes) ∧
      net3.frameCounter = client.nextFrameCounter net.frameCounter ∧
      net3.frameInputBuffer =
        (match (client.connect net input.world).2.MyPlayer with
          | some player =>
            client.storeFrameInput net.frameInputBuffer
              ⟨client.nextFrameCounter net.frameCounter,
                client.inputsOf (client.connect net input.world).2 player⟩
          | none => net.frameInputBuffer) ∧
      net3.ackPacket.SequenceIDList = [] := by
  obtain ⟨s1, hs1, -, -⟩ := client_handlePackets_acks ewma input.now input.packets
    (client.advanceFrame (client.connect net input.world).1 (client.connect net input.world).2,
      none) hpk
  obtain ⟨hc1, hb1⟩ := client_handlePackets_frame ewma input.now input.packets _ s1 hs1
  obtain ⟨net3, hsend, hack, hc3, hb3⟩ := client_send_ok s1.1 input.nowAck input.nowInput
  obtain ⟨ha1, ha2⟩ := client_advanceFrame_eq (client.connect net input.world).1
    (client.connect net input.world).2
  obtain ⟨hk1, hk2⟩ := client_connect_frame net input.world
  unfold client.BeforeUpdate
  rw [hs1]
  obtain ⟨net2, last⟩ := s1
  simp only [hsend]
  refine ⟨net3, _, _, rfl, ?_, ?_, hack⟩
  · rw [hc3, hc1, ha1, hk1]
  · rw [hb3, hb1, ha2, hk1, hk2]

/-- The entries of the buffer after the retention step are entries of the buffer before, or
the new entry. -/
theorem mem_storeFrameInput (buf : List packs.ClientFrameInput)
    (data f : packs.ClientFrameInput) (h : f ∈ client.storeFrameInput buf data) :
    f ∈ buf ∨ f = data := by
  rw [storeFrameInput_eq] at h
  split_ifs at h
  · rcases List.mem_append.mp h with h1 | h1
    · exact Or.inl h1
    · exact Or.inr (List.mem_singleton.mp h1)
  · rcases List.mem_append.mp h with h1 | h1
    · exact Or.inl (List.mem_of_mem_drop h1)
    · exact Or.inr (List.mem_singleton.mp h1)

/-- C21: a connected tick makes the frame counter `c` into `(c + 1) mod 65536`, or into 1
when that is 0. Hence ticks one after the other (none of which panics on a
`ClientPlayerPacket`), started with a retained buffer without frame 0, end with a counter
that has gone through that step once per tick and is not 0 after at least one tick, and
with a retained buffer without frame 0. -/
theorem client_frame_counter_skips_zero (ewma : Int → Int → Int)
    (update : ent.Player → ent.Player) (net : client.Controller)
    (inputs : List client.TickInput)
    (hbuf : ∀ f ∈ net.frameInputBuffer, f.Frame ≠ 0)
    (hpk : ∀ input ∈ inputs, ∀ p ∈ input.packets, p.2.ID ≠ packs.packetClientPlayerUpdate) :
    (∀ c, client.nextFrameCounter c = if (c + 1) % 65536 = 0 then 1 else (c + 1) % 65536) ∧
    ∃ net1, client.runTicks ewma update net inputs = .ok net1 ∧
      net1.frameCounter = Nat.iterate client.nextFrameCounter inputs.length net.frameCounter ∧
      (inputs ≠ [] → net1.frameCounter ≠ 0) ∧
      ∀ f ∈ net1.frameInputBuffer, f.Frame ≠ 0 := by
  refine ⟨fun c => (nextFrameCounter_eq c).1, ?_⟩
  induction inputs generalizing net with
  | nil => exact ⟨net, rfl, rfl, fun h => absurd rfl h, hbuf⟩
  | cons input rest ih =>
    obtain ⟨net3, w, bytes, htick, hc, hb, -⟩ := client_BeforeUpdate_ok ewma update net input
      (hpk input (List.mem_cons_self _ _))
    have hbuf3 : ∀ f ∈ net3.frameInputBuffer, f.Frame ≠ 0 := by
      intro f hf
      rw [hb] at hf
      cases hplayer : (client.connect net input.world).2.MyPlayer with
      | none =>
        rw [hplayer] at hf
        exact hbuf f hf
      | some player =>
        rw [hplayer] at hf
        rcases mem_storeFrameInput _ _ _ hf with h1 | h1
        · exact hbuf f h1
        · rw [h1]
          exact (nextFrameCounter_eq net.frameCounter).2.1
    obtain ⟨net1, hrun, hc1, -, hb1⟩ := ih net3 hbuf3
      (fun i hi => hpk i (List.mem_cons_of_mem _ hi))
    refine ⟨net1, ?_, ?_, ?_, hb1⟩
    · simp only [client.runTicks, htick]
      exact hrun
    · rw [hc1, hc, List.length_cons, Function.iterate_succ_apply]
    · intro _
      rw [hc1, hc, ← Function.iterate_succ_apply, Function.iterate_succ_apply']
      exact (nextFrameCounter_eq _).2.1

/-- C21 at a concrete run: two ticks from the zero controller, the first with a world state
from the server. -/
theorem client_frame_counter_skips_zero_witness :
    ∃ net1, client.runTicks rtt.ewmaFloat64 id client.Controller.fresh
        [⟨⟨[], [], ⟨false, false, false⟩, none⟩, [(0, .ServerWorldState ⟨1, 0, []⟩)],
            63750000000000000000, 63750000000000000000, 63750000000000000000⟩,
          ⟨⟨[], [], ⟨true, false, false⟩, none⟩, [],
            63750000016000000000, 63750000016000000000, 63750000016000000000⟩] =
        .ok net1 ∧
      net1.frameCounter = Nat.iterate client.nextFrameCounter
        [(⟨⟨[], [], ⟨false, false, false⟩, none⟩, [(0, .ServerWorldState ⟨1, 0, []⟩)],
            63750000000000000000, 63750000000000000000, 63750000000000000000⟩ :
            client.TickInput),
          ⟨⟨[], [], ⟨true, false, false⟩, none⟩, [],
            63750000016000000000, 63750000016000000000, 63750000016000000000⟩].length
        client.Controller.fresh.frameCounter ∧
      ([(⟨⟨[], [], ⟨false, false, false⟩, none⟩, [(0, .ServerWorldState ⟨1, 0, []⟩)],
            63750000000000000000, 63750000000000000000, 63750000000000000000⟩ :
            client.TickInput),
          ⟨⟨[], [], ⟨true, false, false⟩, none⟩, [],
            63750000016000000000, 63750000016000000000, 63750000016000000000⟩] ≠ [] →
        net1.frameCounter ≠ 0) ∧
      ∀ f ∈ net1.frameInputBuffer, f.Frame ≠ 0 :=
  (client_frame_counter_skips_zero rtt.ewmaFloat64 id client.Controller.fresh
    [⟨⟨[], [], ⟨false, false, false⟩, none⟩, [(0, .ServerWorldState ⟨1, 0, []⟩)],
        63750000000000000000, 63750000000000000000, 63750000000000000000⟩,
      ⟨⟨[], [], ⟨true, false, false⟩, none⟩, [],
        63750000016000000000, 63750000016000000000, 63750000016000000000⟩]
    (by decide) (by decide)).2

/-- C22: the retention step appends the new entry to a buffer of fewer than 60 entries; on a
buffer of 60 it drops the entry at position 0, keeps the other 59 in order and puts the new
entry last, so the length stays 60. A connected tick with a local player performs that step
once, and ticks one after the other (none of which panics on a `ClientPlayerPacket`),
started with at most 60 entries, end with at most 60 entries. -/
theorem client_retained_buffer_at_most_60 (ewma : Int → Int → Int)
    (update : ent.Player → ent.Player) (net : client.Controller)
    (inputs : List client.TickInput)
    (hlen : net.frameInputBuffer.length ≤ 60)
    (hpk : ∀ input ∈ inputs, ∀ p ∈ input.packets, p.2.ID ≠ packs.packetClientPlayerUpdate) :
    (∀ buf data, buf.length < 60 → client.storeFrameInput buf data = buf ++ [data]) ∧
    (∀ buf data, buf.length = 60 →
      client.storeFrameInput buf data = buf.drop 1 ++ [data] ∧
        (client.storeFrameInput buf data).length = 60) ∧
    (∀ input net1 w bytes player,
      client.BeforeUpdate ewma update net input = .ok (net1, w, bytes) →
      (client.connect net input.world).2.MyPlayer = some player →
      net1.frameInputBuffer = client.storeFrameInput net.frameInputBuffer
        ⟨client.nextFrameCounter net.frameCounter,
          client.inputsOf (client.connect net input.world).2 player⟩) ∧
    ∃ net1, client.runTicks ewma update net inputs = .ok net1 ∧
      net1.frameInputBuffer.length ≤ 60 := by
  refine ⟨?_, ?_, ?_, ?_⟩
  · intro buf data h
    rw [storeFrameInput_eq, if_pos h]
  · intro buf data h
    have h1 : client.storeFrameInput buf data = buf.drop 1 ++ [data] := by
      rw [storeFrameInput_eq, if_neg (by omega)]
    refine ⟨h1, ?_⟩
    rw [storeFrameInput_length, if_neg (by omega), h]
  · intro input net1 w bytes player htick hplayer
    have hframe : net1.frameInputBuffer =
        (client.advanceFrame (client.connect net input.world).1
          (client.connect net input.world).2).frameInputBuffer := by
      unfold client.BeforeUpdate at htick
      split at htick
      · simp at htick
      · rename_i net2 last hs
        have h2 := (client_handlePackets_frame ewma input.now input.packets _ _ hs).2
        split at htick
        · simp at htick
        · rename_i sent net3 hsend
          obtain ⟨n, hn, -, -, hb⟩ := client_send_ok net2 input.nowAck input.nowInput
          rw [hn] at hsend
          simp only [Except.ok.injEq, Prod.mk.injEq] at hsend htick
          rw [← htick.1, ← hsend.2, hb]
          exact h2
    rw [hframe, (client_advanceFrame_eq _ _).2, hplayer, (client_connect_frame _ _).1,
      (client_connect_frame _ _).2]
  · induction inputs generalizing net with
    | nil => exact ⟨net, rfl, hlen⟩
    | cons input rest ih =>
      obtain ⟨net3, w, bytes, htick, -, hb, -⟩ := client_BeforeUpdate_ok ewma update net input
        (hpk input (List.mem_cons_self _ _))
      have hlen3 : net3.frameInputBuffer.length ≤ 60 := by
        rw [hb]
        cases (client.connect net input.world).2.MyPlayer with
        | none => exact hlen
        | some player =>
          simp only
          rw [storeFrameInput_length]
          split_ifs <;> omega
      obtain ⟨net1, hrun, hl1⟩ := ih net3 hlen3 (fun i hi => hpk i (List.mem_cons_of_mem _ hi))
      refine ⟨net1, ?_, hl1⟩
      simp only [client.runTicks, htick]
      exact hrun

/-- C22 at a concrete run: one tick from the zero controller. -/
theorem client_retained_buffer_at_most_60_witness :
    ∃ net1, client.runTicks rtt.ewmaFloat64 id client.Controller.fresh
        [⟨⟨[], [], ⟨false, false, false⟩, none⟩, [(0, .ServerWorldState ⟨1, 0, []⟩)],
          63750000000000000000, 63750000000000000000, 63750000000000000000⟩] = .ok net1 ∧
      net1.frameInputBuffer.length ≤ 60 :=
  (client_retained_buffer_at_most_60 rtt.ewmaFloat64 id client.Controller.fresh
    [⟨⟨[], [], ⟨false, false, false⟩, none⟩, [(0, .ServerWorldState ⟨1, 0, []⟩)],
      63750000000000000000, 63750000000000000000, 63750000000000000000⟩]
    (by decide) (by decide)).2.2.2

/-- The slice of the retained buffer that is sent holds its last `min 10 n` entries. -/
theorem inputsToSend_eq (buf : List packs.ClientFrameInput) :
    client.inputsToSend buf = buf.drop (buf.length - min 10 buf.length) ∧
      (client.inputsToSend buf).length = min 10 buf.length := by
  unfold client.inputsToSend netconst.MaxServerInputBuffer
  by_cases h : buf.length > 10
  · rw [if_pos h, Nat.min_eq_left (by omega), List.length_drop]
    exact ⟨rfl, by omega⟩
  · rw [if_neg h, Nat.min_eq_right (by omega), Nat.sub_self, List.drop_zero]
    exact ⟨rfl, rfl⟩

/-- C23: the `ClientPlayerPacket` the send block writes carries the last `min 10 n` entries
of the `n` entries of the retained buffer, in buffer order, so at most
`netconst.MaxServerInputBuffer`; the send block does not fail, its bytes end with the
envelope of that packet, `packs.Read` gives the packet back from the envelope, and the
server, handling it, neither closes the connection nor leaves its read loop. -/
theorem client_sends_last_ten_inputs (net : client.Controller) (nowAck nowInput : Int)
    (hv : ∀ f ∈ net.frameInputBuffer, f.Frame < 65536) :
    client.inputsToSend net.frameInputBuffer =
      net.frameInputBuffer.drop
        (net.frameInputBuffer.length - min 10 net.frameInputBuffer.length) ∧
    (client.inputsToSend net.frameInputBuffer).length = min 10 net.frameInputBuffer.length ∧
    (client.inputsToSend net.frameInputBuffer).length ≤ netconst.MaxServerInputBuffer ∧
    (∃ ackBytes seqID net2,
      client.send net nowAck nowInput =
        .ok (ackBytes ++ packs.wireEnvelope seqID
          (.ClientPlayer ⟨client.inputsToSend net.frameInputBuffer⟩), net2) ∧
      ∀ tail, packs.Read (packs.wireEnvelope seqID
          (.ClientPlayer ⟨client.inputsToSend net.frameInputBuffer⟩) ++ tail) =
        .ok (seqID % 65536, .ClientPlayer ⟨client.inputsToSend net.frameInputBuffer⟩) tail) ∧
    ∀ (ewma : Int → Int → Int) (now : Int) (conn : webrtcserver.Connection)
      (gameConn : server.gameConnection) (sequenceID : Nat),
      (server.handlePacket ewma now conn gameConn sequenceID
        (.ClientPlayer ⟨client.inputsToSend net.frameInputBuffer⟩)).stopped = false ∧
      (server.handlePacket ewma now conn gameConn sequenceID
        (.ClientPlayer ⟨client.inputsToSend net.frameInputBuffer⟩)).conn = conn := by
  obtain ⟨h1, h2⟩ := inputsToSend_eq net.frameInputBuffer
  have h3 : (client.inputsToSend net.frameInputBuffer).length ≤
      netconst.MaxServerInputBuffer := by
    rw [h2]
    unfold netconst.MaxServerInputBuffer
    omega
  refine ⟨h1, h2, h3, ?_, ?_⟩
  · obtain ⟨net2, hsend, -⟩ := client_send_ok net nowAck nowInput
    refine ⟨_, _, net2, hsend, ?_⟩
    intro tail
    apply packs_Read_wireEnvelope
    · intro f hf
      rw [h1] at hf
      exact hv f (List.mem_of_mem_drop hf)
    · show (client.inputsToSend net.frameInputBuffer).length < 2 ^ 31
      rw [h2]
      have : min 10 net.frameInputBuffer.length ≤ 10 := Nat.min_le_left _ _
      omega
  · intro ewma now conn gameConn sequenceID
    have hle : ¬ (client.inputsToSend net.frameInputBuffer).length >
        netconst.MaxServerInputBuffer := by omega
    simp only [server.handlePacket, if_neg hle]
    split_ifs
    · exact ⟨rfl, rfl⟩
    · split
      · split_ifs <;> exact ⟨rfl, rfl⟩
      · exact ⟨rfl, rfl⟩

/-- C23 at a concrete buffer: twelve frames retained, the last ten sent. -/
theorem client_sends_last_ten_inputs_witness :
    (client.inputsToSend
      ({ client.Controller.fresh with
        frameInputBuffer := (List.range 12).map fun i => ⟨i + 1, ⟨false, false, false⟩⟩ } :
        client.Controller).frameInputBuffer).length =
      min 10 ({ client.Controller.fresh with
        frameInputBuffer := (List.range 12).map fun i => ⟨i + 1, ⟨false, false, false⟩⟩ } :
        client.Controller).frameInputBuffer.length :=
  (client_sends_last_ten_inputs
    { client.Controller.fresh with
      frameInputBuffer := (List.range 12).map fun i => ⟨i + 1, ⟨false, false, false⟩⟩ }
    63750000000000000000 63750000000000000000 (by decide)).2.1

/-! ### The bytes of the wire layout -/

/-- The two little-endian bytes of a number: the low byte first. -/
theorem leBytes_two (n : Nat) : leBytes 2 n = [n % 256, n / 256 % 256] := by
  simp [leBytes]

/-- The four little-endian bytes of a number: the low byte first. -/
theorem leBytes_four (n : Nat) :
    leBytes 4 n = [n % 256, n / 256 % 256, n / 65536 % 256, n / 16777216 % 256] := by
  simp [leBytes, Nat.div_div_eq_div_mul]

/-- The four bytes of a count: the conversion to `int32` keeps the low 32 bits, which are
the bits the four bytes hold. -/
theorem leBytes_four_count (n : Nat) :
    leBytes 4 (n % 2 ^ 32) =
      [n % 256, n / 256 % 256, n / 65536 % 256, n / 16777216 % 256] := by
  rw [leBytes_four]
  have h1 : n % 2 ^ 32 % 256 = n % 256 := by omega
  have h2 : n % 2 ^ 32 / 256 % 256 = n / 256 % 256 := by omega
  have h3 : n % 2 ^ 32 / 65536 % 256 = n / 65536 % 256 := by omega
  have h4 : n % 2 ^ 32 / 16777216 % 256 = n / 16777216 % 256 := by omega
  rw [h1, h2, h3, h4]

/-- C5: for every registered packet and tracker whose counter is `s`, `packs.Write` returns
no error and appends exactly: one byte holding the tag (1 for `AckPacket`, 2 for
`ClientPlayerPacket`, 3 for `ServerWorldStatePacket`), then `s` as two bytes, low byte
first, then the body with the fields in declaration order, every `uint16` as two and every
`float32` as four bytes, low byte first, every `bool` as the byte 1 or 0, and each sequence
as its count in four bytes, low byte first, followed by its elements. A
`ClientPlayerPacket` with `n` input frames takes `7 + 5n` bytes and a
`ServerWorldStatePacket` with `n` players `11 + 19n` bytes. The last part is the envelope
of a world state with one player, byte by byte. -/
theorem packs_Write_wire_layout (tracker : rtt.RoundTripTracking) (now : Int) :
    (∀ a : packs.AckPacket,
      (packs.Write tracker now (.Ack a)).1 =
        ⟨1 :: tracker.packetSequenceID % 256 :: tracker.packetSequenceID / 256 % 256 ::
          a.SequenceIDList.length % 256 :: a.SequenceIDList.length / 256 % 256 ::
          a.SequenceIDList.length / 65536 % 256 ::
          a.SequenceIDList.length / 16777216 % 256 ::
          a.SequenceIDList.flatMap (fun seqID => [seqID % 256, seqID / 256 % 256]), none⟩) ∧
    (∀ c : packs.ClientPlayerPacket,
      (packs.Write tracker now (.ClientPlayer c)).1 =
        ⟨2 :: tracker.packetSequenceID % 256 :: tracker.packetSequenceID / 256 % 256 ::
          c.InputBuffer.length % 256 :: c.InputBuffer.length / 256 % 256 ::
          c.InputBuffer.length / 65536 % 256 :: c.InputBuffer.length / 16777216 % 256 ::
          c.InputBuffer.flatMap (fun f =>
            [f.Frame % 256, f.Frame / 256 % 256,
             if f.PlayerInput.IsHoldingLeft then 1 else 0,
             if f.PlayerInput.IsHoldingRight then 1 else 0,
             if f.PlayerInput.IsHoldingJump then 1 else 0]), none⟩ ∧
      (packs.Write tracker now (.ClientPlayer c)).1.bytes.length =
        7 + 5 * c.InputBuffer.length) ∧
    (∀ w : packs.ServerWorldStatePacket,
      (packs.Write tracker now (.ServerWorldState w)).1 =
        ⟨3 :: tracker.packetSequenceID % 256 :: tracker.packetSequenceID / 256 % 256 ::
          w.MyNetID % 256 :: w.MyNetID / 256 % 256 ::
          w.LastSimulatedInputFrame % 256 :: w.LastSimulatedInputFrame / 256 % 256 ::
          w.Players.length % 256 :: w.Players.length / 256 % 256 ::
          w.Players.length / 65536 % 256 :: w.Players.length / 16777216 % 256 ::
          w.Players.flatMap (fun q =>
            [q.NetID % 256, q.NetID / 256 % 256,
             q.X % 256, q.X / 256 % 256, q.X / 65536 % 256, q.X / 16777216 % 256,
             q.Y % 256, q.Y / 256 % 256, q.Y / 65536 % 256, q.Y / 16777216 % 256,
             q.Hspeed % 256, q.Hspeed / 256 % 256, q.Hspeed / 65536 % 256,
             q.Hspeed / 16777216 % 256,
             q.Vspeed % 256, q.Vspeed / 256 % 256, q.Vspeed / 65536 % 256,
             q.Vspeed / 16777216 % 256,
             if q.DirLeft then 1 else 0]), none⟩ ∧
      (packs.Write tracker now (.ServerWorldState w)).1.bytes.length =
        11 + 19 * w.Players.length) ∧
    (packs.Write ⟨258, List.replicate 60 ⟨0, 0⟩, 0⟩ 63750000000000000000
        (.ServerWorldState ⟨513, 1027,
          [⟨5, 0x3F800000, 0x40000000, 0x01020304, 0, true⟩]⟩)).1 =
      ⟨[3, 2, 1, 1, 2, 3, 4, 1, 0, 0, 0, 5, 0, 0, 0, 128, 63, 0, 0, 0, 64, 4, 3, 2, 1,
        0, 0, 0, 0, 1], none⟩ := by
  have e1 : packs.wireClientFrameInput = fun f =>
      [f.Frame % 256, f.Frame / 256 % 256,
       if f.PlayerInput.IsHoldingLeft then 1 else 0,
       if f.PlayerInput.IsHoldingRight then 1 else 0,
       if f.PlayerInput.IsHoldingJump then 1 else 0] := by
    funext f
    simp [packs.wireClientFrameInput, packs.wireBool, leBytes_two]
  have e2 : packs.wirePlayerState = fun q =>
      [q.NetID % 256, q.NetID / 256 % 256,
       q.X % 256, q.X / 256 % 256, q.X / 65536 % 256, q.X / 16777216 % 256,
       q.Y % 256, q.Y / 256 % 256, q.Y / 65536 % 256, q.Y / 16777216 % 256,
       q.Hspeed % 256, q.Hspeed / 256 % 256, q.Hspeed / 65536 % 256,
       q.Hspeed / 16777216 % 256,
       q.Vspeed % 256, q.Vspeed / 256 % 256, q.Vspeed / 65536 % 256,
       q.Vspeed / 16777216 % 256,
       if q.DirLeft then 1 else 0] := by
    funext q
    simp [packs.wirePlayerState, packs.wireBool, leBytes_two, leBytes_four]
  have e3 : (fun seqID => leBytes 2 seqID) = fun seqID => [seqID % 256, seqID / 256 % 256] := by
    funext seqID
    exact leBytes_two seqID
  refine ⟨fun a => ?_, fun c => ⟨?_, ?_⟩, fun w => ⟨?_, ?_⟩, by decide⟩
  · rw [packs_Write_eq_wireEnvelope]
    simp only [WriteResult.wrote, packs.wireEnvelope, packs.wireBody, packs.Packet.ID,
      packs.packetAck, leBytes_two, leBytes_four_count, e3, List.cons_append,
      List.nil_append]
  · rw [packs_Write_eq_wireEnvelope]
    simp only [WriteResult.wrote, packs.wireEnvelope, packs.wireBody, packs.Packet.ID,
      packs.packetClientPlayerUpdate, leBytes_two, leBytes_four_count, e1, List.cons_append,
      List.nil_append]
  · rw [packs_Write_eq_wireEnvelope]
    simp only [WriteResult.wrote, packs.wireEnvelope, packs.wireBody, List.length_cons,
      List.length_append, leBytes_length,
      length_flatMap_const _ 5 _ wireClientFrameInput_length]
    omega
  · rw [packs_Write_eq_wireEnvelope]
    simp only [WriteResult.wrote, packs.wireEnvelope, packs.wireBody, packs.Packet.ID,
      packs.packetWorldStateUpdate, leBytes_two, leBytes_four_count, e2, List.cons_append,
      List.nil_append]
  · rw [packs_Write_eq_wireEnvelope]
    simp only [WriteResult.wrote, packs.wireEnvelope, packs.wireBody, List.length_cons,
      List.length_append, leBytes_length,
      length_flatMap_const _ 19 _ wirePlayerState_length]
    omega

/-! ### Slots freed without `Free` -/

/-- The steps by which a used slot becomes free: `Free`, which only completes on a slot that
is not connected and panics on a connected one, an invalid data channel being opened, and
the failure to encode the connect response. -/
theorem slot_step_used_to_free (step : webrtcserver.SlotStep)
    (conn conn1 : webrtcserver.Connection) :
    (step.apply conn = .ok conn1 → conn.isUsed = true → conn1.isUsed = false →
      (step = .free ∧ conn.isConnected = false) ∨ step = .invalidDataChannelOpened ∨
        step = .encodeFailure) ∧
    (conn.isConnected = true →
      webrtcserver.SlotStep.free.apply conn =
        .error (.panic "cannot call Free if connection is still connected")) := by
  constructor
  · intro h hu hf
    cases step with
    | acquire =>
      simp only [webrtcserver.SlotStep.apply, hu, if_true] at h
      injection h with h1
      rw [← h1, hu] at hf
      exact absurd hf (by simp)
    | validDataChannelOpened =>
      simp only [webrtcserver.SlotStep.apply] at h
      split at h <;> injection h with h1 <;> rw [← h1] at hf <;> simp [hu] at hf
    | invalidDataChannelOpened => exact Or.inr (Or.inl rfl)
    | dataChannelClosed =>
      simp only [webrtcserver.SlotStep.apply] at h
      injection h with h1
      rw [← h1] at hf
      simp [webrtcserver.Connection.CloseButDontFree, hu] at hf
    | closeButDontFree =>
      simp only [webrtcserver.SlotStep.apply] at h
      injection h with h1
      rw [← h1] at hf
      simp [webrtcserver.Connection.CloseButDontFree, hu] at hf
    | free =>
      left
      refine ⟨rfl, ?_⟩
      cases hc : conn.isConnected with
      | false => rfl
      | true => simp [webrtcserver.SlotStep.apply, webrtcserver.Connection.Free, hc] at h
    | encodeFailure => exact Or.inr (Or.inr rfl)
  · intro hc
    simp [webrtcserver.SlotStep.apply, webrtcserver.Connection.Free, hc]

/-- C15 at the failing inputs: an invalid data channel opened on a used, connected slot with
a frame waiting leaves the slot closed and free, and so does the failure to encode the
connect response on a slot that has just been taken; no `Free` has been called, and the scan
for a free slot hands the slot out again. -/
theorem slot_freed_without_Free :
    webrtcserver.SlotStep.invalidDataChannelOpened.apply ⟨true, true, [[1]], true, true⟩ =
      .ok ⟨false, false, [], false, false⟩ ∧
    webrtcserver.SlotStep.encodeFailure.apply ⟨true, false, [], false, true⟩ =
      .ok ⟨false, false, [], false, false⟩ ∧
    webrtcserver.acquire [⟨false, false, [], false, false⟩] =
      some (0, [⟨true, false, [], false, true⟩]) :=
  ⟨rfl, rfl, by decide⟩

/-! ### The acknowledgments of the client -/

/-- The tracker after the drain: every sequence number listed by an `AckPacket` has gone to
`Ack`, in the order decoded and listed, and nothing else has touched the tracker. -/
theorem client_trackerAfter_foldl (ewma : Int → Int → Int) (now : Int)
    (packets : List (Nat × packs.Packet)) (tracker : rtt.RoundTripTracking) :
    packets.foldl (fun tracker p => client.trackerAfter ewma now tracker p.2) tracker =
      (packets.flatMap fun p =>
        match p.2 with
        | .Ack a => a.SequenceIDList
        | _ => []).foldl (fun tracker seqID => tracker.Ack ewma now seqID) tracker := by
  induction packets generalizing tracker with
  | nil => rfl
  | cons p rest ih =>
    rw [List.foldl_cons, List.flatMap_cons, List.foldl_append, ih]
    obtain ⟨sequenceID, packet⟩ := p
    cases packet <;> rfl

/-- C24: the drain over decoded packets none of which is a `ClientPlayerPacket` does not
panic; it appends to the list of acknowledgments to send the sequence numbers of the packets
that are no `AckPacket`, in the order decoded (a world state with `MyNetID` 0 included),
never the sequence number of an `AckPacket`; the tracker afterwards is the tracker before
with `Ack` called on every sequence number the `AckPacket`s list, in the order decoded and
listed; the send block then does not fail and leaves the list empty, and so does the whole
tick. The last part is a drain of three packets: the sequence numbers 7 and 9 are
acknowledged, 8, of the `AckPacket`, is not, and `Ack(0)` has set the latency from the entry
of sequence number 0 in the ring. -/
theorem client_acknowledges_all_but_acks (ewma : Int → Int → Int)
    (update : ent.Player → ent.Player) (now nowAck nowInput : Int)
    (net : client.Controller) (last : Option packs.ServerWorldStatePacket)
    (packets : List (Nat × packs.Packet)) (w : world.World)
    (hpk : ∀ p ∈ packets, p.2.ID ≠ packs.packetClientPlayerUpdate) :
    (∃ net1 last1 bytes net2,
      client.handlePackets ewma now (net, last) packets = .ok (net1, last1) ∧
      net1.ackPacket.SequenceIDList =
        net.ackPacket.SequenceIDList ++
          (packets.filter fun p => !p.2.isAck).map (fun p => p.1) ∧
      net1.rtt =
        (packets.flatMap fun p =>
          match p.2 with
          | .Ack a => a.SequenceIDList
          | _ => []).foldl (fun tracker seqID => tracker.Ack ewma now seqID) net.rtt ∧
      client.send net1 nowAck nowInput = .ok (bytes, net2) ∧
      net2.ackPacket.SequenceIDList = []) ∧
    (∃ net3 w3 sent,
      client.BeforeUpdate ewma update net ⟨w, packets, now, nowAck, nowInput⟩ =
        .ok (net3, w3, sent) ∧ net3.ackPacket.SequenceIDList = []) ∧
    client.handlePackets rtt.ewmaFloat64 63750000000050000000
        ({ client.Controller.fresh with
            rtt := (rtt.RoundTripTracking.fresh.Next 63750000000000000000).2 }, none)
        [(7, .ServerWorldState ⟨0, 0, []⟩), (8, .Ack ⟨[0]⟩),
          (9, .ServerWorldState ⟨1, 0, []⟩)] =
      .ok ({ client.Controller.fresh with
            rtt := { (rtt.RoundTripTracking.fresh.Next 63750000000000000000).2 with
              latency := 50000000 }
            ackPacket := ⟨[7, 9]⟩ }, some ⟨1, 0, []⟩) := by
  refine ⟨?_, ?_, by rfl⟩
  · obtain ⟨s1, hs1, hack, hrtt⟩ := client_handlePackets_acks ewma now packets (net, last) hpk
    obtain ⟨net2, hsend, hempty, -⟩ := client_send_ok s1.1 nowAck nowInput
    rw [client_trackerAfter_foldl] at hrtt
    exact ⟨s1.1, s1.2, _, net2, hs1, hack, hrtt, hsend, hempty⟩
  · obtain ⟨net3, w3, sent, htick, -, -, hempty⟩ := client_BeforeUpdate_ok ewma update net
      ⟨w, packets, now, nowAck, nowInput⟩ hpk
    exact ⟨net3, w3, sent, htick, hempty⟩

/-- C24 at a concrete drain: a world state with `MyNetID` 0, an `AckPacket` and a world
state, decoded in that order. -/
theorem client_acknowledges_all_but_acks_witness :
    ∃ net3 w3 sent,
      client.BeforeUpdate rtt.ewmaFloat64 id client.Controller.fresh
          ⟨⟨[], [], ⟨false, false, false⟩, none⟩,
            [(7, .ServerWorldState ⟨0, 0, []⟩), (8, .Ack ⟨[3]⟩),
              (9, .ServerWorldState ⟨1, 0, []⟩)],
            63750000000000000000, 63750000000000000000, 63750000000000000000⟩ =
        .ok (net3, w3, sent) ∧ net3.ackPacket.SequenceIDList = [] :=
  (client_acknowledges_all_but_acks rtt.ewmaFloat64 id 63750000000000000000
    63750000000000000000 63750000000000000000 client.Controller.fresh none
    [(7, .ServerWorldState ⟨0, 0, []⟩), (8, .Ack ⟨[3]⟩), (9, .ServerWorldState ⟨1, 0, []⟩)]
    ⟨[], [], ⟨false, false, false⟩, none⟩ (by decide)).2.1

/-! ### Truncated envelopes -/

/-- A strict prefix of `c1 ++ c2` is a strict prefix of `c1`, or `c1` followed by a strict
prefix of `c2`. -/
theorem strict_initial_segment_cases (pre c1 c2 : List Nat) (h : pre <+: c1 ++ c2)
    (hne : pre ≠ c1 ++ c2) :
    (pre <+: c1 ∧ pre ≠ c1) ∨ ∃ p2, pre = c1 ++ p2 ∧ p2 <+: c2 ∧ p2 ≠ c2 := by
  rcases List.prefix_or_prefix_of_prefix h (List.prefix_append c1 c2) with h1 | h1
  · by_cases he : pre = c1
    · right
      refine ⟨[], by simp [he], List.nil_prefix, ?_⟩
      intro h2
      apply hne
      rw [he, ← h2, List.append_nil]
    · exact Or.inl ⟨h1, he⟩
  · obtain ⟨p2, hp2⟩ := h1
    right
    refine ⟨p2, hp2.symm, ?_, ?_⟩
    · rw [← hp2] at h
      exact (List.prefix_append_right_inj c1).mp h
    · intro h2
      apply hne
      rw [← hp2, h2]

/-- A strict prefix is shorter. -/
theorem length_lt_of_strict_initial_segment (pre c : List Nat) (h : pre <+: c)
    (hne : pre ≠ c) : pre.length < c.length := by
  have hle := h.length_le
  rcases Nat.lt_or_ge pre.length c.length with h1 | h1
  · exact h1
  · exact absurd (h.eq_of_length (by omega)) hne

/-- A fixed-size read takes exactly its bytes; it starts at offset 0. -/
theorem binaryRead_readsExactly (size : Nat) (bs : List Nat) (h : bs.length = size)
    (hpos : 0 < size) : ReadsExactly (binaryRead size) bs (fun n => n = 0) := by
  constructor
  · intro rest
    exact ⟨bs, binaryRead_append size bs rest h hpos⟩
  · intro pre hpre hne
    have hlt : pre.length < size := by
      have := length_lt_of_strict_initial_segment pre bs hpre hne
      omega
    unfold binaryRead
    constructor
    · intro h0
      rw [if_pos h0, List.length_eq_zero.mp h0]
    · intro h0
      rw [if_neg h0, if_pos hlt]

/-- The offsets at which reads start, stated in another way. -/
theorem ReadsExactly.congr {α : Type} {f : List Nat → ReadResult α} {c : List Nat}
    {atStart atStart1 : Nat → Prop} (h : ReadsExactly f c atStart)
    (he : ∀ n, atStart n ↔ atStart1 n) : ReadsExactly f c atStart1 := by
  refine ⟨h.1, fun pre hpre hne => ⟨fun hs => ?_, fun hs => ?_⟩⟩
  · exact (h.2 pre hpre hne).1 ((he _).mpr hs)
  · exact (h.2 pre hpre hne).2 (fun hs1 => hs ((he _).mp hs1))

/-- The offsets at which reads start, stated in another way within the bytes taken. -/
theorem ReadsExactly.congr_of_lt {α : Type} {f : List Nat → ReadResult α} {c : List Nat}
    {atStart atStart1 : Nat → Prop} (h : ReadsExactly f c atStart)
    (he : ∀ n, n < c.length → (atStart n ↔ atStart1 n)) : ReadsExactly f c atStart1 := by
  refine ⟨h.1, fun pre hpre hne => ⟨fun hs => ?_, fun hs => ?_⟩⟩
  · exact (h.2 pre hpre hne).1
      ((he _ (length_lt_of_strict_initial_segment pre c hpre hne)).mpr hs)
  · exact (h.2 pre hpre hne).2
      (fun hs1 => hs ((he _ (length_lt_of_strict_initial_segment pre c hpre hne)).mp hs1))

/-- The value read, transformed: the bytes taken and the offsets are the same. -/
theorem ReadsExactly.map {α β : Type} {f : List Nat → ReadResult α} {c : List Nat}
    {atStart : Nat → Prop} (h : ReadsExactly f c atStart) (g : α → β) :
    ReadsExactly (fun r => (f r).map g) c atStart := by
  constructor
  · intro rest
    obtain ⟨v, hv⟩ := h.1 rest
    exact ⟨g v, by simp only [hv, ReadResult.map]⟩
  · intro pre hpre hne
    constructor
    · intro hs
      simp only [(h.2 pre hpre hne).1 hs, ReadResult.map]
    · intro hs
      simp only [(h.2 pre hpre hne).2 hs, ReadResult.map]

/-- Two reads one after the other, the second depending on the value the first gives, take
the bytes of the first followed by the bytes of the second; the reads of the second start
at their offsets moved by the length of the first. -/
theorem ReadsExactly.bind_of_value {α β : Type} {f : List Nat → ReadResult α}
    {g : α → List Nat → ReadResult β} {c1 c2 : List Nat} {s1 : Nat → Prop}
    (s2 : Nat → Prop) (h1 : ReadsExactly f c1 s1)
    (h2 : ∀ v rest, f (c1 ++ rest) = .ok v rest → ReadsExactly (g v) c2 s2) :
    ReadsExactly (fun r => (f r).bind g) (c1 ++ c2)
      (fun n => (n < c1.length ∧ s1 n) ∨ (c1.length ≤ n ∧ s2 (n - c1.length))) := by
  constructor
  · intro rest
    obtain ⟨v, hv⟩ := h1.1 (c2 ++ rest)
    obtain ⟨w, hw⟩ := (h2 v _ hv).1 rest
    exact ⟨w, by simp only [List.append_assoc, hv, ReadResult.bind, hw]⟩
  · intro pre hpre hne
    rcases strict_initial_segment_cases pre c1 c2 hpre hne with ⟨hp, hn⟩ | ⟨p2, hp, hp2, hn2⟩
    · have hlt := length_lt_of_strict_initial_segment pre c1 hp hn
      constructor
      · intro hs
        have hs1 : s1 pre.length := by
          rcases hs with ⟨-, h⟩ | ⟨h, -⟩
          · exact h
          · omega
        simp only [(h1.2 pre hp hn).1 hs1, ReadResult.bind]
      · intro hs
        have hs1 : ¬ s1 pre.length := fun h => hs (Or.inl ⟨hlt, h⟩)
        simp only [(h1.2 pre hp hn).2 hs1, ReadResult.bind]
    · obtain ⟨v, hv⟩ := h1.1 p2
      subst hp
      have hlen : (c1 ++ p2).length - c1.length = p2.length := by
        rw [List.length_append]
        omega
      have hge : c1.length ≤ (c1 ++ p2).length := by
        rw [List.length_append]
        omega
      simp only [hv, ReadResult.bind]
      constructor
      · intro hs
        have hs2 : s2 p2.length := by
          rcases hs with ⟨h, -⟩ | ⟨-, h⟩
          · omega
          · rwa [hlen] at h
        exact ((h2 v _ hv).2 p2 hp2 hn2).1 hs2
      · intro hs
        have hs2 : ¬ s2 p2.length := fun h => hs (Or.inr ⟨hge, by rwa [hlen]⟩)
        exact ((h2 v _ hv).2 p2 hp2 hn2).2 hs2

/-- Two reads one after the other, the second taking the same bytes whatever the first
gave. -/
theorem ReadsExactly.bind {α β : Type} {f : List Nat → ReadResult α}
    {g : α → List Nat → ReadResult β} {c1 c2 : List Nat} {s1 s2 : Nat → Prop}
    (h1 : ReadsExactly f c1 s1) (h2 : ∀ v, ReadsExactly (g v) c2 s2) :
    ReadsExactly (fun r => (f r).bind g) (c1 ++ c2)
      (fun n => (n < c1.length ∧ s1 n) ∨ (c1.length ≤ n ∧ s2 (n - c1.length))) :=
  ReadsExactly.bind_of_value s2 h1 (fun v _ _ => h2 v)

/-- A loop of reads over elements of `size` bytes each takes the bytes of the elements one
after the other; its reads start where the reads of an element start, in every element. -/
theorem readItems_readsExactly {α : Type} (f : List Nat → ReadResult packbuf.Value)
    (enc : α → List Nat) (size : Nat) (s : Nat → Prop) (xs : List α)
    (h : ∀ x ∈ xs, (enc x).length = size ∧ ReadsExactly f (enc x) s) :
    ReadsExactly (packbuf.readItems f xs.length) (xs.flatMap enc)
      (fun n => s (n % size)) := by
  induction xs with
  | nil =>
    constructor
    · intro rest
      exact ⟨[], rfl⟩
    · intro pre hpre hne
      exact absurd (List.prefix_nil.mp hpre) hne
  | cons x xs ih =>
    have e : packbuf.readItems f (x :: xs).length =
        fun r => (f r).bind fun v rest =>
          (packbuf.readItems f xs.length rest).map fun vs => v :: vs := by
      funext r
      simp only [List.length_cons, packbuf.readItems]
    rw [e, List.flatMap_cons]
    obtain ⟨hl, hx⟩ := h x (List.mem_cons_self _ _)
    refine (ReadsExactly.bind hx
      (fun v => (ih (fun y hy => h y (List.mem_cons_of_mem _ hy))).map _)).congr ?_
    intro n
    rw [hl]
    constructor
    · rintro (⟨hlt, hs⟩ | ⟨hge, hs⟩)
      · rwa [Nat.mod_eq_of_lt hlt]
      · have e1 : (n - size) % size = n % size := by
          conv_rhs => rw [← Nat.sub_add_cancel hge]
          rw [Nat.add_mod_right]
        rwa [e1] at hs
    · intro hs
      rcases Nat.lt_or_ge n size with hlt | hge
      · left
        rw [Nat.mod_eq_of_lt hlt] at hs
        exact ⟨hlt, hs⟩
      · right
        have e1 : (n - size) % size = n % size := by
          conv_rhs => rw [← Nat.sub_add_cancel hge]
          rw [Nat.add_mod_right]
        exact ⟨hge, by rwa [e1]⟩

/-- A struct with no field left takes no byte. -/
theorem readStruct_nil_readsExactly (vs : List packbuf.Value) :
    ReadsExactly (packbuf.readStruct .nil vs) [] (fun _ => False) := by
  constructor
  · intro rest
    exact ⟨[], by simp only [packbuf.readStruct, List.nil_append]⟩
  · intro pre hpre hne
    exact absurd (List.prefix_nil.mp hpre) hne

/-- A struct takes the bytes of its first field followed by the bytes of the others. -/
theorem readStruct_cons_readsExactly (t : packbuf.Ty) (rest : packbuf.Fields)
    (v : packbuf.Value) (vs : List packbuf.Value) (c1 c2 : List Nat) (s1 s2 : Nat → Prop)
    (h1 : ReadsExactly (packbuf.readField t v) c1 s1)
    (h2 : ReadsExactly (packbuf.readStruct rest vs) c2 s2) :
    ReadsExactly (packbuf.readStruct (.cons true t rest) (v :: vs)) (c1 ++ c2)
      (fun n => (n < c1.length ∧ s1 n) ∨ (c1.length ≤ n ∧ s2 (n - c1.length))) := by
  have e : packbuf.readStruct (.cons true t rest) (v :: vs) =
      fun r => (packbuf.readField t v r).bind fun v1 r1 =>
        (packbuf.readStruct rest vs r1).map fun vs1 => v1 :: vs1 := by
    funext r
    simp only [packbuf.readStruct, Bool.not_true, Bool.false_eq_true, if_false]
  rw [e]
  exact ReadsExactly.bind h1 (fun v1 => h2.map _)

/-- A struct whose last field is read: the bytes and the offsets of that field. -/
theorem readStruct_last_readsExactly (t : packbuf.Ty) (v : packbuf.Value)
    (vs : List packbuf.Value) (c : List Nat) (s : Nat → Prop)
    (h : ReadsExactly (packbuf.readField t v) c s) :
    ReadsExactly (packbuf.readStruct (.cons true t .nil) (v :: vs)) c s := by
  have h1 := readStruct_cons_readsExactly t .nil v vs c [] s (fun _ => False) h
    (readStruct_nil_readsExactly vs)
  rw [List.append_nil] at h1
  refine h1.congr_of_lt ?_
  intro n hn
  constructor
  · rintro (⟨-, h⟩ | ⟨-, h⟩)
    · exact h
    · exact absurd h id
  · intro h
    exact Or.inl ⟨hn, h⟩

/-- A field that is a struct takes the bytes of the struct. -/
theorem readField_struct_readsExactly (fs : packbuf.Fields) (vs : List packbuf.Value)
    (c : List Nat) (s : Nat → Prop) (h : ReadsExactly (packbuf.readStruct fs vs) c s) :
    ReadsExactly (packbuf.readField (.struct fs) (.struct vs)) c s := by
  have e : packbuf.readField (.struct fs) (.struct vs) =
      fun r => (packbuf.readStruct fs vs r).map .struct := by
    funext r
    simp only [packbuf.readField]
  rw [e]
  exact h.map _

/-- A `uint16` field takes two bytes. -/
theorem readField_uint16_readsExactly (v : packbuf.Value) (bs : List Nat)
    (h : bs.length = 2) : ReadsExactly (packbuf.readField .uint16 v) bs (fun n => n = 0) := by
  have e : packbuf.readField .uint16 v =
      fun r => (binaryRead 2 r).map fun bs => .uint (leNat bs) := by
    funext r
    simp only [packbuf.readField]
  rw [e]
  exact (binaryRead_readsExactly 2 bs h (by decide)).map _

/-- A `float32` field takes four bytes. -/
theorem readField_float32_readsExactly (v : packbuf.Value) (bs : List Nat)
    (h : bs.length = 4) :
    ReadsExactly (packbuf.readField .float32 v) bs (fun n => n = 0) := by
  have e : packbuf.readField .float32 v =
      fun r => (binaryRead 4 r).map fun bs => .float32 (float32ViaFloat64 (leNat bs)) := by
    funext r
    simp only [packbuf.readField]
  rw [e]
  exact (binaryRead_readsExactly 4 bs h (by decide)).map _

/-- A `bool` field takes one byte. -/
theorem readField_bool_readsExactly (v : packbuf.Value) (bs : List Nat)
    (h : bs.length = 1) : ReadsExactly (packbuf.readField .bool v) bs (fun n => n = 0) := by
  have e : packbuf.readField .bool v =
      fun r => (binaryRead 1 r).map fun bs => .bool (decide (leNat bs ≠ 0)) := by
    funext r
    simp only [packbuf.readField]
  rw [e]
  exact (binaryRead_readsExactly 1 bs h (by decide)).map _

/-- A `ClientFrameInput` takes the five bytes of its wire layout; its reads start at the
offsets 0, 2, 3 and 4. -/
theorem readStruct_ClientFrameInput_readsExactly (f : packs.ClientFrameInput) :
    ReadsExactly (packbuf.readStruct packs.ClientFrameInputFields
      (packbuf.zeroFields packs.ClientFrameInputFields)) (packs.wireClientFrameInput f)
      (fun n => n = 0 ∨ n = 2 ∨ n = 3 ∨ n = 4) := by
  have hz : packbuf.zeroFields packs.ClientFrameInputFields =
      [.uint 0, .struct [.bool false, .bool false, .bool false]] := by
    simp [packs.ClientFrameInputFields, packs.PlayerInputType, packbuf.zeroFields,
      packbuf.zero]
  have hinput : ReadsExactly
      (packbuf.readStruct (.cons true .bool (.cons true .bool (.cons true .bool .nil)))
        [.bool false, .bool false, .bool false])
      (packs.wireBool f.PlayerInput.IsHoldingLeft ++
        (packs.wireBool f.PlayerInput.IsHoldingRight ++
          packs.wireBool f.PlayerInput.IsHoldingJump))
      (fun n => n = 0 ∨ n = 1 ∨ n = 2) := by
    refine (readStruct_cons_readsExactly _ _ _ _ _ _ _ _
      (readField_bool_readsExactly _ (packs.wireBool f.PlayerInput.IsHoldingLeft) rfl)
      (readStruct_cons_readsExactly _ _ _ _ _ _ _ _
        (readField_bool_readsExactly _ (packs.wireBool f.PlayerInput.IsHoldingRight) rfl)
        (readStruct_last_readsExactly _ _ _ _ _
          (readField_bool_readsExactly _ (packs.wireBool f.PlayerInput.IsHoldingJump)
            rfl)))).congr ?_
    intro n
    simp only [packs.wireBool, List.length_singleton]
    omega
  rw [hz]
  unfold packs.ClientFrameInputFields packs.PlayerInputType packs.wireClientFrameInput
  refine (readStruct_cons_readsExactly _ _ _ _ _ _ _ _
    (readField_uint16_readsExactly _ _ (leBytes_length _ _))
    (readStruct_last_readsExactly _ _ _ _ _
      (readField_struct_readsExactly _ _ _ _ hinput))).congr ?_
  intro n
  simp only [leBytes_length]
  omega

/-- A `PlayerState` takes the nineteen bytes of its wire layout; its reads start at the
offsets 0, 2, 6, 10, 14 and 18. -/
theorem readStruct_PlayerState_readsExactly (q : packs.PlayerState) :
    ReadsExactly (packbuf.readStruct packs.PlayerStateFields
      (packbuf.zeroFields packs.PlayerStateFields)) (packs.wirePlayerState q)
      (fun n => n = 0 ∨ n = 2 ∨ n = 6 ∨ n = 10 ∨ n = 14 ∨ n = 18) := by
  have hz : packbuf.zeroFields packs.PlayerStateFields =
      [.uint 0, .float32 0, .float32 0, .float32 0, .float32 0, .bool false] := by
    simp [packs.PlayerStateFields, packbuf.zeroFields, packbuf.zero]
  rw [hz]
  unfold packs.PlayerStateFields packs.wirePlayerState
  refine (readStruct_cons_readsExactly _ _ _ _ _ _ _ _
    (readField_uint16_readsExactly _ _ (leBytes_length _ _))
    (readStruct_cons_readsExactly _ _ _ _ _ _ _ _
      (readField_float32_readsExactly _ _ (leBytes_length _ _))
      (readStruct_cons_readsExactly _ _ _ _ _ _ _ _
        (readField_float32_readsExactly _ _ (leBytes_length _ _))
        (readStruct_cons_readsExactly _ _ _ _ _ _ _ _
          (readField_float32_readsExactly _ _ (leBytes_length _ _))
          (readStruct_cons_readsExactly _ _ _ _ _ _ _ _
            (readField_float32_readsExactly _ _ (leBytes_length _ _))
            (readStruct_last_readsExactly _ _ _ _ _
              (readField_bool_readsExactly _ (packs.wireBool q.DirLeft) rfl))))))).congr ?_
  intro n
  simp only [leBytes_length]
  omega

/-- The reader that returns without reading takes no byte. -/
theorem readsExactly_ok_nil {α : Type} (v : α) (s : Nat → Prop) :
    ReadsExactly (fun r => (ReadResult.ok v r : ReadResult α)) [] s :=
  ⟨fun _ => ⟨v, rfl⟩, fun _ hpre hne => absurd (List.prefix_nil.mp hpre) hne⟩

/-- The branch of `readStruct` for a slice, after the count has been read as `n`, with
`readElems` the loop over the elements. -/
theorem readsExactly_after_count {α : Type} (v : packbuf.Value)
    (readElems : Nat → List Nat → ReadResult (List packbuf.Value)) (enc : α → List Nat)
    (xs : List α) (s : Nat → Prop)
    (h : ReadsExactly (readElems xs.length) (xs.flatMap enc) s) :
    ReadsExactly (fun rest =>
        if ((xs.length : Nat) : Int) = 0 then (ReadResult.ok v rest : ReadResult packbuf.Value)
        else if ((xs.length : Nat) : Int) < 0 then
          .fail (.panic "reflect.MakeSlice: negative len") rest
        else (readElems ((xs.length : Nat) : Int).toNat rest).map .slice)
      (xs.flatMap enc) s := by
  cases xs with
  | nil => simpa using readsExactly_ok_nil v s
  | cons x xs =>
    have h0 : ¬ (((x :: xs).length : Nat) : Int) = 0 := by simp; omega
    have h1 : ¬ (((x :: xs).length : Nat) : Int) < 0 := by omega
    simp only [if_neg h0, if_neg h1, Int.toNat_ofNat]
    exact h.map _

/-- A slice of structs written with fewer than `2^31` elements of `size` bytes each: the
field takes the four bytes of the count followed by the bytes of the elements; its reads
start at the count and, in every element, where the reads of an element start. -/
theorem readField_slice_struct_readsExactly {α : Type} (fs : packbuf.Fields)
    (enc : α → List Nat) (size : Nat) (s : Nat → Prop) (xs : List α)
    (hlen : xs.length < 2 ^ 31) (v : packbuf.Value)
    (h : ∀ x ∈ xs, (enc x).length = size ∧
      ReadsExactly (packbuf.readStruct fs (packbuf.zeroFields fs)) (enc x) s) :
    ReadsExactly (packbuf.readField (.slice (.struct fs)) v)
      (leBytes 4 (xs.length % 2 ^ 32) ++ xs.flatMap enc)
      (fun n => n = 0 ∨ (4 ≤ n ∧ s ((n - 4) % size))) := by
  have e : packbuf.readField (.slice (.struct fs)) v =
      fun r => (binaryRead 4 r).bind fun bs rest =>
        if toSigned 32 (leNat bs) = 0 then .ok v rest
        else if toSigned 32 (leNat bs) < 0 then
          .fail (.panic "reflect.MakeSlice: negative len") rest
        else
          (packbuf.readItems (fun r => (packbuf.readStruct fs (packbuf.zeroFields fs) r).map
            .struct) (toSigned 32 (leNat bs)).toNat rest).map .slice := by
    funext r
    simp only [packbuf.readField]
  rw [e]
  refine (ReadsExactly.bind_of_value (fun n => s (n % size))
    (binaryRead_readsExactly 4 _ (leBytes_length 4 (xs.length % 2 ^ 32)) (by decide))
    ?_).congr ?_
  · intro bs rest hbs
    rw [binaryRead_leBytes 4 _ rest (by decide)] at hbs
    injection hbs with hbs1
    subst hbs1
    simp only [toSigned_leNat_leBytes_count _ hlen]
    exact readsExactly_after_count v _ enc xs _
      (readItems_readsExactly _ enc size s xs (fun x hx => ⟨(h x hx).1, (h x hx).2.map _⟩))
  · intro n
    simp only [leBytes_length]
    constructor
    · rintro (⟨-, h0⟩ | h1)
      · exact Or.inl h0
      · exact Or.inr h1
    · rintro (h0 | h1)
      · exact Or.inl ⟨by omega, h0⟩
      · exact Or.inr h1

/-- A slice of `uint16` written with fewer than `2^31` elements: the field takes the four
bytes of the count followed by two bytes for each element; its reads start at the count and
at every element. -/
theorem readField_slice_uint16_readsExactly (xs : List Nat) (hlen : xs.length < 2 ^ 31)
    (v : packbuf.Value) :
    ReadsExactly (packbuf.readField (.slice .uint16) v)
      (leBytes 4 (xs.length % 2 ^ 32) ++ xs.flatMap (leBytes 2))
      (fun n => n = 0 ∨ (4 ≤ n ∧ (n - 4) % 2 = 0)) := by
  have e : packbuf.readField (.slice .uint16) v =
      fun r => (binaryRead 4 r).bind fun bs rest =>
        if toSigned 32 (leNat bs) = 0 then .ok v rest
        else if toSigned 32 (leNat bs) < 0 then
          .fail (.panic "reflect.MakeSlice: negative len") rest
        else
          (packbuf.readItems (fun r => (binaryRead 2 r).map fun bs => .uint (leNat bs))
            (toSigned 32 (leNat bs)).toNat rest).map .slice := by
    funext r
    simp only [packbuf.readField]
  rw [e]
  refine (ReadsExactly.bind_of_value (fun n => n % 2 = 0)
    (binaryRead_readsExactly 4 _ (leBytes_length 4 (xs.length % 2 ^ 32)) (by decide))
    ?_).congr ?_
  · intro bs rest hbs
    rw [binaryRead_leBytes 4 _ rest (by decide)] at hbs
    injection hbs with hbs1
    subst hbs1
    simp only [toSigned_leNat_leBytes_count _ hlen]
    exact readsExactly_after_count v _ (leBytes 2) xs _
      (readItems_readsExactly _ (leBytes 2) 2 (fun n => n = 0) xs
        (fun x _ => ⟨leBytes_length 2 x,
          (binaryRead_readsExactly 2 _ (leBytes_length 2 x) (by decide)).map _⟩))
  · intro n
    simp only [leBytes_length]
    omega

/-- The body of a registered packet whose sequence has fewer than `2^31` elements:
`packbuf.Read` into a fresh struct takes exactly the bytes of the body, and its reads start
where `readStartsAt` says, three bytes into the envelope. -/
theorem packbuf_Read_body_readsExactly (p : packs.Packet) (hlen : p.sequenceLength < 2 ^ 31) :
    ReadsExactly (fun r => packbuf.Read r p.type (packbuf.zero p.type)) (packs.wireBody p)
      (fun m => p.readStartsAt (m + 3) = true) := by
  cases p with
  | Ack a =>
    have e : (fun r => packbuf.Read r (packs.Packet.Ack a).type
        (packbuf.zero (packs.Packet.Ack a).type)) =
        fun r => (packbuf.readStruct (.cons true (.slice .uint16) .nil) [.slice []] r).map
          .struct := by
      funext r
      simp [packs.Packet.type, packs.AckPacketType, packbuf.Read, packbuf.zero,
        packbuf.zeroFields]
    rw [e]
    simp only [packs.wireBody]
    refine ((readStruct_last_readsExactly _ _ _ _ _
      (readField_slice_uint16_readsExactly a.SequenceIDList hlen _)).map _).congr ?_
    intro n
    simp only [packs.Packet.readStartsAt, decide_eq_true_eq]
    omega
  | ClientPlayer a =>
    have e : (fun r => packbuf.Read r (packs.Packet.ClientPlayer a).type
        (packbuf.zero (packs.Packet.ClientPlayer a).type)) =
        fun r => (packbuf.readStruct
          (.cons true (.slice (.struct packs.ClientFrameInputFields)) .nil)
          [.slice []] r).map .struct := by
      funext r
      simp [packs.Packet.type, packs.ClientPlayerPacketType, packbuf.Read, packbuf.zero,
        packbuf.zeroFields]
    rw [e]
    simp only [packs.wireBody]
    refine ((readStruct_last_readsExactly _ _ _ _ _
      (readField_slice_struct_readsExactly _ packs.wireClientFrameInput 5 _ a.InputBuffer
        hlen _ (fun f _ => ⟨wireClientFrameInput_length f,
          readStruct_ClientFrameInput_readsExactly f⟩))).map _).congr ?_
    intro n
    simp only [packs.Packet.readStartsAt, decide_eq_true_eq]
    omega
  | ServerWorldState a =>
    have e : (fun r => packbuf.Read r (packs.Packet.ServerWorldState a).type
        (packbuf.zero (packs.Packet.ServerWorldState a).type)) =
        fun r => (packbuf.readStruct
          (.cons true .uint16 (.cons true .uint16
            (.cons true (.slice (.struct packs.PlayerStateFields)) .nil)))
          [.uint 0, .uint 0, .slice []] r).map .struct := by
      funext r
      simp [packs.Packet.type, packs.ServerWorldStatePacketType, packbuf.Read, packbuf.zero,
        packbuf.zeroFields]
    rw [e]
    simp only [packs.wireBody]
    refine ((readStruct_cons_readsExactly _ _ _ _ _ _ _ _
      (readField_uint16_readsExactly _ _ (leBytes_length 2 a.MyNetID))
      (readStruct_cons_readsExactly _ _ _ _ _ _ _ _
        (readField_uint16_readsExactly _ _ (leBytes_length 2 a.LastSimulatedInputFrame))
        (readStruct_last_readsExactly _ _ _ _ _
          (readField_slice_struct_readsExactly _ packs.wirePlayerState 19 _ a.Players
            hlen _ (fun q _ => ⟨wirePlayerState_length q,
              readStruct_PlayerState_readsExactly q⟩))))).map _).congr ?_
    intro n
    simp only [packs.Packet.readStartsAt, decide_eq_true_eq, leBytes_length]
    omega

/-- Sequencing after a read that succeeded. -/
theorem ReadResult.ok_bind {α β : Type} (v : α) (r : List Nat)
    (f : α → List Nat → ReadResult β) : (ReadResult.ok v r).bind f = f v r := rfl

/-- The type registered under the tag of a packet is the type of the packet. -/
theorem packetIDToType_ID (p : packs.Packet) :
    packs.packetIDToType (leNat [p.ID]) = some p.type := by
  cases p <;> rfl

/-- `packs.Read` on a strict prefix of an envelope whose sequence has fewer than `2^31`
elements: it fails, leaving nothing unread, with `io.EOF` when the prefix ends where a read
starts and with `io.ErrUnexpectedEOF` when it ends inside a fixed-width value. -/
theorem packs_Read_truncated (seqID : Nat) (p : packs.Packet)
    (hlen : p.sequenceLength < 2 ^ 31) (pre : List Nat)
    (hpre : pre <+: packs.wireEnvelope seqID p) (hne : pre ≠ packs.wireEnvelope seqID p) :
    packs.Read pre =
      .fail (.err (if p.readStartsAt pre.length then .EOF else .ErrUnexpectedEOF)) [] := by
  cases pre with
  | nil =>
    have h0 : p.readStartsAt 0 = true := by cases p <;> rfl
    simp only [List.length_nil, h0, if_true]
    rfl
  | cons a pre1 =>
    unfold packs.wireEnvelope at hpre hne
    obtain ⟨ha, hpre1⟩ := List.cons_prefix_cons.mp hpre
    subst ha
    have hne1 : pre1 ≠ leBytes 2 seqID ++ packs.wireBody p := fun h => hne (by rw [h])
    have hread : packs.Read (p.ID :: pre1) =
        (binaryRead 2 pre1).bind fun bs r2 =>
          (packbuf.Read r2 p.type (packbuf.zero p.type)).bind fun v r3 =>
            match packs.Packet.ofValue (leNat [p.ID]) v with
            | some packet => .ok (leNat bs, packet) r3
            | none => .fail packbuf.illTyped r3 := by
      simp only [packs.Read, binaryRead_one, ReadResult.ok_bind, packetIDToType_ID]
    rw [hread]
    rcases strict_initial_segment_cases pre1 _ _ hpre1 hne1 with ⟨hp, hn⟩ | ⟨p2, hp, hp2, hn2⟩
    · have hl : pre1.length < 2 := by
        have := length_lt_of_strict_initial_segment pre1 _ hp hn
        rwa [leBytes_length] at this
      rcases Nat.lt_or_ge pre1.length 1 with h0 | h1
      · have hnil : pre1 = [] := List.length_eq_zero.mp (by omega)
        subst hnil
        have h1 : p.readStartsAt 1 = true := by cases p <;> rfl
        simp only [List.length_cons, List.length_nil, Nat.zero_add, h1, if_true]
        rfl
      · obtain ⟨x, hx⟩ := List.length_eq_one.mp (by omega : pre1.length = 1)
        subst hx
        have h2 : p.readStartsAt 2 = false := by cases p <;> rfl
        simp only [List.length_cons, List.length_nil, Nat.zero_add, Nat.reduceAdd, h2,
          Bool.false_eq_true, if_false]
        rfl
    · subst hp
      have hb : binaryRead 2 (leBytes 2 seqID ++ p2) = .ok (leBytes 2 seqID) p2 :=
        binaryRead_leBytes 2 seqID p2 (by decide)
      have hl : (p.ID :: (leBytes 2 seqID ++ p2)).length = p2.length + 3 := by
        simp only [List.length_cons, List.length_append, leBytes_length]
        omega
      rw [hl]
      simp only [hb, ReadResult.ok_bind]
      obtain ⟨hs, hu⟩ := (packbuf_Read_body_readsExactly p hlen).2 p2 hp2 hn2
      simp only [] at hs hu
      cases hstart : p.readStartsAt (p2.length + 3) with
      | true =>
        rw [hs hstart]
        rfl
      | false =>
        rw [hu (by rw [hstart]; simp)]
        rfl

/-- C30 (as amended): for every registered packet whose sequence has fewer than `2^31`
elements, `packs.Read` on a strict prefix of the bytes `packs.Write` produces returns no
packet: it fails, leaving nothing unread, with `io.EOF` when the prefix ends at an offset
where a fixed-width read starts (`readStartsAt`: 0, 1 after the tag, 3 after the sequence
number, and the first byte of every count and of every field of every element), and with
`io.ErrUnexpectedEOF` when it ends inside a fixed-width value. So `io.EOF` is returned on
the prefixes of length 1 and 3 as well as on the empty prefix. -/
theorem packs_Read_truncated_envelope (tracker : rtt.RoundTripTracking) (now : Int)
    (p : packs.Packet) (hlen : p.sequenceLength < 2 ^ 31) (pre : List Nat)
    (hpre : pre <+: (packs.Write tracker now p).1.bytes)
    (hne : pre ≠ (packs.Write tracker now p).1.bytes) :
    packs.Read pre =
        .fail (.err (if p.readStartsAt pre.length then .EOF else .ErrUnexpectedEOF)) [] ∧
      (pre.length = 0 ∨ pre.length = 1 ∨ pre.length = 3 →
        packs.Read pre = .fail (.err .EOF) []) ∧
      (pre.length = 2 → packs.Read pre = .fail (.err .ErrUnexpectedEOF) []) := by
  rw [packs_Write_eq_wireEnvelope] at hpre hne
  have h := packs_Read_truncated tracker.packetSequenceID p hlen pre hpre hne
  refine ⟨h, ?_, ?_⟩
  · intro hl
    have hs : p.readStartsAt pre.length = true := by
      rcases hl with h0 | h0 | h0 <;> rw [h0] <;> cases p <;> rfl
    rw [h, hs]
    rfl
  · intro hl
    have hs : p.readStartsAt pre.length = false := by
      rw [hl]
      cases p <;> rfl
    rw [h, hs]
    rfl

/-- C30 at concrete prefixes of the envelope of an `AckPacket` that lists one sequence
number, `01 00 00 01 00 00 00 07 00`: cut after five bytes, inside the count, it gives
`io.ErrUnexpectedEOF`; cut after seven bytes, before the element, it gives `io.EOF`. -/
theorem packs_Read_truncated_envelope_witness :
    packs.Read [1, 0, 0, 1, 0] =
        .fail (.err (if (packs.Packet.Ack ⟨[7]⟩).readStartsAt [1, 0, 0, 1, 0].length then .EOF
          else .ErrUnexpectedEOF)) [] ∧
      packs.Read [1, 0, 0, 1, 0, 0, 0] =
        .fail (.err (if (packs.Packet.Ack ⟨[7]⟩).readStartsAt
          [1, 0, 0, 1, 0, 0, 0].length then .EOF else .ErrUnexpectedEOF)) [] ∧
      packs.Read [1, 0, 0, 1, 0] = .fail (.err .ErrUnexpectedEOF) [] ∧
      packs.Read [1, 0, 0, 1, 0, 0, 0] = .fail (.err .EOF) [] :=
  ⟨(packs_Read_truncated_envelope rtt.RoundTripTracking.fresh 63750000000000000000
      (.Ack ⟨[7]⟩) (by decide) [1, 0, 0, 1, 0] (by decide) (by decide)).1,
    (packs_Read_truncated_envelope rtt.RoundTripTracking.fresh 63750000000000000000
      (.Ack ⟨[7]⟩) (by decide) [1, 0, 0, 1, 0, 0, 0] (by decide) (by decide)).1,
    by decide, by decide⟩

/-- C30 as stated fails: the envelope of an empty `AckPacket` is seven bytes; on its prefix
of one byte, the tag, `packs.Read` returns `io.EOF`, and so it does on its prefix of three
bytes, although neither prefix is empty. -/
theorem packs_Read_truncated_envelope_counterexample :
    (packs.Write rtt.RoundTripTracking.fresh 63750000000000000000 (.Ack ⟨[]⟩)).1.bytes =
      [1, 0, 0, 0, 0, 0, 0] ∧
    packs.Read [1] = .fail (.err .EOF) [] ∧
    packs.Read [1, 0, 0] = .fail (.err .EOF) [] := by
  decide
